import Mathlib

/-!
# Buildpack lifecycle builder (`builder.go`)

A shallow embedding of `src/builder.go`: the process registry (`processMap`), the
environment composer (`setupEnv`, `eachDir`) and the two orchestration loops
(`Builder.Build`, `Builder.Develop`), followed by the properties proved about them.

Go strings are embedded as `String`.  Go compares strings bytewise; on UTF-8 text this is
the lexicographic order of the code points, which is the order of `String.toList`.
-/

namespace lifecycle

/-- Go `error` values (nil is `none` in an `Option Err`). -/
abbrev Err := String

/-- Go: `type Process struct { Type string; Command string }`.
The field `Type` is spelled `Type_` since `Type` is reserved. -/
structure Process where
  Type_ : String
  Command : String
deriving DecidableEq, Repr

/-- Go: `type LaunchTOML struct { Processes []Process }`. -/
structure LaunchTOML where
  Processes : List Process
deriving DecidableEq, Repr

/-- Go: `type BuildMetadata LaunchTOML`. -/
structure BuildMetadata where
  Processes : List Process
deriving DecidableEq, Repr

/-- Go: `type DevelopTOML struct { Processes []Process }`. -/
structure DevelopTOML where
  Processes : List Process
deriving DecidableEq, Repr

/-- Go: `type DevelopMetadata DevelopTOML`. -/
structure DevelopMetadata where
  Processes : List Process
deriving DecidableEq, Repr

/-! ## Process registry -/

/-- The comparison `sort.Strings` sorts by: `a <= b` on Go strings. -/
def strLE (a b : String) : Prop := a.toList ≤ b.toList

instance strLE.decidable : DecidableRel strLE :=
  fun a b => inferInstanceAs (Decidable (a.toList ≤ b.toList))

/-- Go: `sort.Strings(keys)`; the keys of a map are distinct, so the ascending
arrangement is unique and the sorting algorithm does not matter. -/
def sortStrings (keys : List String) : List String := List.insertionSort strLE keys

/-- Go: `type processMap map[string]Process`, as the list of its entries, one per key. -/
abbrev processMap := List (String × Process)

namespace processMap

/-- Go: `processMap{}`. -/
def empty : processMap := []

/-- Go: `m[key] = proc`: overwrite the entry of `key` or create it. -/
def set : processMap → String → Process → processMap
  | [], key, proc => [(key, proc)]
  | (k, p) :: rest, key, proc =>
    if k = key then (key, proc) :: rest else (k, p) :: set rest key proc

/-- The entry of `key`, if the map has one. -/
def find? : processMap → String → Option Process
  | [], _ => none
  | (k, p) :: rest, key => if k = key then some p else find? rest key

/-- Go: `m[key]` as an expression: the entry, or the zero `Process` for an absent key. -/
def get (m : processMap) (key : String) : Process := (find? m key).getD ⟨"", ""⟩

/-- Go: `for key := range m { keys = append(keys, key) }`. -/
def keys (m : processMap) : List String := m.map Prod.fst

/-- Go:
```go
func (m processMap) add(l []Process) {
	for _, proc := range l {
		m[proc.Type] = proc
	}
}
``` -/
def add (m : processMap) : List Process → processMap
  | [] => m
  | proc :: l => add (set m proc.Type_ proc) l

/-- Go:
```go
func (m processMap) list() []Process {
	var keys []string
	for key := range m {
		keys = append(keys, key)
	}
	sort.Strings(keys)
	var procs []Process
	for _, key := range keys {
		procs = append(procs, m[key])
	}
	return procs
}
``` -/
def list (m : processMap) : List Process := (sortStrings (keys m)).map (get m)

/-- The registry after the declaration lists `ls` were added in order to an empty map. -/
def addAll (ls : List (List Process)) : processMap := ls.foldl add empty

end processMap

/-- Spec side of the merge rule: the last declaration of type `t` in `l`. -/
def lastDeclaration (l : List Process) (t : String) : Option Process :=
  (l.filter (fun p => p.Type_ = t)).getLast?

/-! ## The world outside the repository -/

/-- Go: `os.FileInfo`, as far as the code reads it: `Name()` and `IsDir()`. -/
structure FileInfo where
  Name : String
  IsDir : Bool
deriving DecidableEq, Repr

/-- Modelled from the spec: the buildpack descriptor `{ ID: string, Dir: path }`, whose
Go declaration is not among the sources; the code reads `bp.ID` and `bp.Dir`. -/
structure Buildpack where
  ID : String
  Dir : String
deriving DecidableEq, Repr

/-- Modelled from the spec: the buildpack group, an ordered sequence of descriptors. -/
abbrev BuildpackGroup := List Buildpack

/-- An `io.Writer`, identified by a handle. -/
abbrev Writer := Nat

/-- Go: `type Builder struct { PlatformDir string; Buildpacks BuildpackGroup; Out, Err io.Writer }`. -/
structure Builder where
  PlatformDir : String
  Buildpacks : BuildpackGroup
  Out : Writer
  Err : Writer
deriving DecidableEq, Repr

/-- The fields of `exec.Cmd` the code sets: `exec.Command(Name, Args...)`, then `Env`,
`Dir`, `Stdout`, `Stderr`. -/
structure Cmd where
  Name : String
  Args : List String
  Env : List String
  Dir : String
  Stdout : Writer
  Stderr : Writer
deriving DecidableEq, Repr

/-- A call that leaves the repository's code: standard library, `toml`, or a method of
the `Env` interface. -/
inductive Call where
  | MkdirAll (path : String) (perm : Nat)
  | Abs (path : String)
  | List
  | Run (cmd : Cmd)
  | ReadDir (dirname : String)
  | AppendDirs (baseDir : String)
  | SetEnvDir (envDir : String)
  | AddEnvDir (envDir : String)
  | DecodeFile (fpath : String)
deriving DecidableEq, Repr

/-- A call together with the error it returned (`none` is Go's `nil`). -/
structure Event where
  call : Call
  err : Option Err
deriving DecidableEq, Repr

/-- The behaviour of everything the code calls but does not define.  `ω` is the state of
the operating system (file system, working directory, child processes); `ε` is the state
of the `Env` value handed to `Build`/`Develop`.  The standard library and the child
process act on `ω`; the methods of the `Env` interface are arbitrary and act on both. -/
structure Sys (ω ε : Type) where
  /-- Go: `filepath.Join(elem...)`. -/
  Join : List String → String
  /-- Go: `filepath.Abs(path)`. -/
  Abs : String → ω → Except Err String
  /-- Go: `os.MkdirAll(path, perm)`. -/
  MkdirAll : String → Nat → ω → Option Err × ω
  /-- Go: `cmd.Run()`. -/
  Run : Cmd → ω → Option Err × ω
  /-- Go: `ioutil.ReadDir(dirname)`. -/
  ReadDir : String → ω → Except Err (List FileInfo)
  /-- Go: `toml.DecodeFile(fpath, &v)`, giving the decoded `processes`. -/
  DecodeFile : String → ω → Except Err (List Process)
  /-- Go: `env.AppendDirs(baseDir)`. -/
  AppendDirs : String → ω × ε → Option Err × (ω × ε)
  /-- Go: `env.AddEnvDir(envDir)`. -/
  AddEnvDir : String → ω × ε → Option Err × (ω × ε)
  /-- Go: `env.SetEnvDir(envDir)`. -/
  SetEnvDir : String → ω × ε → Option Err × (ω × ε)
  /-- Go: `env.List()`. -/
  List : ω × ε → List String × (ω × ε)

/-- The state threaded through the code: the world, and the calls made so far. -/
structure State (ω ε : Type) where
  os : ω
  env : ε
  trace : List Event

/-- The error of a Go `(value, error)` result. -/
def errOf {α : Type} : Except Err α → Option Err
  | .error err => some err
  | .ok _ => none

section calls

variable {ω ε : Type}

/-- `os.MkdirAll(path, perm)`, recorded. -/
def osMkdirAll (sys : Sys ω ε) (path : String) (perm : Nat) (s : State ω ε) :
    Option Err × State ω ε :=
  let r := sys.MkdirAll path perm s.os
  (r.1, ⟨r.2, s.env, s.trace ++ [⟨Call.MkdirAll path perm, r.1⟩]⟩)

/-- `filepath.Abs(path)`, recorded. -/
def filepathAbs (sys : Sys ω ε) (path : String) (s : State ω ε) :
    Except Err String × State ω ε :=
  let r := sys.Abs path s.os
  (r, ⟨s.os, s.env, s.trace ++ [⟨Call.Abs path, errOf r⟩]⟩)

/-- `env.List()`, recorded. -/
def envList (sys : Sys ω ε) (s : State ω ε) : List String × State ω ε :=
  let r := sys.List (s.os, s.env)
  (r.1, ⟨r.2.1, r.2.2, s.trace ++ [⟨Call.List, none⟩]⟩)

/-- `cmd.Run()`, recorded. -/
def cmdRun (sys : Sys ω ε) (cmd : Cmd) (s : State ω ε) : Option Err × State ω ε :=
  let r := sys.Run cmd s.os
  (r.1, ⟨r.2, s.env, s.trace ++ [⟨Call.Run cmd, r.1⟩]⟩)

/-- `ioutil.ReadDir(dirname)`, recorded. -/
def ioutilReadDir (sys : Sys ω ε) (dirname : String) (s : State ω ε) :
    Except Err (List FileInfo) × State ω ε :=
  let r := sys.ReadDir dirname s.os
  (r, ⟨s.os, s.env, s.trace ++ [⟨Call.ReadDir dirname, errOf r⟩]⟩)

/-- `toml.DecodeFile(fpath, &v)`, recorded. -/
def tomlDecodeFile (sys : Sys ω ε) (fpath : String) (s : State ω ε) :
    Except Err (List Process) × State ω ε :=
  let r := sys.DecodeFile fpath s.os
  (r, ⟨s.os, s.env, s.trace ++ [⟨Call.DecodeFile fpath, errOf r⟩]⟩)

/-- `env.AppendDirs(baseDir)`, recorded. -/
def envAppendDirs (sys : Sys ω ε) (baseDir : String) (s : State ω ε) :
    Option Err × State ω ε :=
  let r := sys.AppendDirs baseDir (s.os, s.env)
  (r.1, ⟨r.2.1, r.2.2, s.trace ++ [⟨Call.AppendDirs baseDir, r.1⟩]⟩)

/-- `env.SetEnvDir(envDir)`, recorded. -/
def envSetEnvDir (sys : Sys ω ε) (envDir : String) (s : State ω ε) :
    Option Err × State ω ε :=
  let r := sys.SetEnvDir envDir (s.os, s.env)
  (r.1, ⟨r.2.1, r.2.2, s.trace ++ [⟨Call.SetEnvDir envDir, r.1⟩]⟩)

/-- `env.AddEnvDir(envDir)`, recorded. -/
def envAddEnvDir (sys : Sys ω ε) (envDir : String) (s : State ω ε) :
    Option Err × State ω ε :=
  let r := sys.AddEnvDir envDir (s.os, s.env)
  (r.1, ⟨r.2.1, r.2.2, s.trace ++ [⟨Call.AddEnvDir envDir, r.1⟩]⟩)

/-! ## Environment composer -/

/-- Go:
```go
func eachDir(files []os.FileInfo, fn func(os.FileInfo) error) error {
	for _, f := range files {
		if !f.IsDir() {
			continue
		}
		if err := fn(f); err != nil {
			return err
		}
	}
	return nil
}
``` -/
def eachDir (files : List FileInfo) (fn : FileInfo → State ω ε → Option Err × State ω ε)
    (s : State ω ε) : Option Err × State ω ε :=
  match files with
  | [] => (none, s)
  | f :: rest =>
    if !f.IsDir then eachDir rest fn s
    else
      match fn f s with
      | (some err, s) => (some err, s)
      | (none, s) => eachDir rest fn s

/-- Go: `func setupEnv(env Env, cacheDir string) error` (builder.go:113-131). -/
def setupEnv (sys : Sys ω ε) (cacheDir : String) (s : State ω ε) : Option Err × State ω ε :=
  match ioutilReadDir sys cacheDir s with
  | (.error err, s) => (some err, s)
  | (.ok cacheFiles, s) =>
    match eachDir cacheFiles
        (fun layer => envAppendDirs sys (sys.Join [cacheDir, layer.Name])) s with
    | (some err, s) => (some err, s)
    | (none, s) =>
      match eachDir cacheFiles
          (fun layer => envSetEnvDir sys (sys.Join [cacheDir, layer.Name, "env", "set"])) s with
      | (some err, s) => (some err, s)
      | (none, s) =>
        eachDir cacheFiles
          (fun layer => envAddEnvDir sys (sys.Join [cacheDir, layer.Name, "env", "add"])) s

/-! ## Orchestrator -/

/-- The body of the `for _, bp := range b.Buildpacks` loop of `Build` (builder.go:41-68);
`some err` is `return nil, err`. -/
def buildIter (sys : Sys ω ε) (b : Builder) (appDir launchDir cacheDir : String)
    (bp : Buildpack) (procMap : processMap) (s : State ω ε) :
    Option Err × processMap × State ω ε :=
  let bpLaunchDir := sys.Join [launchDir, bp.ID]
  let bpCacheDir := sys.Join [cacheDir, bp.ID]
  match osMkdirAll sys bpLaunchDir 0o777 s with
  | (some err, s) => (some err, procMap, s)
  | (none, s) =>
  match osMkdirAll sys bpCacheDir 0o777 s with
  | (some err, s) => (some err, procMap, s)
  | (none, s) =>
  match filepathAbs sys (sys.Join [bp.Dir, "bin", "build"]) s with
  | (.error err, s) => (some err, procMap, s)
  | (.ok buildPath, s) =>
  match envList sys s with
  | (env, s) =>
  match cmdRun sys ⟨buildPath, [bpLaunchDir, bpCacheDir, b.PlatformDir], env, appDir,
      b.Out, b.Err⟩ s with
  | (some err, s) => (some err, procMap, s)
  | (none, s) =>
  match setupEnv sys bpCacheDir s with
  | (some err, s) => (some err, procMap, s)
  | (none, s) =>
  match tomlDecodeFile sys (sys.Join [bpLaunchDir, "launch.toml"]) s with
  | (.error err, s) => (some err, procMap, s)
  | (.ok processes, s) =>
    let launch : LaunchTOML := ⟨processes⟩
    (none, procMap.add launch.Processes, s)

/-- The loop of `Build` over the buildpack group, leaving at the first error. -/
def buildLoop (sys : Sys ω ε) (b : Builder) (appDir launchDir cacheDir : String) :
    List Buildpack → processMap → State ω ε → Option Err × processMap × State ω ε
  | [], procMap, s => (none, procMap, s)
  | bp :: rest, procMap, s =>
    match buildIter sys b appDir launchDir cacheDir bp procMap s with
    | (some err, procMap, s) => (some err, procMap, s)
    | (none, procMap, s) => buildLoop sys b appDir launchDir cacheDir rest procMap s

/-- Go: `func (b *Builder) Build(appDir, launchDir, cacheDir string, env Env)
(*BuildMetadata, error)`; the result pair is Go's (pointer, error), `none` being `nil`. -/
def Builder.Build (sys : Sys ω ε) (b : Builder) (appDir launchDir cacheDir : String)
    (s : State ω ε) : (Option BuildMetadata × Option lifecycle.Err) × State ω ε :=
  match buildLoop sys b appDir launchDir cacheDir b.Buildpacks processMap.empty s with
  | (some err, _, s) => ((none, some err), s)
  | (none, procMap, s) => ((some ⟨procMap.list⟩, none), s)

/-- The body of the `for _, bp := range b.Buildpacks` loop of `Develop`
(builder.go:84-106). -/
def developIter (sys : Sys ω ε) (b : Builder) (appDir cacheDir : String)
    (bp : Buildpack) (procMap : processMap) (s : State ω ε) :
    Option Err × processMap × State ω ε :=
  let bpCacheDir := sys.Join [cacheDir, bp.ID]
  match osMkdirAll sys bpCacheDir 0o777 s with
  | (some err, s) => (some err, procMap, s)
  | (none, s) =>
  match envList sys s with
  | (env, s) =>
  match cmdRun sys ⟨sys.Join [bp.Dir, "bin", "develop"], [bpCacheDir, b.PlatformDir], env,
      appDir, b.Out, b.Err⟩ s with
  | (some err, s) => (some err, procMap, s)
  | (none, s) =>
  match setupEnv sys bpCacheDir s with
  | (some err, s) => (some err, procMap, s)
  | (none, s) =>
  match tomlDecodeFile sys (sys.Join [bpCacheDir, "develop.toml"]) s with
  | (.error err, s) => (some err, procMap, s)
  | (.ok processes, s) =>
    let develop : DevelopTOML := ⟨processes⟩
    (none, procMap.add develop.Processes, s)

/-- The loop of `Develop` over the buildpack group, leaving at the first error. -/
def developLoop (sys : Sys ω ε) (b : Builder) (appDir cacheDir : String) :
    List Buildpack → processMap → State ω ε → Option Err × processMap × State ω ε
  | [], procMap, s => (none, procMap, s)
  | bp :: rest, procMap, s =>
    match developIter sys b appDir cacheDir bp procMap s with
    | (some err, procMap, s) => (some err, procMap, s)
    | (none, procMap, s) => developLoop sys b appDir cacheDir rest procMap s

/-- Go: `func (b *Builder) Develop(appDir, cacheDir string, env Env)
(*DevelopMetadata, error)`. -/
def Builder.Develop (sys : Sys ω ε) (b : Builder) (appDir cacheDir : String)
    (s : State ω ε) : (Option DevelopMetadata × Option lifecycle.Err) × State ω ε :=
  match developLoop sys b appDir cacheDir b.Buildpacks processMap.empty s with
  | (some err, _, s) => ((none, some err), s)
  | (none, procMap, s) => ((some ⟨procMap.list⟩, none), s)

end calls

/-! ## Describing what a run records -/

/-- The record of a call that returned no error. -/
def Event.ok (c : Call) : Event := ⟨c, none⟩

/-- The command of a `cmd.Run()` call. -/
def Call.cmd? : Call → Option Cmd
  | .Run cmd => some cmd
  | _ => none

/-- The child processes spawned, in order, among the recorded calls. -/
def runsOf (evs : List Event) : List Cmd := evs.filterMap (fun ev => ev.call.cmd?)

/-- A call to one of the three composition methods of `Env`. -/
def Call.isStore : Call → Bool
  | .AppendDirs _ => true
  | .SetEnvDir _ => true
  | .AddEnvDir _ => true
  | _ => false

/-- A call to `toml.DecodeFile`. -/
def Call.isDecode : Call → Bool
  | .DecodeFile _ => true
  | _ => false

/-- A call that belongs to environment composition: listing the cache directory, or one
of the three composition methods. -/
def Call.isCompose : Call → Bool
  | .ReadDir _ => true
  | c => c.isStore

section shapes

variable {ω ε : Type}

/-- The directories of a listing, in listing order. -/
def layerDirs (files : List FileInfo) : List FileInfo := files.filter (fun f => f.IsDir)

/-- The listing `ioutil.ReadDir(dirname)` gives in `os` (empty when it fails). -/
def listing (sys : Sys ω ε) (dirname : String) (os : ω) : List FileInfo :=
  match sys.ReadDir dirname os with
  | .ok files => files
  | .error _ => []

/-- The three phases of store calls for a cache directory with listing `files`. -/
def storeCalls (sys : Sys ω ε) (cacheDir : String) (files : List FileInfo) : List Call :=
  (layerDirs files).map (fun d => Call.AppendDirs (sys.Join [cacheDir, d.Name]))
    ++ (layerDirs files).map (fun d => Call.SetEnvDir (sys.Join [cacheDir, d.Name, "env", "set"]))
    ++ (layerDirs files).map (fun d => Call.AddEnvDir (sys.Join [cacheDir, d.Name, "env", "add"]))

/-- The calls of a complete `setupEnv` on a cache directory with listing `files`. -/
def composeCalls (sys : Sys ω ε) (cacheDir : String) (files : List FileInfo) : List Call :=
  Call.ReadDir cacheDir :: storeCalls sys cacheDir files

/-- The calls of one complete pass of the loop body of `Build` for `bp`, spawning `cmd`
and finding the listing `files` in the cache directory. -/
def buildCalls (sys : Sys ω ε) (launchDir cacheDir : String) (bp : Buildpack)
    (cmd : Cmd) (files : List FileInfo) : List Call :=
  [Call.MkdirAll (sys.Join [launchDir, bp.ID]) 0o777,
   Call.MkdirAll (sys.Join [cacheDir, bp.ID]) 0o777,
   Call.Abs (sys.Join [bp.Dir, "bin", "build"]),
   Call.List,
   Call.Run cmd]
    ++ composeCalls sys (sys.Join [cacheDir, bp.ID]) files
    ++ [Call.DecodeFile (sys.Join [sys.Join [launchDir, bp.ID], "launch.toml"])]

/-- The calls of one complete pass of the loop body of `Develop` for `bp`. -/
def developCalls (sys : Sys ω ε) (cacheDir : String) (bp : Buildpack)
    (cmd : Cmd) (files : List FileInfo) : List Call :=
  [Call.MkdirAll (sys.Join [cacheDir, bp.ID]) 0o777,
   Call.List,
   Call.Run cmd]
    ++ composeCalls sys (sys.Join [cacheDir, bp.ID]) files
    ++ [Call.DecodeFile (sys.Join [sys.Join [cacheDir, bp.ID], "develop.toml"])]

/-- The events `evs` are what making the calls `calls` in order, and stopping at the
first error, records: with `r = none` every call was made and none failed; with
`r = some e` the calls up to some call `c` were made, `c` returned `e`, the ones before
it returned no error, and no call was made after `c`. -/
def Recorded (calls : List Call) (r : Option Err) (evs : List Event) : Prop :=
  match r with
  | none => evs = calls.map Event.ok
  | some e => ∃ done c rest, calls = done ++ c :: rest ∧ evs = done.map Event.ok ++ [⟨c, some e⟩]

/-- The command `cmd` is the invocation of `bp`'s `bin/build`: made absolute, with the
arguments, working directory and streams of `Build`. -/
def IsBuildCmd (sys : Sys ω ε) (b : Builder) (appDir launchDir cacheDir : String)
    (bp : Buildpack) (cmd : Cmd) : Prop :=
  (∃ os, sys.Abs (sys.Join [bp.Dir, "bin", "build"]) os = .ok cmd.Name)
    ∧ cmd.Args = [sys.Join [launchDir, bp.ID], sys.Join [cacheDir, bp.ID], b.PlatformDir]
    ∧ cmd.Dir = appDir ∧ cmd.Stdout = b.Out ∧ cmd.Stderr = b.Err

/-- The command `cmd` is the invocation of `bp`'s `bin/develop` with the arguments,
working directory and streams of `Develop`. -/
def IsDevelopCmd (sys : Sys ω ε) (b : Builder) (appDir cacheDir : String)
    (bp : Buildpack) (cmd : Cmd) : Prop :=
  cmd.Name = sys.Join [bp.Dir, "bin", "develop"]
    ∧ cmd.Args = [sys.Join [cacheDir, bp.ID], b.PlatformDir]
    ∧ cmd.Dir = appDir ∧ cmd.Stdout = b.Out ∧ cmd.Stderr = b.Err

/-- The events `block` are a complete, successful pass of the loop body of `Build`
for `bp`. -/
def IsBuildBlock (sys : Sys ω ε) (b : Builder) (appDir launchDir cacheDir : String)
    (bp : Buildpack) (block : List Event) : Prop :=
  ∃ cmd files, IsBuildCmd sys b appDir launchDir cacheDir bp cmd
    ∧ block = (buildCalls sys launchDir cacheDir bp cmd files).map Event.ok

/-- The events `block` are a complete, successful pass of the loop body of `Develop`
for `bp`. -/
def IsDevelopBlock (sys : Sys ω ε) (b : Builder) (appDir cacheDir : String)
    (bp : Buildpack) (block : List Event) : Prop :=
  ∃ cmd files, IsDevelopCmd sys b appDir cacheDir bp cmd
    ∧ block = (developCalls sys cacheDir bp cmd files).map Event.ok

/-- The command `Build` spawns for `bp` when its loop body starts in state `s`: the
environment is `env.List()` on the store as it is at the start of the pass (the two
`MkdirAll` and `Abs` act on the operating system only). -/
def buildCmd (sys : Sys ω ε) (b : Builder) (appDir launchDir cacheDir : String)
    (bp : Buildpack) (s : State ω ε) : Cmd :=
  let os1 := (sys.MkdirAll (sys.Join [launchDir, bp.ID]) 0o777 s.os).2
  let os2 := (sys.MkdirAll (sys.Join [cacheDir, bp.ID]) 0o777 os1).2
  ⟨match sys.Abs (sys.Join [bp.Dir, "bin", "build"]) os2 with
    | .ok buildPath => buildPath
    | .error _ => "",
   [sys.Join [launchDir, bp.ID], sys.Join [cacheDir, bp.ID], b.PlatformDir],
   (sys.List (os2, s.env)).1, appDir, b.Out, b.Err⟩

/-- The state right after the `cmd.Run()` of the pass of `Build` for `bp` that starts in
state `s`: the two `MkdirAll`, `Abs`, `List` and `Run` have been made.  It is the state
in which `setupEnv` lists the cache directory. -/
def buildRunState (sys : Sys ω ε) (b : Builder) (appDir launchDir cacheDir : String)
    (bp : Buildpack) (s : State ω ε) : State ω ε :=
  let s1 := (osMkdirAll sys (sys.Join [launchDir, bp.ID]) 0o777 s).2
  let s2 := (osMkdirAll sys (sys.Join [cacheDir, bp.ID]) 0o777 s1).2
  let s3 := (filepathAbs sys (sys.Join [bp.Dir, "bin", "build"]) s2).2
  let s4 := (envList sys s3).2
  (cmdRun sys (buildCmd sys b appDir launchDir cacheDir bp s) s4).2

/-- The command `Develop` spawns for `bp` when its loop body starts in state `s`. -/
def developCmd (sys : Sys ω ε) (b : Builder) (appDir cacheDir : String)
    (bp : Buildpack) (s : State ω ε) : Cmd :=
  let os1 := (sys.MkdirAll (sys.Join [cacheDir, bp.ID]) 0o777 s.os).2
  ⟨sys.Join [bp.Dir, "bin", "develop"], [sys.Join [cacheDir, bp.ID], b.PlatformDir],
   (sys.List (os1, s.env)).1, appDir, b.Out, b.Err⟩

/-- The common form of the two loops: `iter` for each buildpack in group order, leaving
at the first error. -/
def runLoop (iter : Buildpack → processMap → State ω ε → Option Err × processMap × State ω ε) :
    List Buildpack → processMap → State ω ε → Option Err × processMap × State ω ε
  | [], procMap, s => (none, procMap, s)
  | bp :: rest, procMap, s =>
    match iter bp procMap s with
    | (some err, procMap, s) => (some err, procMap, s)
    | (none, procMap, s) => runLoop iter rest procMap s

/-- What a loop over the group `bps` records.  With `r = none`: one complete block per
buildpack, in group order.  With `r = some e`: complete blocks for the buildpacks before
some buildpack `bp`, then the part of `bp`'s pass up to the call that returned `e`, and
nothing for the buildpacks after `bp`. -/
def LoopRecord (IsBlock : Buildpack → List Event → Prop)
    (IsPart : Buildpack → Err → List Event → Prop)
    (bps : List Buildpack) (r : Option Err) (evs : List Event) : Prop :=
  match r with
  | none => ∃ blocks, List.Forall₂ IsBlock bps blocks ∧ evs = blocks.flatten
  | some e => ∃ pre bp post blocks part, bps = pre ++ bp :: post
      ∧ List.Forall₂ IsBlock pre blocks ∧ IsPart bp e part ∧ evs = blocks.flatten ++ part

/-- The events `part` are a pass of the loop body of `Build` for `bp` that stopped at the
call that returned `e`. -/
def IsBuildPart (sys : Sys ω ε) (b : Builder) (appDir launchDir cacheDir : String)
    (bp : Buildpack) (e : Err) (part : List Event) : Prop :=
  ∃ cmd files, Recorded (buildCalls sys launchDir cacheDir bp cmd files) (some e) part
    ∧ (Call.Run cmd ∈ part.map Event.call → IsBuildCmd sys b appDir launchDir cacheDir bp cmd)

/-- The events `part` are a pass of the loop body of `Develop` for `bp` that stopped at
the call that returned `e`. -/
def IsDevelopPart (sys : Sys ω ε) (b : Builder) (appDir cacheDir : String)
    (bp : Buildpack) (e : Err) (part : List Event) : Prop :=
  ∃ cmd files, IsDevelopCmd sys b appDir cacheDir bp cmd
    ∧ Recorded (developCalls sys cacheDir bp cmd files) (some e) part

/-- The state right after the `cmd.Run()` of the pass of `Develop` for `bp` that starts in
state `s`: `MkdirAll`, `List` and `Run` have been made. -/
def developRunState (sys : Sys ω ε) (b : Builder) (appDir cacheDir : String)
    (bp : Buildpack) (s : State ω ε) : State ω ε :=
  let s1 := (osMkdirAll sys (sys.Join [cacheDir, bp.ID]) 0o777 s).2
  let s2 := (envList sys s1).2
  (cmdRun sys (developCmd sys b appDir cacheDir bp s) s2).2

end shapes

/-! ## A small concrete world -/

/-- A file system fixed in advance: which directories list what, which files decode to
what, which executables exit non-zero, which directories cannot be listed, which
cannot be created. -/
structure DemoOS where
  cwd : String
  dirs : List (String × List FileInfo)
  tomls : List (String × List Process)
  failing : List String
  unreadable : List String
  readonly : List String
deriving DecidableEq, Repr

/-- Path joining on clean segments: the segments separated by `/`. -/
def demoJoin (elem : List String) : String := "/".intercalate elem

/-- Absolute form of a path: itself when it starts with `/`, else under `cwd`. -/
def demoAbs (path : String) (os : DemoOS) : String :=
  match path.toList with
  | '/' :: _ => path
  | _ => os.cwd ++ "/" ++ path

/-- A world over `DemoOS` whose `Env` is the list of its entries; each composition call
appends one entry, unless its directory is among `refused`. -/
def demoSysRefusing (refused : List String) : Sys DemoOS (List String) where
  Join := demoJoin
  Abs := fun path os => .ok (demoAbs path os)
  MkdirAll := fun path _ os =>
    (if path ∈ os.readonly then some ("mkdir " ++ path ++ ": permission denied") else none, os)
  Run := fun cmd os => (if cmd.Name ∈ os.failing then some "exit status 1" else none, os)
  ReadDir := fun dirname os =>
    if dirname ∈ os.unreadable then .error ("open " ++ dirname ++ ": permission denied")
    else .ok ((os.dirs.lookup dirname).getD [])
  DecodeFile := fun fpath os =>
    match os.tomls.lookup fpath with
    | some processes => .ok processes
    | none => .error ("open " ++ fpath ++ ": no such file or directory")
  AppendDirs := fun baseDir w =>
    if baseDir ∈ refused then (some ("cannot append " ++ baseDir), w)
    else (none, (w.1, w.2 ++ ["PATH=" ++ baseDir ++ "/bin"]))
  SetEnvDir := fun envDir w =>
    if envDir ∈ refused then (some ("cannot set " ++ envDir), w)
    else (none, (w.1, w.2 ++ ["SET=" ++ envDir]))
  AddEnvDir := fun envDir w =>
    if envDir ∈ refused then (some ("cannot add " ++ envDir), w)
    else (none, (w.1, w.2 ++ ["ADD=" ++ envDir]))
  List := fun w => (w.2, w)

/-- The world in which the store refuses nothing. -/
def demoSys : Sys DemoOS (List String) := demoSysRefusing []

/-- Two buildpacks; `bp1` has the layer `jdk` and a stray file, and declares `web`;
`bp2` has no layer and declares `web` again and `worker`. -/
def demoOS : DemoOS where
  cwd := "/work"
  dirs := [("cache/bp1", [⟨"jdk", true⟩, ⟨"notes.txt", false⟩])]
  tomls := [("launch/bp1/launch.toml", [⟨"web", "a"⟩]),
            ("launch/bp2/launch.toml", [⟨"web", "b"⟩, ⟨"worker", "c"⟩]),
            ("cache/bp1/develop.toml", [⟨"web", "a"⟩]),
            ("cache/bp2/develop.toml", [⟨"web", "b"⟩, ⟨"worker", "c"⟩])]
  failing := []
  unreadable := []
  readonly := []

/-- The example with no output file written by any buildpack. -/
def demoNoToml : DemoOS := { demoOS with tomls := [] }

/-- The example in which the executables of `bp2` exit non-zero. -/
def demoFailing : DemoOS :=
  { demoOS with failing := ["/work/buildpacks/bp2/bin/build", "buildpacks/bp2/bin/develop"] }

/-- The example in which the cache directory of `bp1` cannot be listed. -/
def demoUnreadable : DemoOS := { demoOS with unreadable := ["cache/bp1"] }

/-- The example in which the cache directory of `bp2` cannot be created. -/
def demoReadonly : DemoOS := { demoOS with readonly := ["cache/bp2"] }

/-- The builder of the example: two buildpacks given by relative directories. -/
def demoBuilder : Builder where
  PlatformDir := "platform"
  Buildpacks := [⟨"bp1", "buildpacks/bp1"⟩, ⟨"bp2", "buildpacks/bp2"⟩]
  Out := 1
  Err := 2

/-- The example's initial state: the store holds `HOME=/home`, nothing recorded yet. -/
def demoState (os : DemoOS) : State DemoOS (List String) := ⟨os, ["HOME=/home"], []⟩

/-! ## Process registry: lemmas -/

namespace processMap

theorem find?_set (m : processMap) (key : String) (proc : Process) (k : String) :
    find? (set m key proc) k = if key = k then some proc else find? m k := by
  induction m with
  | nil => simp [set, find?]
  | cons e rest ih =>
    obtain ⟨k0, p0⟩ := e
    by_cases h : k0 = key
    · subst h
      by_cases h2 : k0 = k <;> simp [set, find?, h2]
    · by_cases h2 : k0 = k
      · subst h2
        have h3 : ¬ key = k0 := fun e => h e.symm
        simp [set, find?, h, h3]
      · simp [set, find?, h, h2, ih]

theorem mem_keys_set (m : processMap) (key : String) (proc : Process) (k : String) :
    k ∈ keys (set m key proc) ↔ k = key ∨ k ∈ keys m := by
  induction m with
  | nil => simp [set, keys]
  | cons e rest ih =>
    obtain ⟨k0, p0⟩ := e
    by_cases h : k0 = key
    · subst h
      simp [set, keys]
    · simp only [keys] at ih
      simp only [set, h, keys, if_false, List.map_cons, List.mem_cons, ih]
      tauto

theorem nodup_keys_set (m : processMap) (key : String) (proc : Process)
    (h : (keys m).Nodup) : (keys (set m key proc)).Nodup := by
  induction m with
  | nil => simp [set, keys]
  | cons e rest ih =>
    obtain ⟨k0, p0⟩ := e
    have hk : keys ((k0, p0) :: rest) = k0 :: keys rest := rfl
    rw [hk, List.nodup_cons] at h
    by_cases h1 : k0 = key
    · subst h1
      have hs : set ((k0, p0) :: rest) k0 proc = (k0, proc) :: rest := by simp [set]
      rw [hs]
      have hk2 : keys ((k0, proc) :: rest) = k0 :: keys rest := rfl
      rw [hk2, List.nodup_cons]
      exact h
    · have hs : set ((k0, p0) :: rest) key proc = (k0, p0) :: set rest key proc := by
        simp [set, h1]
      rw [hs]
      have hk2 : keys ((k0, p0) :: set rest key proc) = k0 :: keys (set rest key proc) := rfl
      rw [hk2, List.nodup_cons]
      refine ⟨?_, ih h.2⟩
      rw [mem_keys_set]
      rintro (e | e)
      · exact h1 e
      · exact h.1 e

theorem mem_keys_iff (m : processMap) (k : String) :
    k ∈ keys m ↔ (find? m k).isSome = true := by
  induction m with
  | nil => simp [keys, find?]
  | cons e rest ih =>
    obtain ⟨k0, p0⟩ := e
    simp only [keys] at ih
    by_cases h : k0 = k
    · simp [keys, find?, h]
    · have h2 : ¬ k = k0 := fun e => h e.symm
      simp [keys, find?, h, h2, ih]

theorem add_append (m : processMap) (l₁ l₂ : List Process) :
    add m (l₁ ++ l₂) = add (add m l₁) l₂ := by
  induction l₁ generalizing m with
  | nil => rfl
  | cons p l ih => simp [add, ih]

theorem addAll_eq (ls : List (List Process)) : addAll ls = add empty ls.flatten := by
  have h : ∀ (m : processMap), ls.foldl add m = add m ls.flatten := by
    induction ls with
    | nil => intro m; rfl
    | cons l ls ih =>
      intro m
      simp [List.foldl_cons, ih, add_append]
  exact h empty

theorem lastDeclaration_cons (p : Process) (l : List Process) (t : String) :
    lastDeclaration (p :: l) t =
      match lastDeclaration l t with
      | some q => some q
      | none => if p.Type_ = t then some p else none := by
  unfold lastDeclaration
  by_cases h : p.Type_ = t
  · simp only [List.filter_cons, h, decide_True, if_true, List.getLast?_cons]
    cases List.getLast? (List.filter (fun p => decide (p.Type_ = t)) l) <;> simp
  · have hf : List.filter (fun p => decide (p.Type_ = t)) (p :: l)
        = List.filter (fun p => decide (p.Type_ = t)) l := by
      simp [List.filter_cons, h]
    rw [hf]
    generalize List.getLast? (List.filter (fun p => decide (p.Type_ = t)) l) = o
    cases o <;> simp [h]

theorem find?_add (m : processMap) (l : List Process) (t : String) :
    find? (add m l) t =
      match lastDeclaration l t with
      | some q => some q
      | none => find? m t := by
  induction l generalizing m with
  | nil => simp [add, lastDeclaration]
  | cons p l ih =>
    rw [add, ih, lastDeclaration_cons, find?_set]
    cases lastDeclaration l t <;> by_cases h : p.Type_ = t <;> simp [h]

theorem lastDeclaration_type (l : List Process) (t : String) (p : Process)
    (h : lastDeclaration l t = some p) : p.Type_ = t := by
  unfold lastDeclaration at h
  have hm := List.mem_of_getLast?_eq_some h
  simpa using (List.mem_filter.mp hm).2

theorem lastDeclaration_isSome (l : List Process) (t : String) :
    (lastDeclaration l t).isSome = true ↔ t ∈ l.map Process.Type_ := by
  unfold lastDeclaration
  rw [← Option.ne_none_iff_isSome, Ne, List.getLast?_eq_none_iff, List.filter_eq_nil_iff]
  simp only [decide_eq_true_eq, not_forall, not_not, List.mem_map]
  constructor
  · rintro ⟨p, hp, e⟩
    exact ⟨p, hp, e⟩
  · rintro ⟨p, hp, e⟩
    exact ⟨p, hp, e⟩

theorem find?_addAll (ls : List (List Process)) (t : String) :
    find? (addAll ls) t = lastDeclaration ls.flatten t := by
  rw [addAll_eq, find?_add]
  cases lastDeclaration ls.flatten t <;> simp [empty, find?]

theorem nodup_keys_add (m : processMap) (l : List Process) (h : (keys m).Nodup) :
    (keys (add m l)).Nodup := by
  induction l generalizing m with
  | nil => exact h
  | cons p l ih => exact ih _ (nodup_keys_set m _ _ h)

theorem nodup_keys_addAll (ls : List (List Process)) : (keys (addAll ls)).Nodup := by
  rw [addAll_eq]
  exact nodup_keys_add _ _ (by simp [empty, keys])

theorem mem_keys_addAll (ls : List (List Process)) (t : String) :
    t ∈ keys (addAll ls) ↔ t ∈ ls.flatten.map Process.Type_ := by
  rw [mem_keys_iff, find?_addAll, lastDeclaration_isSome]

theorem get_addAll_type (ls : List (List Process)) (t : String)
    (h : t ∈ keys (addAll ls)) : (get (addAll ls) t).Type_ = t := by
  rw [mem_keys_iff, find?_addAll] at h
  obtain ⟨p, hp⟩ := Option.isSome_iff_exists.mp h
  have := lastDeclaration_type _ _ _ hp
  simp [get, find?_addAll, hp, this]

theorem mem_sortStrings (l : List String) (k : String) : k ∈ sortStrings l ↔ k ∈ l :=
  (List.perm_insertionSort strLE l).mem_iff

theorem map_type_list_addAll (ls : List (List Process)) :
    (list (addAll ls)).map Process.Type_ = sortStrings (keys (addAll ls)) := by
  unfold list
  rw [List.map_map]
  conv_rhs => rw [← List.map_id (sortStrings (keys (addAll ls)))]
  apply List.map_congr_left
  intro k hk
  rw [mem_sortStrings] at hk
  simpa using get_addAll_type ls k hk

theorem mem_list_addAll (ls : List (List Process)) (p : Process) :
    p ∈ list (addAll ls) ↔ lastDeclaration ls.flatten p.Type_ = some p := by
  unfold list
  rw [List.mem_map]
  constructor
  · rintro ⟨k, hk, e⟩
    rw [mem_sortStrings] at hk
    have ht := get_addAll_type ls k hk
    rw [e] at ht
    rw [mem_keys_iff, find?_addAll] at hk
    obtain ⟨q, hq⟩ := Option.isSome_iff_exists.mp hk
    have : get (addAll ls) k = q := by simp [get, find?_addAll, hq]
    rw [ht, hq, ← this, e]
  · intro h
    refine ⟨p.Type_, ?_, ?_⟩
    · rw [mem_sortStrings, mem_keys_iff, find?_addAll, h]
      rfl
    · simp [get, find?_addAll, h]

end processMap

/-! ## Records of call sequences -/

section recorded

variable {ω ε : Type}

theorem recorded_single (c : Call) (r : Option Err) : Recorded [c] r [⟨c, r⟩] := by
  cases r with
  | none => simp [Recorded, Event.ok]
  | some e => exact ⟨[], c, [], rfl, rfl⟩

theorem recorded_append_ok {cs₁ cs₂ : List Call} {r : Option Err} {evs₁ evs₂ : List Event}
    (h₁ : Recorded cs₁ none evs₁) (h₂ : Recorded cs₂ r evs₂) :
    Recorded (cs₁ ++ cs₂) r (evs₁ ++ evs₂) := by
  simp only [Recorded] at h₁
  subst h₁
  cases r with
  | none =>
    simp only [Recorded] at h₂ ⊢
    simp [h₂]
  | some e =>
    obtain ⟨done, c, rest, hc, he⟩ := h₂
    refine ⟨cs₁ ++ done, c, rest, ?_, ?_⟩
    · simp [hc]
    · simp [he]

theorem recorded_append_err {cs₁ : List Call} {e : Err} {evs : List Event}
    (h : Recorded cs₁ (some e) evs) (cs₂ : List Call) :
    Recorded (cs₁ ++ cs₂) (some e) evs := by
  obtain ⟨done, c, rest, hc, he⟩ := h
  exact ⟨done, c, rest ++ cs₂, by simp [hc], he⟩

/-- The calls recorded are an initial part of the calls planned. -/
theorem recorded_calls_initial {cs : List Call} {r : Option Err} {evs : List Event}
    (h : Recorded cs r evs) : evs.map Event.call <+: cs := by
  cases r with
  | none =>
    simp only [Recorded] at h
    subst h
    simp [Event.ok, Function.comp_def]
  | some e =>
    obtain ⟨done, c, rest, hc, he⟩ := h
    subst hc he
    refine ⟨rest, ?_⟩
    simp [Event.ok, Function.comp_def]

/-- In a record, every event but possibly the last carries no error, and the last carries
the result. -/
theorem recorded_errors {cs : List Call} {r : Option Err} {evs : List Event}
    (h : Recorded cs r evs) :
    match r with
    | none => ∀ ev ∈ evs, ev.err = none
    | some e => ∃ init last, evs = init ++ [last] ∧ last.err = some e
        ∧ ∀ ev ∈ init, ev.err = none := by
  cases r with
  | none =>
    simp only [Recorded] at h
    subst h
    intro ev hev
    obtain ⟨c, _, rfl⟩ := List.mem_map.mp hev
    rfl
  | some e =>
    obtain ⟨done, c, rest, _, he⟩ := h
    refine ⟨done.map Event.ok, ⟨c, some e⟩, he, rfl, ?_⟩
    intro ev hev
    obtain ⟨c, _, rfl⟩ := List.mem_map.mp hev
    rfl

theorem eachDir_recorded (files : List FileInfo)
    (fn : FileInfo → State ω ε → Option Err × State ω ε) (mk : FileInfo → Call)
    (hfn : ∀ f s, (fn f s).2.trace = s.trace ++ [⟨mk f, (fn f s).1⟩]) (s : State ω ε) :
    ∃ evs, (eachDir files fn s).2.trace = s.trace ++ evs
      ∧ Recorded ((layerDirs files).map mk) (eachDir files fn s).1 evs := by
  induction files generalizing s with
  | nil => exact ⟨[], by simp [eachDir], by simp [eachDir, layerDirs, Recorded]⟩
  | cons f rest ih =>
    by_cases hd : f.IsDir = true
    · have hl : layerDirs (f :: rest) = f :: layerDirs rest := by simp [layerDirs, hd]
      rw [hl, List.map_cons]
      have hf := hfn f s
      rcases hr : fn f s with ⟨_ | err, s'⟩
      · rw [hr] at hf
        obtain ⟨evs, ht, hrec⟩ := ih s'
        refine ⟨⟨mk f, none⟩ :: evs, ?_, ?_⟩
        · simp only [eachDir, hd, hr]
          simp at hf
          simp [ht, hf]
        · simp only [eachDir, hd, hr]
          exact recorded_append_ok (recorded_single (mk f) none) hrec
      · rw [hr] at hf
        refine ⟨[⟨mk f, some err⟩], ?_, ?_⟩
        · simp only [eachDir, hd, hr]
          simpa using hf
        · simp only [eachDir, hd, hr]
          exact ⟨[], mk f, _, rfl, rfl⟩
    · have hl : layerDirs (f :: rest) = layerDirs rest := by simp [layerDirs, hd]
      rw [hl]
      obtain ⟨evs, ht, hrec⟩ := ih s
      refine ⟨evs, ?_, ?_⟩
      · simpa [eachDir, hd] using ht
      · simpa [eachDir, hd] using hrec

theorem setupEnv_recorded (sys : Sys ω ε) (cacheDir : String) (s : State ω ε) :
    ∃ evs, (setupEnv sys cacheDir s).2.trace = s.trace ++ evs
      ∧ Recorded (composeCalls sys cacheDir (listing sys cacheDir s.os))
          (setupEnv sys cacheDir s).1 evs := by
  unfold setupEnv ioutilReadDir
  cases hrd : sys.ReadDir cacheDir s.os with
  | error err =>
    refine ⟨[⟨Call.ReadDir cacheDir, some err⟩], ?_, ?_⟩
    · simp [errOf]
    · exact ⟨[], Call.ReadDir cacheDir, _, rfl, rfl⟩
  | ok files =>
    have hl : listing sys cacheDir s.os = files := by simp [listing, hrd]
    rw [hl]
    simp only [errOf]
    generalize hs0 : (⟨s.os, s.env, s.trace ++ [⟨Call.ReadDir cacheDir, none⟩]⟩ : State ω ε) = s0
    have ht0 : s0.trace = s.trace ++ [Event.ok (Call.ReadDir cacheDir)] := by
      rw [← hs0]; rfl
    have hr0 : Recorded [Call.ReadDir cacheDir] none [Event.ok (Call.ReadDir cacheDir)] :=
      recorded_single _ none
    obtain ⟨e1, t1, r1⟩ := eachDir_recorded files
      (fun layer => envAppendDirs sys (sys.Join [cacheDir, layer.Name]))
      (fun d => Call.AppendDirs (sys.Join [cacheDir, d.Name])) (fun _ _ => rfl) s0
    rcases h1 : eachDir files
      (fun layer => envAppendDirs sys (sys.Join [cacheDir, layer.Name])) s0 with ⟨_ | err, s1⟩
    · rw [h1] at t1 r1
      dsimp only at t1 r1 ⊢
      obtain ⟨e2, t2, r2⟩ := eachDir_recorded files
        (fun layer => envSetEnvDir sys (sys.Join [cacheDir, layer.Name, "env", "set"]))
        (fun d => Call.SetEnvDir (sys.Join [cacheDir, d.Name, "env", "set"]))
        (fun _ _ => rfl) s1
      rcases h2 : eachDir files
        (fun layer => envSetEnvDir sys (sys.Join [cacheDir, layer.Name, "env", "set"])) s1
        with ⟨_ | err, s2⟩
      · rw [h2] at t2 r2
        dsimp only at t2 r2 ⊢
        obtain ⟨e3, t3, r3⟩ := eachDir_recorded files
          (fun layer => envAddEnvDir sys (sys.Join [cacheDir, layer.Name, "env", "add"]))
          (fun d => Call.AddEnvDir (sys.Join [cacheDir, d.Name, "env", "add"]))
          (fun _ _ => rfl) s2
        refine ⟨Event.ok (Call.ReadDir cacheDir) :: (e1 ++ e2 ++ e3), ?_, ?_⟩
        · simp only [t3, t2, t1, ht0]
          simp
        · have := recorded_append_ok hr0 (recorded_append_ok (recorded_append_ok r1 r2) r3)
          simpa [composeCalls, storeCalls] using this
      · rw [h2] at t2 r2
        dsimp only at t2 r2 ⊢
        refine ⟨Event.ok (Call.ReadDir cacheDir) :: (e1 ++ e2), ?_, ?_⟩
        · simp only [t2, t1, ht0]
          simp
        · have := recorded_append_err
            (recorded_append_ok hr0 (recorded_append_ok r1 r2))
            ((layerDirs files).map
              (fun d => Call.AddEnvDir (sys.Join [cacheDir, d.Name, "env", "add"])))
          simpa [composeCalls, storeCalls] using this
    · rw [h1] at t1 r1
      dsimp only at t1 r1 ⊢
      refine ⟨Event.ok (Call.ReadDir cacheDir) :: e1, ?_, ?_⟩
      · simp only [t1, ht0]
        simp
      · have := recorded_append_err (recorded_append_err (recorded_append_ok hr0 r1)
            ((layerDirs files).map
              (fun d => Call.SetEnvDir (sys.Join [cacheDir, d.Name, "env", "set"]))))
            ((layerDirs files).map
              (fun d => Call.AddEnvDir (sys.Join [cacheDir, d.Name, "env", "add"])))
        simpa [composeCalls, storeCalls] using this

end recorded

/-! ## One pass of the loop body -/

section iter
variable {ω ε : Type}

theorem recorded_all_ok (cs : List Call) : Recorded cs none (cs.map Event.ok) := rfl

theorem buildIter_recorded (sys : Sys ω ε) (b : Builder) (appDir launchDir cacheDir : String)
    (bp : Buildpack) (pm : processMap) (s : State ω ε) :
    ∃ files evs, (buildIter sys b appDir launchDir cacheDir bp pm s).2.2.trace = s.trace ++ evs
      ∧ Recorded (buildCalls sys launchDir cacheDir bp
            (buildCmd sys b appDir launchDir cacheDir bp s) files)
          (buildIter sys b appDir launchDir cacheDir bp pm s).1 evs
      ∧ (Call.Run (buildCmd sys b appDir launchDir cacheDir bp s) ∈ evs.map Event.call →
          IsBuildCmd sys b appDir launchDir cacheDir bp
            (buildCmd sys b appDir launchDir cacheDir bp s)) := by
  simp only [buildIter, osMkdirAll, filepathAbs, envList, cmdRun, tomlDecodeFile, buildCmd,
    buildCalls]
  rcases h1 : sys.MkdirAll (sys.Join [launchDir, bp.ID]) 511 s.os with ⟨_ | e1, os1⟩
  · dsimp only
    rcases h2 : sys.MkdirAll (sys.Join [cacheDir, bp.ID]) 511 os1 with ⟨_ | e2, os2⟩
    · dsimp only
      cases h3 : sys.Abs (sys.Join [bp.Dir, "bin", "build"]) os2 with
      | error e3 =>
        dsimp only
        simp only [List.append_assoc, List.singleton_append]
        refine ⟨[], _, rfl, ⟨[_, _], _, _, rfl, rfl⟩, ?_⟩
        simp
      | ok buildPath =>
        dsimp only
        generalize hcmd : (⟨buildPath,
          [sys.Join [launchDir, bp.ID], sys.Join [cacheDir, bp.ID], b.PlatformDir],
          (sys.List (os2, s.env)).1, appDir, b.Out, b.Err⟩ : Cmd) = cmd
        have hcmdOk : IsBuildCmd sys b appDir launchDir cacheDir bp cmd := by
          subst hcmd
          exact ⟨⟨os2, h3⟩, rfl, rfl, rfl, rfl⟩
        rcases h5 : sys.Run cmd (sys.List (os2, s.env)).2.1 with ⟨_ | e5, os5⟩
        · dsimp only
          generalize hs5 : (⟨os5, (sys.List (os2, s.env)).2.2,
            s.trace ++ [⟨Call.MkdirAll (sys.Join [launchDir, bp.ID]) 511, none⟩]
              ++ [⟨Call.MkdirAll (sys.Join [cacheDir, bp.ID]) 511, none⟩]
              ++ [⟨Call.Abs (sys.Join [bp.Dir, "bin", "build"]), errOf (Except.ok buildPath)⟩]
              ++ [⟨Call.List, none⟩] ++ [⟨Call.Run cmd, none⟩]⟩ : State ω ε) = s5
          have ht5 : s5.trace = s.trace ++
              ([Call.MkdirAll (sys.Join [launchDir, bp.ID]) 511,
                Call.MkdirAll (sys.Join [cacheDir, bp.ID]) 511,
                Call.Abs (sys.Join [bp.Dir, "bin", "build"]), Call.List,
                Call.Run cmd].map Event.ok) := by
            rw [← hs5]
            simp [Event.ok, errOf]
          obtain ⟨evsC, htC, hrC⟩ := setupEnv_recorded sys (sys.Join [cacheDir, bp.ID]) s5
          refine ⟨listing sys (sys.Join [cacheDir, bp.ID]) s5.os, ?_⟩
          rcases h6 : setupEnv sys (sys.Join [cacheDir, bp.ID]) s5 with ⟨_ | e6, s6⟩
          · rw [h6] at htC hrC
            dsimp only at htC hrC ⊢
            cases h7 : sys.DecodeFile (sys.Join [sys.Join [launchDir, bp.ID], "launch.toml"])
                s6.os with
            | error e7 =>
              dsimp only
              refine ⟨_, ?_, recorded_append_ok (recorded_append_ok (recorded_all_ok _) hrC)
                (recorded_single _ (some e7)), fun _ => hcmdOk⟩
              simp [htC, ht5, errOf]
            | ok processes =>
              dsimp only
              refine ⟨_, ?_, recorded_append_ok (recorded_append_ok (recorded_all_ok _) hrC)
                (recorded_single _ none), fun _ => hcmdOk⟩
              simp [htC, ht5, errOf]
          · rw [h6] at htC hrC
            dsimp only at htC hrC ⊢
            refine ⟨_, ?_, recorded_append_err (recorded_append_ok (recorded_all_ok _) hrC) _,
              fun _ => hcmdOk⟩
            simp [htC, ht5]
        · dsimp only
          simp only [List.append_assoc, List.singleton_append]
          exact ⟨[], _, rfl, ⟨[_, _, _, _], _, _, rfl, rfl⟩, fun _ => hcmdOk⟩
    · dsimp only
      simp only [List.append_assoc, List.singleton_append]
      refine ⟨[], _, rfl, ⟨[_], _, _, rfl, rfl⟩, ?_⟩
      simp
  · dsimp only
    refine ⟨[], _, rfl, ⟨[], _, _, rfl, rfl⟩, ?_⟩
    simp

theorem developIter_recorded (sys : Sys ω ε) (b : Builder) (appDir cacheDir : String)
    (bp : Buildpack) (pm : processMap) (s : State ω ε) :
    ∃ files evs, (developIter sys b appDir cacheDir bp pm s).2.2.trace = s.trace ++ evs
      ∧ Recorded (developCalls sys cacheDir bp (developCmd sys b appDir cacheDir bp s) files)
          (developIter sys b appDir cacheDir bp pm s).1 evs := by
  simp only [developIter, osMkdirAll, envList, cmdRun, tomlDecodeFile, developCmd,
    developCalls]
  rcases h1 : sys.MkdirAll (sys.Join [cacheDir, bp.ID]) 511 s.os with ⟨_ | e1, os1⟩
  · dsimp only
    generalize hcmd : (⟨sys.Join [bp.Dir, "bin", "develop"],
      [sys.Join [cacheDir, bp.ID], b.PlatformDir],
      (sys.List (os1, s.env)).1, appDir, b.Out, b.Err⟩ : Cmd) = cmd
    rcases h5 : sys.Run cmd (sys.List (os1, s.env)).2.1 with ⟨_ | e5, os5⟩
    · dsimp only
      generalize hs5 : (⟨os5, (sys.List (os1, s.env)).2.2,
        s.trace ++ [⟨Call.MkdirAll (sys.Join [cacheDir, bp.ID]) 511, none⟩]
          ++ [⟨Call.List, none⟩] ++ [⟨Call.Run cmd, none⟩]⟩ : State ω ε) = s5
      have ht5 : s5.trace = s.trace ++
          ([Call.MkdirAll (sys.Join [cacheDir, bp.ID]) 511, Call.List,
            Call.Run cmd].map Event.ok) := by
        rw [← hs5]
        simp [Event.ok]
      obtain ⟨evsC, htC, hrC⟩ := setupEnv_recorded sys (sys.Join [cacheDir, bp.ID]) s5
      refine ⟨listing sys (sys.Join [cacheDir, bp.ID]) s5.os, ?_⟩
      rcases h6 : setupEnv sys (sys.Join [cacheDir, bp.ID]) s5 with ⟨_ | e6, s6⟩
      · rw [h6] at htC hrC
        dsimp only at htC hrC ⊢
        cases h7 : sys.DecodeFile (sys.Join [sys.Join [cacheDir, bp.ID], "develop.toml"])
            s6.os with
        | error e7 =>
          dsimp only
          refine ⟨_, ?_, recorded_append_ok (recorded_append_ok (recorded_all_ok _) hrC)
            (recorded_single _ (some e7))⟩
          simp [htC, ht5, errOf]
        | ok processes =>
          dsimp only
          refine ⟨_, ?_, recorded_append_ok (recorded_append_ok (recorded_all_ok _) hrC)
            (recorded_single _ none)⟩
          simp [htC, ht5, errOf]
      · rw [h6] at htC hrC
        dsimp only at htC hrC ⊢
        refine ⟨_, ?_, recorded_append_err (recorded_append_ok (recorded_all_ok _) hrC) _⟩
        simp [htC, ht5]
    · dsimp only
      simp only [List.append_assoc, List.singleton_append]
      exact ⟨[], _, rfl, ⟨[_, _], _, _, rfl, rfl⟩⟩
  · dsimp only
    exact ⟨[], _, rfl, ⟨[], _, _, rfl, rfl⟩⟩

theorem developCmd_isDevelopCmd (sys : Sys ω ε) (b : Builder) (appDir cacheDir : String)
    (bp : Buildpack) (s : State ω ε) :
    IsDevelopCmd sys b appDir cacheDir bp (developCmd sys b appDir cacheDir bp s) :=
  ⟨rfl, rfl, rfl, rfl, rfl⟩

end iter

/-! ## The loops -/

section loops
variable {ω ε : Type}

theorem buildLoop_eq_runLoop (sys : Sys ω ε) (b : Builder) (appDir launchDir cacheDir : String)
    (bps : List Buildpack) (pm : processMap) (s : State ω ε) :
    buildLoop sys b appDir launchDir cacheDir bps pm s
      = runLoop (buildIter sys b appDir launchDir cacheDir) bps pm s := by
  induction bps generalizing pm s with
  | nil => rfl
  | cons bp rest ih =>
    simp only [buildLoop, runLoop]
    rcases buildIter sys b appDir launchDir cacheDir bp pm s with ⟨_ | e, pm1, s1⟩
    · exact ih pm1 s1
    · rfl

theorem developLoop_eq_runLoop (sys : Sys ω ε) (b : Builder) (appDir cacheDir : String)
    (bps : List Buildpack) (pm : processMap) (s : State ω ε) :
    developLoop sys b appDir cacheDir bps pm s
      = runLoop (developIter sys b appDir cacheDir) bps pm s := by
  induction bps generalizing pm s with
  | nil => rfl
  | cons bp rest ih =>
    simp only [developLoop, runLoop]
    rcases developIter sys b appDir cacheDir bp pm s with ⟨_ | e, pm1, s1⟩
    · exact ih pm1 s1
    · rfl

theorem runLoop_record
    (iter : Buildpack → processMap → State ω ε → Option Err × processMap × State ω ε)
    (IsBlock : Buildpack → List Event → Prop) (IsPart : Buildpack → Err → List Event → Prop)
    (hiter : ∀ bp pm s, ∃ evs, (iter bp pm s).2.2.trace = s.trace ++ evs
      ∧ match (iter bp pm s).1 with
        | none => IsBlock bp evs
        | some e => IsPart bp e evs)
    (bps : List Buildpack) (pm : processMap) (s : State ω ε) :
    ∃ evs, (runLoop iter bps pm s).2.2.trace = s.trace ++ evs
      ∧ LoopRecord IsBlock IsPart bps (runLoop iter bps pm s).1 evs := by
  induction bps generalizing pm s with
  | nil => exact ⟨[], by simp [runLoop], ⟨[], List.Forall₂.nil, rfl⟩⟩
  | cons bp rest ih =>
    obtain ⟨evs1, ht1, h1⟩ := hiter bp pm s
    simp only [runLoop]
    rcases hi : iter bp pm s with ⟨_ | e, pm1, s1⟩
    · rw [hi] at ht1 h1
      dsimp only at ht1 h1 ⊢
      obtain ⟨evs2, ht2, h2⟩ := ih pm1 s1
      refine ⟨evs1 ++ evs2, by rw [ht2, ht1, List.append_assoc], ?_⟩
      rcases hl : runLoop iter rest pm1 s1 with ⟨_ | e2, pm2, s2⟩
      · rw [hl] at h2
        obtain ⟨blocks, hb, he⟩ := h2
        exact ⟨evs1 :: blocks, List.Forall₂.cons h1 hb, by simp [he]⟩
      · rw [hl] at h2
        obtain ⟨pre, bp', post, blocks, part, hbps, hb, hp, he⟩ := h2
        exact ⟨bp :: pre, bp', post, evs1 :: blocks, part, by simp [hbps],
          List.Forall₂.cons h1 hb, hp, by simp [he]⟩
    · rw [hi] at ht1 h1
      dsimp only at ht1 h1 ⊢
      exact ⟨evs1, ht1, ⟨[], bp, rest, [], evs1, rfl, List.Forall₂.nil, h1, by simp⟩⟩

theorem buildLoop_record (sys : Sys ω ε) (b : Builder) (appDir launchDir cacheDir : String)
    (bps : List Buildpack) (pm : processMap) (s : State ω ε) :
    ∃ evs, (buildLoop sys b appDir launchDir cacheDir bps pm s).2.2.trace = s.trace ++ evs
      ∧ LoopRecord (IsBuildBlock sys b appDir launchDir cacheDir)
          (IsBuildPart sys b appDir launchDir cacheDir) bps
          (buildLoop sys b appDir launchDir cacheDir bps pm s).1 evs := by
  rw [buildLoop_eq_runLoop]
  apply runLoop_record
  intro bp pm s
  obtain ⟨files, evs, ht, hr, hc⟩ := buildIter_recorded sys b appDir launchDir cacheDir bp pm s
  refine ⟨evs, ht, ?_⟩
  rcases hi : (buildIter sys b appDir launchDir cacheDir bp pm s).1 with _ | e
  · rw [hi] at hr
    have he : evs = (buildCalls sys launchDir cacheDir bp
        (buildCmd sys b appDir launchDir cacheDir bp s) files).map Event.ok := hr
    refine ⟨_, files, hc ?_, he⟩
    rw [he]
    simp [buildCalls, Event.ok]
  · rw [hi] at hr
    exact ⟨_, files, hr, hc⟩

theorem developLoop_record (sys : Sys ω ε) (b : Builder) (appDir cacheDir : String)
    (bps : List Buildpack) (pm : processMap) (s : State ω ε) :
    ∃ evs, (developLoop sys b appDir cacheDir bps pm s).2.2.trace = s.trace ++ evs
      ∧ LoopRecord (IsDevelopBlock sys b appDir cacheDir)
          (IsDevelopPart sys b appDir cacheDir) bps
          (developLoop sys b appDir cacheDir bps pm s).1 evs := by
  rw [developLoop_eq_runLoop]
  apply runLoop_record
  intro bp pm s
  obtain ⟨files, evs, ht, hr⟩ := developIter_recorded sys b appDir cacheDir bp pm s
  refine ⟨evs, ht, ?_⟩
  rcases hi : (developIter sys b appDir cacheDir bp pm s).1 with _ | e
  · rw [hi] at hr
    exact ⟨_, files, developCmd_isDevelopCmd sys b appDir cacheDir bp s, hr⟩
  · rw [hi] at hr
    exact ⟨_, files, developCmd_isDevelopCmd sys b appDir cacheDir bp s, hr⟩

end loops

/-! ## Blocks, parts and what they contain -/

section blocks
variable {ω ε : Type}

theorem runsOf_append (a b : List Event) : runsOf (a ++ b) = runsOf a ++ runsOf b := by
  simp [runsOf, List.filterMap_append]

theorem runsOf_eq (evs : List Event) : runsOf evs = (evs.map Event.call).filterMap Call.cmd? := by
  simp [runsOf, List.filterMap_map, Function.comp_def]

theorem cmd?_composeCalls (sys : Sys ω ε) (cacheDir : String) (files : List FileInfo) :
    (composeCalls sys cacheDir files).filterMap Call.cmd? = [] := by
  simp [composeCalls, storeCalls, List.filterMap_append, List.filterMap_map, Function.comp_def,
    Call.cmd?]

theorem cmd?_buildCalls (sys : Sys ω ε) (launchDir cacheDir : String) (bp : Buildpack)
    (cmd : Cmd) (files : List FileInfo) :
    (buildCalls sys launchDir cacheDir bp cmd files).filterMap Call.cmd? = [cmd] := by
  simp [buildCalls, List.filterMap_append, cmd?_composeCalls, Call.cmd?]

theorem cmd?_developCalls (sys : Sys ω ε) (cacheDir : String) (bp : Buildpack)
    (cmd : Cmd) (files : List FileInfo) :
    (developCalls sys cacheDir bp cmd files).filterMap Call.cmd? = [cmd] := by
  simp [developCalls, List.filterMap_append, cmd?_composeCalls, Call.cmd?]

theorem map_call_map_ok (cs : List Call) : (cs.map Event.ok).map Event.call = cs := by
  simp [Event.ok, Function.comp_def]

theorem err_of_mem_map_ok {cs : List Call} {ev : Event} (h : ev ∈ cs.map Event.ok) :
    ev.err = none := by
  obtain ⟨c, _, rfl⟩ := List.mem_map.mp h
  rfl

theorem buildBlock_runs {sys : Sys ω ε} {b : Builder} {appDir launchDir cacheDir : String}
    {bp : Buildpack} {block : List Event}
    (h : IsBuildBlock sys b appDir launchDir cacheDir bp block) :
    ∃ cmd, IsBuildCmd sys b appDir launchDir cacheDir bp cmd ∧ runsOf block = [cmd] := by
  obtain ⟨cmd, files, hc, rfl⟩ := h
  exact ⟨cmd, hc, by rw [runsOf_eq, map_call_map_ok, cmd?_buildCalls]⟩

theorem buildBlock_ok {sys : Sys ω ε} {b : Builder} {appDir launchDir cacheDir : String}
    {bp : Buildpack} {block : List Event}
    (h : IsBuildBlock sys b appDir launchDir cacheDir bp block) :
    ∀ ev ∈ block, ev.err = none := by
  obtain ⟨cmd, files, _, rfl⟩ := h
  exact fun ev hev => err_of_mem_map_ok hev

theorem developBlock_runs {sys : Sys ω ε} {b : Builder} {appDir cacheDir : String}
    {bp : Buildpack} {block : List Event}
    (h : IsDevelopBlock sys b appDir cacheDir bp block) :
    ∃ cmd, IsDevelopCmd sys b appDir cacheDir bp cmd ∧ runsOf block = [cmd] := by
  obtain ⟨cmd, files, hc, rfl⟩ := h
  exact ⟨cmd, hc, by rw [runsOf_eq, map_call_map_ok, cmd?_developCalls]⟩

theorem developBlock_ok {sys : Sys ω ε} {b : Builder} {appDir cacheDir : String}
    {bp : Buildpack} {block : List Event}
    (h : IsDevelopBlock sys b appDir cacheDir bp block) :
    ∀ ev ∈ block, ev.err = none := by
  obtain ⟨cmd, files, _, rfl⟩ := h
  exact fun ev hev => err_of_mem_map_ok hev

/-- The blocks of a group spawn one child per buildpack, in group order. -/
theorem forall₂_runs {IsBlock : Buildpack → List Event → Prop} {IsCmd : Buildpack → Cmd → Prop}
    (h : ∀ bp block, IsBlock bp block → ∃ cmd, IsCmd bp cmd ∧ runsOf block = [cmd])
    {bps : List Buildpack} {blocks : List (List Event)} (hb : List.Forall₂ IsBlock bps blocks) :
    List.Forall₂ IsCmd bps (runsOf blocks.flatten) := by
  induction hb with
  | nil => simp [runsOf]
  | cons h1 _ ih =>
    obtain ⟨cmd, hc, hr⟩ := h _ _ h1
    rw [List.flatten_cons, runsOf_append, hr]
    exact List.Forall₂.cons hc ih

theorem forall₂_ok {IsBlock : Buildpack → List Event → Prop}
    (h : ∀ bp block, IsBlock bp block → ∀ ev ∈ block, ev.err = none)
    {bps : List Buildpack} {blocks : List (List Event)} (hb : List.Forall₂ IsBlock bps blocks) :
    ∀ ev ∈ blocks.flatten, ev.err = none := by
  induction hb with
  | nil => simp
  | cons h1 _ ih =>
    intro ev hev
    rw [List.flatten_cons, List.mem_append] at hev
    rcases hev with hev | hev
    · exact h _ _ h1 ev hev
    · exact ih ev hev

/-- Errors in a loop record: none when the loop ends without error; otherwise exactly
one, carried by the last event, and it is the error of the loop. -/
theorem loopRecord_errors {IsBlock : Buildpack → List Event → Prop}
    {IsPart : Buildpack → Err → List Event → Prop}
    (hblock : ∀ bp block, IsBlock bp block → ∀ ev ∈ block, ev.err = none)
    (hpart : ∀ bp e part, IsPart bp e part → ∃ init last, part = init ++ [last]
      ∧ last.err = some e ∧ ∀ ev ∈ init, ev.err = none)
    {bps : List Buildpack} {r : Option Err} {evs : List Event}
    (h : LoopRecord IsBlock IsPart bps r evs) :
    (r = none → ∀ ev ∈ evs, ev.err = none)
      ∧ (∀ e, r = some e → ∃ init last, evs = init ++ [last] ∧ last.err = some e
        ∧ ∀ ev ∈ init, ev.err = none) := by
  constructor
  · intro hr
    subst hr
    obtain ⟨blocks, hb, rfl⟩ := h
    exact forall₂_ok hblock hb
  · intro e hr
    subst hr
    obtain ⟨pre, bp, post, blocks, part, _, hb, hp, rfl⟩ := h
    obtain ⟨init, last, rfl, hl, hi⟩ := hpart bp e part hp
    refine ⟨blocks.flatten ++ init, last, by simp, hl, ?_⟩
    intro ev hev
    rcases List.mem_append.mp hev with hev | hev
    · exact forall₂_ok hblock hb ev hev
    · exact hi ev hev

theorem buildPart_errors {sys : Sys ω ε} {b : Builder} {appDir launchDir cacheDir : String}
    {bp : Buildpack} {e : Err} {part : List Event}
    (h : IsBuildPart sys b appDir launchDir cacheDir bp e part) :
    ∃ init last, part = init ++ [last] ∧ last.err = some e ∧ ∀ ev ∈ init, ev.err = none := by
  obtain ⟨cmd, files, hr, _⟩ := h
  exact recorded_errors hr

theorem developPart_errors {sys : Sys ω ε} {b : Builder} {appDir cacheDir : String}
    {bp : Buildpack} {e : Err} {part : List Event}
    (h : IsDevelopPart sys b appDir cacheDir bp e part) :
    ∃ init last, part = init ++ [last] ∧ last.err = some e ∧ ∀ ev ∈ init, ev.err = none := by
  obtain ⟨cmd, files, _, hr⟩ := h
  exact recorded_errors hr

end blocks

/-! ## `Build` and `Develop` as a whole -/

section whole
variable {ω ε : Type}

theorem Build_record (sys : Sys ω ε) (b : Builder) (appDir launchDir cacheDir : String)
    (s : State ω ε) :
    ∃ evs, (b.Build sys appDir launchDir cacheDir s).2.trace = s.trace ++ evs
      ∧ LoopRecord (IsBuildBlock sys b appDir launchDir cacheDir)
          (IsBuildPart sys b appDir launchDir cacheDir) b.Buildpacks
          (b.Build sys appDir launchDir cacheDir s).1.2 evs
      ∧ match (b.Build sys appDir launchDir cacheDir s).1.2 with
        | none => ∃ md, (b.Build sys appDir launchDir cacheDir s).1 = (some md, none)
        | some e => (b.Build sys appDir launchDir cacheDir s).1 = (none, some e) := by
  obtain ⟨evs, ht, hr⟩ :=
    buildLoop_record sys b appDir launchDir cacheDir b.Buildpacks processMap.empty s
  unfold Builder.Build
  rcases hl : buildLoop sys b appDir launchDir cacheDir b.Buildpacks processMap.empty s
    with ⟨_ | e, pm, s'⟩
  · rw [hl] at ht hr
    exact ⟨evs, ht, hr, ⟨_, rfl⟩⟩
  · rw [hl] at ht hr
    exact ⟨evs, ht, hr, rfl⟩

theorem Develop_record (sys : Sys ω ε) (b : Builder) (appDir cacheDir : String)
    (s : State ω ε) :
    ∃ evs, (b.Develop sys appDir cacheDir s).2.trace = s.trace ++ evs
      ∧ LoopRecord (IsDevelopBlock sys b appDir cacheDir)
          (IsDevelopPart sys b appDir cacheDir) b.Buildpacks
          (b.Develop sys appDir cacheDir s).1.2 evs
      ∧ match (b.Develop sys appDir cacheDir s).1.2 with
        | none => ∃ md, (b.Develop sys appDir cacheDir s).1 = (some md, none)
        | some e => (b.Develop sys appDir cacheDir s).1 = (none, some e) := by
  obtain ⟨evs, ht, hr⟩ :=
    developLoop_record sys b appDir cacheDir b.Buildpacks processMap.empty s
  unfold Builder.Develop
  rcases hl : developLoop sys b appDir cacheDir b.Buildpacks processMap.empty s
    with ⟨_ | e, pm, s'⟩
  · rw [hl] at ht hr
    exact ⟨evs, ht, hr, ⟨_, rfl⟩⟩
  · rw [hl] at ht hr
    exact ⟨evs, ht, hr, rfl⟩

/-- The outcome of a run, read off its result pair and its record. -/
theorem outcome_of_record {μ : Type} {IsBlock : Buildpack → List Event → Prop}
    {IsPart : Buildpack → Err → List Event → Prop}
    (hblock : ∀ bp block, IsBlock bp block → ∀ ev ∈ block, ev.err = none)
    (hpart : ∀ bp e part, IsPart bp e part → ∃ init last, part = init ++ [last]
      ∧ last.err = some e ∧ ∀ ev ∈ init, ev.err = none)
    {bps : List Buildpack} {res : Option μ × Option Err} {evs : List Event}
    (hr : LoopRecord IsBlock IsPart bps res.2 evs)
    (hres : match res.2 with
      | none => ∃ md, res = (some md, none)
      | some e => res = (none, some e)) :
    (∃ md, res = (some md, none) ∧ ∀ ev ∈ evs, ev.err = none)
      ∨ (∃ e init last, res = (none, some e) ∧ evs = init ++ [last] ∧ last.err = some e
          ∧ ∀ ev ∈ init, ev.err = none) := by
  have he := loopRecord_errors hblock hpart hr
  obtain ⟨m, r⟩ := res
  cases r with
  | none =>
    obtain ⟨md, hmd⟩ := hres
    exact Or.inl ⟨md, hmd, he.1 rfl⟩
  | some e =>
    obtain ⟨init, last, h1, h3, h4⟩ := he.2 e rfl
    exact Or.inr ⟨e, init, last, hres, h1, h3, h4⟩

theorem Build_outcome (sys : Sys ω ε) (b : Builder) (appDir launchDir cacheDir : String)
    (s : State ω ε) :
    ∃ evs, (b.Build sys appDir launchDir cacheDir s).2.trace = s.trace ++ evs
      ∧ ((∃ md, (b.Build sys appDir launchDir cacheDir s).1 = (some md, none)
            ∧ ∀ ev ∈ evs, ev.err = none)
        ∨ (∃ e init last, (b.Build sys appDir launchDir cacheDir s).1 = (none, some e)
            ∧ evs = init ++ [last] ∧ last.err = some e ∧ ∀ ev ∈ init, ev.err = none)) := by
  obtain ⟨evs, ht, hr, hres⟩ := Build_record sys b appDir launchDir cacheDir s
  exact ⟨evs, ht, outcome_of_record (fun _ _ h => buildBlock_ok h) (fun _ _ _ h => buildPart_errors h) hr hres⟩

theorem Develop_outcome (sys : Sys ω ε) (b : Builder) (appDir cacheDir : String)
    (s : State ω ε) :
    ∃ evs, (b.Develop sys appDir cacheDir s).2.trace = s.trace ++ evs
      ∧ ((∃ md, (b.Develop sys appDir cacheDir s).1 = (some md, none)
            ∧ ∀ ev ∈ evs, ev.err = none)
        ∨ (∃ e init last, (b.Develop sys appDir cacheDir s).1 = (none, some e)
            ∧ evs = init ++ [last] ∧ last.err = some e ∧ ∀ ev ∈ init, ev.err = none)) := by
  obtain ⟨evs, ht, hr, hres⟩ := Develop_record sys b appDir cacheDir s
  exact ⟨evs, ht, outcome_of_record (fun _ _ h => developBlock_ok h) (fun _ _ _ h => developPart_errors h) hr hres⟩

/-- An event that carries an error is the last event of the run, and its error is the
one returned. -/
theorem failed_event_last {μ : Type} {res : Option μ × Option Err} {evs : List Event}
    (h : (∃ md, res = (some md, none) ∧ ∀ ev ∈ evs, ev.err = none)
      ∨ (∃ e init last, res = (none, some e) ∧ evs = init ++ [last] ∧ last.err = some e
          ∧ ∀ ev ∈ init, ev.err = none))
    {ev : Event} {e : Err} (hmem : ev ∈ evs) (herr : ev.err = some e) :
    res = (none, some e) ∧ ∃ init, evs = init ++ [ev] ∧ ∀ x ∈ init, x.err = none := by
  rcases h with ⟨md, _, hok⟩ | ⟨e', init, last, hres, hevs, hlast, hinit⟩
  · rw [hok ev hmem] at herr
    cases herr
  · subst hevs
    rcases List.mem_append.mp hmem with hm | hm
    · rw [hinit ev hm] at herr
      cases herr
    · have : ev = last := by simpa using hm
      subst this
      rw [herr] at hlast
      cases hlast
      exact ⟨hres, init, rfl, hinit⟩

end whole

/-! ## Runs that end without error -/

section success
variable {ω ε : Type}

theorem eachDir_none (files : List FileInfo)
    (fn : FileInfo → State ω ε → Option Err × State ω ε)
    (hfn : ∀ f s, (fn f s).1 = none) (s : State ω ε) : (eachDir files fn s).1 = none := by
  induction files generalizing s with
  | nil => rfl
  | cons f rest ih =>
    by_cases hd : f.IsDir = true
    · have hf := hfn f s
      rcases hr : fn f s with ⟨_ | err, s'⟩
      · simp only [eachDir, hd, hr]
        exact ih s'
      · rw [hr] at hf
        cases hf
    · simpa [eachDir, hd] using ih s

theorem setupEnv_none (sys : Sys ω ε) (cacheDir : String) (s : State ω ε)
    (files : List FileInfo) (hread : sys.ReadDir cacheDir s.os = .ok files)
    (happend : ∀ p w, (sys.AppendDirs p w).1 = none)
    (hset : ∀ p w, (sys.SetEnvDir p w).1 = none)
    (hadd : ∀ p w, (sys.AddEnvDir p w).1 = none) :
    (setupEnv sys cacheDir s).1 = none := by
  unfold setupEnv ioutilReadDir
  rw [hread]
  dsimp only
  have h1 := fun s0 => eachDir_none files
    (fun layer => envAppendDirs sys (sys.Join [cacheDir, layer.Name]))
    (fun _ s => happend _ (s.os, s.env)) s0
  have h2 := fun s0 => eachDir_none files
    (fun layer => envSetEnvDir sys (sys.Join [cacheDir, layer.Name, "env", "set"]))
    (fun _ s => hset _ (s.os, s.env)) s0
  have h3 := fun s0 => eachDir_none files
    (fun layer => envAddEnvDir sys (sys.Join [cacheDir, layer.Name, "env", "add"]))
    (fun _ s => hadd _ (s.os, s.env)) s0
  split
  · rename_i err s1 heq
    have := congrArg Prod.fst heq
    rw [h1] at this
    cases this
  · split
    · rename_i err s2 heq
      have := congrArg Prod.fst heq
      rw [h2] at this
      cases this
    · exact h3 _

theorem buildIter_success (sys : Sys ω ε) (b : Builder) (appDir launchDir cacheDir : String)
    (bp : Buildpack) (pm : processMap) (s : State ω ε)
    (h : (buildIter sys b appDir launchDir cacheDir bp pm s).1 = none) :
    ∃ s5 s6 procs, setupEnv sys (sys.Join [cacheDir, bp.ID]) s5 = (none, s6)
      ∧ sys.DecodeFile (sys.Join [sys.Join [launchDir, bp.ID], "launch.toml"]) s6.os = .ok procs
      ∧ (buildIter sys b appDir launchDir cacheDir bp pm s).2.1 = pm.add procs
      ∧ (buildIter sys b appDir launchDir cacheDir bp pm s).2.2.env = s6.env
      ∧ (buildIter sys b appDir launchDir cacheDir bp pm s).2.2.os = s6.os := by
  revert h
  unfold buildIter
  dsimp only
  split
  · intro h; cases h
  · split
    · intro h; cases h
    · split
      · intro h; cases h
      · split
        · intro h; cases h
        · split
          · intro h; cases h
          · rename_i s5 _ s6 hs
            split
            · intro h; cases h
            · rename_i procs s7 hd
              intro _
              simp only [tomlDecodeFile, Prod.mk.injEq] at hd
              obtain ⟨hd1, hd2⟩ := hd
              subst hd2
              exact ⟨_, s6, procs, hs, hd1, rfl, rfl, rfl⟩

theorem developIter_success (sys : Sys ω ε) (b : Builder) (appDir cacheDir : String)
    (bp : Buildpack) (pm : processMap) (s : State ω ε)
    (h : (developIter sys b appDir cacheDir bp pm s).1 = none) :
    ∃ s5 s6 procs, setupEnv sys (sys.Join [cacheDir, bp.ID]) s5 = (none, s6)
      ∧ sys.DecodeFile (sys.Join [sys.Join [cacheDir, bp.ID], "develop.toml"]) s6.os = .ok procs
      ∧ (developIter sys b appDir cacheDir bp pm s).2.1 = pm.add procs
      ∧ (developIter sys b appDir cacheDir bp pm s).2.2.env = s6.env
      ∧ (developIter sys b appDir cacheDir bp pm s).2.2.os = s6.os := by
  revert h
  unfold developIter
  dsimp only
  split
  · intro h; cases h
  · split
    · intro h; cases h
    · split
      · intro h; cases h
      · rename_i s5 _ s6 hs
        split
        · intro h; cases h
        · rename_i procs s7 hd
          intro _
          simp only [tomlDecodeFile, Prod.mk.injEq] at hd
          obtain ⟨hd1, hd2⟩ := hd
          subst hd2
          exact ⟨_, s6, procs, hs, hd1, rfl, rfl, rfl⟩

theorem runLoop_procMap
    (iter : Buildpack → processMap → State ω ε → Option Err × processMap × State ω ε)
    (hiter : ∀ bp pm s, (iter bp pm s).1 = none → ∃ procs, (iter bp pm s).2.1 = pm.add procs)
    (bps : List Buildpack) (pm : processMap) (s : State ω ε)
    (h : (runLoop iter bps pm s).1 = none) :
    ∃ ls : List (List Process), (runLoop iter bps pm s).2.1 = ls.foldl processMap.add pm := by
  induction bps generalizing pm s with
  | nil => exact ⟨[], rfl⟩
  | cons bp rest ih =>
    have h1 := hiter bp pm s
    simp only [runLoop] at h ⊢
    rcases hi : iter bp pm s with ⟨_ | e, pm1, s1⟩
    · rw [hi] at h h1
      dsimp only at h h1 ⊢
      obtain ⟨procs, hp⟩ := h1 rfl
      obtain ⟨ls, hls⟩ := ih pm1 s1 h
      exact ⟨procs :: ls, by rw [hls, hp]; rfl⟩
    · rw [hi] at h
      cases h

end success

/-! ## Which child sees which environment -/

section visibility
variable {ω ε : Type}

theorem runLoop_trace
    (iter : Buildpack → processMap → State ω ε → Option Err × processMap × State ω ε)
    (hiter : ∀ bp pm s, ∃ evs, (iter bp pm s).2.2.trace = s.trace ++ evs)
    (bps : List Buildpack) (pm : processMap) (s : State ω ε) :
    ∃ evs, (runLoop iter bps pm s).2.2.trace = s.trace ++ evs := by
  induction bps generalizing pm s with
  | nil => exact ⟨[], by simp [runLoop]⟩
  | cons bp rest ih =>
    obtain ⟨evs1, ht1⟩ := hiter bp pm s
    simp only [runLoop]
    rcases hi : iter bp pm s with ⟨_ | e, pm1, s1⟩
    · rw [hi] at ht1
      dsimp only at ht1 ⊢
      obtain ⟨evs2, ht2⟩ := ih pm1 s1
      exact ⟨evs1 ++ evs2, by rw [ht2, ht1, List.append_assoc]⟩
    · rw [hi] at ht1
      exact ⟨evs1, ht1⟩

theorem runLoop_append
    (iter : Buildpack → processMap → State ω ε → Option Err × processMap × State ω ε)
    (l₁ l₂ : List Buildpack) (pm : processMap) (s : State ω ε) :
    runLoop iter (l₁ ++ l₂) pm s =
      match runLoop iter l₁ pm s with
      | (some err, pm1, s1) => (some err, pm1, s1)
      | (none, pm1, s1) => runLoop iter l₂ pm1 s1 := by
  induction l₁ generalizing pm s with
  | nil => rfl
  | cons bp rest ih =>
    simp only [List.cons_append, runLoop]
    rcases iter bp pm s with ⟨_ | e, pm1, s1⟩
    · exact ih pm1 s1
    · rfl

theorem runLoop_run_index
    (iter : Buildpack → processMap → State ω ε → Option Err × processMap × State ω ε)
    (cmdOf : Buildpack → State ω ε → Cmd)
    (hiter : ∀ bp pm s, ∃ evs, (iter bp pm s).2.2.trace = s.trace ++ evs
      ∧ runsOf evs <+: [cmdOf bp s]
      ∧ ((iter bp pm s).1 = none → runsOf evs = [cmdOf bp s]))
    (bps : List Buildpack) (pm : processMap) (s : State ω ε) (evs : List Event)
    (ht : (runLoop iter bps pm s).2.2.trace = s.trace ++ evs)
    (k : Nat) (cmd : Cmd) (hk : (runsOf evs)[k]? = some cmd) :
    ∃ bp pm' s', bps[k]? = some bp ∧ runLoop iter (bps.take k) pm s = (none, pm', s')
      ∧ cmd = cmdOf bp s' := by
  induction bps generalizing pm s evs k with
  | nil =>
    simp only [runLoop] at ht
    have : evs = [] := by simpa using ht
    subst this
    simp [runsOf] at hk
  | cons bp rest ih =>
    obtain ⟨evs1, ht1, hpre, hsucc⟩ := hiter bp pm s
    simp only [runLoop] at ht
    rcases hi : iter bp pm s with ⟨_ | e, pm1, s1⟩
    · rw [hi] at ht ht1 hsucc
      dsimp only at ht ht1 hsucc
      obtain ⟨evs2, ht2⟩ := runLoop_trace iter
        (fun bp pm s => (hiter bp pm s).imp fun _ h => h.1) rest pm1 s1
      have hevs : evs = evs1 ++ evs2 := by
        rw [ht2, ht1, List.append_assoc] at ht
        exact (List.append_cancel_left ht).symm
      rw [hevs, runsOf_append, hsucc rfl] at hk
      cases k with
      | zero =>
        simp only [List.singleton_append, List.getElem?_cons_zero, Option.some.injEq] at hk
        exact ⟨bp, pm, s, by simp, rfl, hk.symm⟩
      | succ k =>
        simp only [List.singleton_append, List.getElem?_cons_succ] at hk
        obtain ⟨bp', pm', s', hb, hl, hc⟩ := ih pm1 s1 evs2 ht2 k hk
        refine ⟨bp', pm', s', by simpa using hb, ?_, hc⟩
        simp only [List.take_succ_cons, runLoop, hi]
        exact hl
    · rw [hi] at ht ht1
      dsimp only at ht ht1
      have hevs : evs = evs1 := by
        rw [ht1] at ht
        exact (List.append_cancel_left ht).symm
      subst hevs
      obtain ⟨t, htl⟩ := hpre
      cases k with
      | zero =>
        cases hrun : runsOf evs with
        | nil => rw [hrun] at hk; simp at hk
        | cons c cs =>
          rw [hrun] at hk htl
          simp only [List.getElem?_cons_zero, Option.some.injEq] at hk
          simp only [List.cons_append, List.cons.injEq] at htl
          exact ⟨bp, pm, s, by simp, rfl, by rw [← hk, htl.1]⟩
      | succ k =>
        have hlen : (runsOf evs).length ≤ 1 := by
          have := congrArg List.length htl
          simp at this
          omega
        have : (runsOf evs)[k + 1]? = none := List.getElem?_eq_none (by omega)
        rw [this] at hk
        cases hk

/-- The state after the loop has fully processed the first `j + 1` buildpacks is the state
a complete, successful pass for buildpack `j` ended in. -/
theorem runLoop_take_succ
    (iter : Buildpack → processMap → State ω ε → Option Err × processMap × State ω ε)
    (bps : List Buildpack) (pm : processMap) (s : State ω ε) (j : Nat) (bp : Buildpack)
    (hj : bps[j]? = some bp) (pm' : processMap) (s' : State ω ε)
    (h : runLoop iter (bps.take (j + 1)) pm s = (none, pm', s')) :
    ∃ pmj sj, runLoop iter (bps.take j) pm s = (none, pmj, sj)
      ∧ iter bp pmj sj = (none, pm', s') := by
  rw [List.take_succ, hj, Option.toList_some, runLoop_append] at h
  rcases hl : runLoop iter (bps.take j) pm s with ⟨_ | e, pmj, sj⟩
  · rw [hl] at h
    dsimp only at h
    refine ⟨pmj, sj, rfl, ?_⟩
    simp only [runLoop] at h
    rcases hi : iter bp pmj sj with ⟨_ | e, pm1, s1⟩
    · rw [hi] at h
      exact h
    · rw [hi] at h
      cases h
  · rw [hl] at h
    cases h

end visibility

/-! ## Process registry: the properties -/

section registry

theorem sortStrings_sorted_lt (l : List String) (h : l.Nodup) :
    List.Sorted (· < ·) (sortStrings l) := by
  have h1 : List.Sorted strLE (sortStrings l) := by
    have hinst : IsTotal String strLE :=
      ⟨fun a b => by
        simp only [strLE]
        exact le_total a.toList b.toList⟩
    have hinst2 : IsTrans String strLE :=
      ⟨fun a b c hab hbc => by
        simp only [strLE] at *
        exact le_trans hab hbc⟩
    exact List.sorted_insertionSort strLE l
  have h2 : List.Sorted (· ≤ ·) (sortStrings l) :=
    List.Pairwise.imp (fun {a b} hab => String.le_iff_toList_le.mpr hab) h1
  exact h2.lt_of_le ((List.perm_insertionSort strLE l).nodup_iff.mpr h)

/-- C1. Process Registry merge is later-wins by Type: after the declaration lists `ls` were
added in order to an empty registry, `list()` contains `p` exactly when `p` is the last
declaration of its Type in the concatenation of `ls`; every Type ever declared is still
listed; and adding `[(web,a)]` then `[(web,b),(worker,c)]` lists `[(web,b),(worker,c)]`. -/
theorem registry_merge_later_wins :
    (∀ (ls : List (List Process)) (p : Process),
        p ∈ (processMap.addAll ls).list ↔ lastDeclaration ls.flatten p.Type_ = some p)
    ∧ (∀ (ls : List (List Process)) (t : String),
        t ∈ ls.flatten.map Process.Type_ → t ∈ (processMap.addAll ls).list.map Process.Type_)
    ∧ (processMap.addAll [[⟨"web", "a"⟩], [⟨"web", "b"⟩, ⟨"worker", "c"⟩]]).list
        = [⟨"web", "b"⟩, ⟨"worker", "c"⟩] := by
  refine ⟨processMap.mem_list_addAll, ?_, by decide⟩
  intro ls t ht
  rw [processMap.map_type_list_addAll, processMap.mem_sortStrings, processMap.mem_keys_addAll]
  exact ht

theorem list_addAll_sorted (ls : List (List Process)) :
    List.Sorted (· < ·) ((processMap.addAll ls).list.map Process.Type_)
      ∧ ((processMap.addAll ls).list.map Process.Type_).Nodup
      ∧ (processMap.addAll ls).list.length = (ls.flatten.map Process.Type_).toFinset.card := by
  have hn := processMap.nodup_keys_addAll ls
  have hs := sortStrings_sorted_lt _ hn
  have hperm : (sortStrings (processMap.keys (processMap.addAll ls))).Perm
      (processMap.keys (processMap.addAll ls)) := List.perm_insertionSort strLE _
  refine ⟨?_, ?_, ?_⟩
  · rw [processMap.map_type_list_addAll]
    exact hs
  · rw [processMap.map_type_list_addAll]
    exact hperm.nodup_iff.mpr hn
  · have hl : (processMap.addAll ls).list.length
        = (processMap.keys (processMap.addAll ls)).length := by
      rw [← List.length_map (processMap.addAll ls).list Process.Type_,
        processMap.map_type_list_addAll]
      exact hperm.length_eq
    rw [hl, ← List.toFinset_card_of_nodup hn]
    congr 1
    ext t
    simp only [List.mem_toFinset]
    exact processMap.mem_keys_addAll ls t

end registry

/-! ## The orchestrator: the properties -/

section composer
variable {ω ε : Type}

theorem Build_processes (sys : Sys ω ε) (b : Builder) (appDir launchDir cacheDir : String)
    (s : State ω ε) (md : BuildMetadata)
    (h : (b.Build sys appDir launchDir cacheDir s).1.1 = some md) :
    ∃ ls, md.Processes = (processMap.addAll ls).list := by
  unfold Builder.Build at h
  rcases hl : buildLoop sys b appDir launchDir cacheDir b.Buildpacks processMap.empty s
    with ⟨_ | e, pm, s'⟩
  · rw [hl] at h
    simp only [Option.some.injEq] at h
    rw [buildLoop_eq_runLoop] at hl
    obtain ⟨ls, hls⟩ := runLoop_procMap (buildIter sys b appDir launchDir cacheDir)
      (fun bp pm s hi => by
        obtain ⟨_, _, procs, _, _, hp, _⟩ :=
          buildIter_success sys b appDir launchDir cacheDir bp pm s hi
        exact ⟨procs, hp⟩)
      b.Buildpacks processMap.empty s (by rw [hl])
    rw [hl] at hls
    exact ⟨ls, by rw [← h]; exact congrArg processMap.list hls⟩
  · rw [hl] at h
    cases h

theorem Develop_processes (sys : Sys ω ε) (b : Builder) (appDir cacheDir : String)
    (s : State ω ε) (md : DevelopMetadata)
    (h : (b.Develop sys appDir cacheDir s).1.1 = some md) :
    ∃ ls, md.Processes = (processMap.addAll ls).list := by
  unfold Builder.Develop at h
  rcases hl : developLoop sys b appDir cacheDir b.Buildpacks processMap.empty s
    with ⟨_ | e, pm, s'⟩
  · rw [hl] at h
    simp only [Option.some.injEq] at h
    rw [developLoop_eq_runLoop] at hl
    obtain ⟨ls, hls⟩ := runLoop_procMap (developIter sys b appDir cacheDir)
      (fun bp pm s hi => by
        obtain ⟨_, _, procs, _, _, hp, _⟩ :=
          developIter_success sys b appDir cacheDir bp pm s hi
        exact ⟨procs, hp⟩)
      b.Buildpacks processMap.empty s (by rw [hl])
    rw [hl] at hls
    exact ⟨ls, by rw [← h]; exact congrArg processMap.list hls⟩
  · rw [hl] at h
    cases h

/-- C2. For every registry reachable from the empty map by calls to `add`, `list()` is
strictly ascending by Type (sorted, no Type twice) and has one entry per distinct Type
declared; so the `Processes` of the metadata returned by `Build` and by `Develop` are
strictly ascending by Type. -/
theorem list_sorted_by_type :
    (∀ ls : List (List Process),
        List.Sorted (· < ·) ((processMap.addAll ls).list.map Process.Type_)
        ∧ ((processMap.addAll ls).list.map Process.Type_).Nodup
        ∧ (processMap.addAll ls).list.length = (ls.flatten.map Process.Type_).toFinset.card)
    ∧ (∀ (sys : Sys ω ε) (b : Builder) (appDir launchDir cacheDir : String) (s : State ω ε)
        (md : BuildMetadata), (b.Build sys appDir launchDir cacheDir s).1.1 = some md →
        List.Sorted (· < ·) (md.Processes.map Process.Type_))
    ∧ (∀ (sys : Sys ω ε) (b : Builder) (appDir cacheDir : String) (s : State ω ε)
        (md : DevelopMetadata), (b.Develop sys appDir cacheDir s).1.1 = some md →
        List.Sorted (· < ·) (md.Processes.map Process.Type_)) := by
  refine ⟨list_addAll_sorted, ?_, ?_⟩
  · intro sys b appDir launchDir cacheDir s md h
    obtain ⟨ls, hls⟩ := Build_processes sys b appDir launchDir cacheDir s md h
    rw [hls]
    exact (list_addAll_sorted ls).1
  · intro sys b appDir cacheDir s md h
    obtain ⟨ls, hls⟩ := Develop_processes sys b appDir cacheDir s md h
    rw [hls]
    exact (list_addAll_sorted ls).1

/-- Witness of C2 on the example: `Build` and `Develop` return metadata, and its Types
are ascending. -/
theorem list_sorted_by_type_witness :
    ((demoBuilder.Build demoSys "app" "launch" "cache" (demoState demoOS)).1.1
        = some ⟨[⟨"web", "b"⟩, ⟨"worker", "c"⟩]⟩
      ∧ List.Sorted (· < ·) (["web", "worker"] : List String))
    ∧ ((demoBuilder.Develop demoSys "app" "cache" (demoState demoOS)).1.1
        = some ⟨[⟨"web", "b"⟩, ⟨"worker", "c"⟩]⟩
      ∧ List.Sorted (· < ·) (["web", "worker"] : List String)) :=
  ⟨⟨by decide,
    list_sorted_by_type.2.1 demoSys demoBuilder "app" "launch" "cache" (demoState demoOS)
      ⟨[⟨"web", "b"⟩, ⟨"worker", "c"⟩]⟩ (by decide)⟩,
   ⟨by decide,
    list_sorted_by_type.2.2 demoSys demoBuilder "app" "cache" (demoState demoOS)
      ⟨[⟨"web", "b"⟩, ⟨"worker", "c"⟩]⟩ (by decide)⟩⟩

/-- C3. Environment Composer phase order: when the cache directory lists `files` and the
operations of the store all succeed, `setupEnv` returns no error and makes exactly these
calls after `ReadDir`: `AppendDirs` for every directory of the listing in listing order,
then `SetEnvDir` for every directory, then `AddEnvDir` for every directory; entries that
are not directories cause no call. -/
theorem setupEnv_phase_order (sys : Sys ω ε) (cacheDir : String) (s : State ω ε)
    (files : List FileInfo) (hread : sys.ReadDir cacheDir s.os = .ok files)
    (happend : ∀ p w, (sys.AppendDirs p w).1 = none)
    (hset : ∀ p w, (sys.SetEnvDir p w).1 = none)
    (hadd : ∀ p w, (sys.AddEnvDir p w).1 = none) :
    (setupEnv sys cacheDir s).1 = none
    ∧ (setupEnv sys cacheDir s).2.trace = s.trace ++ Event.ok (Call.ReadDir cacheDir) ::
        ((files.filter (fun f => f.IsDir)).map
            (fun d => Event.ok (Call.AppendDirs (sys.Join [cacheDir, d.Name])))
          ++ (files.filter (fun f => f.IsDir)).map
            (fun d => Event.ok (Call.SetEnvDir (sys.Join [cacheDir, d.Name, "env", "set"])))
          ++ (files.filter (fun f => f.IsDir)).map
            (fun d => Event.ok (Call.AddEnvDir (sys.Join [cacheDir, d.Name, "env", "add"])))) := by
  have hnone := setupEnv_none sys cacheDir s files hread happend hset hadd
  obtain ⟨evs, ht, hr⟩ := setupEnv_recorded sys cacheDir s
  rw [hnone] at hr
  have hl : listing sys cacheDir s.os = files := by simp [listing, hread]
  rw [hl] at hr
  have he : evs = (composeCalls sys cacheDir files).map Event.ok := hr
  refine ⟨hnone, ?_⟩
  rw [ht, he]
  simp [composeCalls, storeCalls, layerDirs, Function.comp_def]

/-- Witness of C3 on the example: the cache directory of `bp1` lists the directory `jdk`
and the file `notes.txt`. -/
theorem setupEnv_phase_order_witness :
    (setupEnv demoSys "cache/bp1" (demoState demoOS)).1 = none
    ∧ (setupEnv demoSys "cache/bp1" (demoState demoOS)).2.trace =
        [Event.ok (Call.ReadDir "cache/bp1"),
         Event.ok (Call.AppendDirs "cache/bp1/jdk"),
         Event.ok (Call.SetEnvDir "cache/bp1/jdk/env/set"),
         Event.ok (Call.AddEnvDir "cache/bp1/jdk/env/add")] :=
  setupEnv_phase_order demoSys "cache/bp1" (demoState demoOS)
    [⟨"jdk", true⟩, ⟨"notes.txt", false⟩] rfl (fun _ _ => rfl) (fun _ _ => rfl)
    (fun _ _ => rfl)

end composer

section failures
variable {ω ε : Type}


theorem setupEnv_readDir_error (sys : Sys ω ε) (cacheDir : String) (s : State ω ε) (e : Err)
    (h : sys.ReadDir cacheDir s.os = .error e) :
    setupEnv sys cacheDir s
      = (some e, ⟨s.os, s.env, s.trace ++ [⟨Call.ReadDir cacheDir, some e⟩]⟩) := by
  unfold setupEnv ioutilReadDir
  rw [h]
  rfl

/-- C9. Composition failure aborts.  When `setupEnv` returns an error `e`, its calls are an
initial part of the composition calls: all succeeded but the last one made, which
returned `e`, and no call follows it.  When listing the cache directory fails, that error
is returned and `ReadDir` is the only call.  In `Build` and `Develop`, a composition call
that returned `e` is the last call of the whole run, which returns `e` and no metadata. -/
theorem composition_failure_aborts (sys : Sys ω ε) (b : Builder)
    (appDir launchDir cacheDir : String) (s : State ω ε) :
    (∀ dir e, (setupEnv sys dir s).1 = some e →
        ∃ done c rest, composeCalls sys dir (listing sys dir s.os) = done ++ c :: rest
          ∧ (setupEnv sys dir s).2.trace = s.trace ++ (done.map Event.ok ++ [⟨c, some e⟩]))
    ∧ (∀ dir e, sys.ReadDir dir s.os = .error e →
        (setupEnv sys dir s).1 = some e
          ∧ (setupEnv sys dir s).2.trace = s.trace ++ [⟨Call.ReadDir dir, some e⟩])
    ∧ (∀ evs ev e, (b.Build sys appDir launchDir cacheDir s).2.trace = s.trace ++ evs →
        ev ∈ evs → ev.call.isCompose = true → ev.err = some e →
        (b.Build sys appDir launchDir cacheDir s).1 = (none, some e)
          ∧ ∃ init, evs = init ++ [ev] ∧ ∀ x ∈ init, x.err = none)
    ∧ (∀ evs ev e, (b.Develop sys appDir cacheDir s).2.trace = s.trace ++ evs →
        ev ∈ evs → ev.call.isCompose = true → ev.err = some e →
        (b.Develop sys appDir cacheDir s).1 = (none, some e)
          ∧ ∃ init, evs = init ++ [ev] ∧ ∀ x ∈ init, x.err = none) := by
  refine ⟨?_, ?_, ?_, ?_⟩
  · intro dir e h
    obtain ⟨evs, ht, hr⟩ := setupEnv_recorded sys dir s
    rw [h] at hr
    obtain ⟨done, c, rest, hc, he⟩ := hr
    exact ⟨done, c, rest, hc, by rw [ht, he]⟩
  · intro dir e h
    rw [setupEnv_readDir_error sys dir s e h]
    exact ⟨rfl, rfl⟩
  · intro evs ev e ht hmem _ herr
    obtain ⟨evs', ht', ho⟩ := Build_outcome sys b appDir launchDir cacheDir s
    have : evs' = evs := List.append_cancel_left (ht'.symm.trans ht)
    subst this
    exact failed_event_last ho hmem herr
  · intro evs ev e ht hmem _ herr
    obtain ⟨evs', ht', ho⟩ := Develop_outcome sys b appDir cacheDir s
    have : evs' = evs := List.append_cancel_left (ht'.symm.trans ht)
    subst this
    exact failed_event_last ho hmem herr

/-- Witness of C9 on the example.  With the store refusing `cache/bp1/jdk/env/set`,
`setupEnv`, `Build` and `Develop` stop at that `SetEnvDir`, before `AddEnvDir`, the
decoding and `bp2`; with `cache/bp1` unreadable, `setupEnv` makes `ReadDir` only. -/
theorem composition_failure_aborts_witness :
    ((setupEnv (demoSysRefusing ["cache/bp1/jdk/env/set"]) "cache/bp1" (demoState demoOS)).1
        = some "cannot set cache/bp1/jdk/env/set"
      ∧ ∃ done c rest,
          composeCalls (demoSysRefusing ["cache/bp1/jdk/env/set"]) "cache/bp1"
              (listing (demoSysRefusing ["cache/bp1/jdk/env/set"]) "cache/bp1" (demoState demoOS).os) = done ++ c :: rest
          ∧ (setupEnv (demoSysRefusing ["cache/bp1/jdk/env/set"]) "cache/bp1" (demoState demoOS)).2.trace
            = (demoState demoOS).trace
              ++ (done.map Event.ok ++ [⟨c, some "cannot set cache/bp1/jdk/env/set"⟩]))
    ∧ (demoSys.ReadDir "cache/bp1" (demoState demoUnreadable).os
        = .error "open cache/bp1: permission denied"
      ∧ (setupEnv demoSys "cache/bp1" (demoState demoUnreadable)).1
        = some "open cache/bp1: permission denied"
      ∧ (setupEnv demoSys "cache/bp1" (demoState demoUnreadable)).2.trace
        = (demoState demoUnreadable).trace
          ++ [⟨Call.ReadDir "cache/bp1", some "open cache/bp1: permission denied"⟩])
    ∧ ((demoBuilder.Build (demoSysRefusing ["cache/bp1/jdk/env/set"]) "app" "launch" "cache"
          (demoState demoOS)).2.trace.map Event.call
        = [Call.MkdirAll "launch/bp1" 0o777, Call.MkdirAll "cache/bp1" 0o777,
           Call.Abs "buildpacks/bp1/bin/build", Call.List,
           Call.Run ⟨"/work/buildpacks/bp1/bin/build",
             ["launch/bp1", "cache/bp1", "platform"], ["HOME=/home"], "app", 1, 2⟩,
           Call.ReadDir "cache/bp1", Call.AppendDirs "cache/bp1/jdk",
           Call.SetEnvDir "cache/bp1/jdk/env/set"]
      ∧ (demoBuilder.Build (demoSysRefusing ["cache/bp1/jdk/env/set"]) "app" "launch" "cache" (demoState demoOS)).1
        = (none, some "cannot set cache/bp1/jdk/env/set"))
    ∧ ((demoBuilder.Develop (demoSysRefusing ["cache/bp1/jdk/env/set"]) "app" "cache"
          (demoState demoOS)).2.trace.map Event.call
        = [Call.MkdirAll "cache/bp1" 0o777, Call.List,
           Call.Run ⟨"buildpacks/bp1/bin/develop", ["cache/bp1", "platform"],
             ["HOME=/home"], "app", 1, 2⟩,
           Call.ReadDir "cache/bp1", Call.AppendDirs "cache/bp1/jdk",
           Call.SetEnvDir "cache/bp1/jdk/env/set"]
      ∧ (demoBuilder.Develop (demoSysRefusing ["cache/bp1/jdk/env/set"]) "app" "cache" (demoState demoOS)).1
        = (none, some "cannot set cache/bp1/jdk/env/set")) :=
  ⟨⟨by decide,
    (composition_failure_aborts (demoSysRefusing ["cache/bp1/jdk/env/set"]) demoBuilder "app" "launch" "cache"
      (demoState demoOS)).1 "cache/bp1" "cannot set cache/bp1/jdk/env/set" (by decide)⟩,
   ⟨rfl,
    (composition_failure_aborts demoSys demoBuilder "app" "launch" "cache"
      (demoState demoUnreadable)).2.1 "cache/bp1" "open cache/bp1: permission denied" rfl⟩,
   ⟨by decide,
    ((composition_failure_aborts (demoSysRefusing ["cache/bp1/jdk/env/set"]) demoBuilder "app" "launch" "cache"
      (demoState demoOS)).2.2.1
      (demoBuilder.Build (demoSysRefusing ["cache/bp1/jdk/env/set"]) "app" "launch" "cache" (demoState demoOS)).2.trace
      ⟨Call.SetEnvDir "cache/bp1/jdk/env/set", some "cannot set cache/bp1/jdk/env/set"⟩
      "cannot set cache/bp1/jdk/env/set" rfl (by decide) rfl rfl).1⟩,
   ⟨by decide,
    ((composition_failure_aborts (demoSysRefusing ["cache/bp1/jdk/env/set"]) demoBuilder "app" "launch" "cache"
      (demoState demoOS)).2.2.2
      (demoBuilder.Develop (demoSysRefusing ["cache/bp1/jdk/env/set"]) "app" "cache" (demoState demoOS)).2.trace
      ⟨Call.SetEnvDir "cache/bp1/jdk/env/set", some "cannot set cache/bp1/jdk/env/set"⟩
      "cannot set cache/bp1/jdk/env/set" rfl (by decide) rfl rfl).1⟩⟩

end failures

section splitting
variable {ω ε : Type}

/-- A list with a single element satisfying `P` splits around that element in one way. -/
theorem split_unique {α : Type} (P : α → Prop) {xs zs done rest : List α} {y y' : α}
    (hxs : ∀ x ∈ xs, ¬ P x) (hzs : ∀ z ∈ zs, ¬ P z) (hy' : P y')
    (h : xs ++ y :: zs = done ++ y' :: rest) : done = xs ∧ y' = y ∧ rest = zs := by
  induction xs generalizing done with
  | nil =>
    cases done with
    | nil =>
      simp only [List.nil_append, List.cons.injEq] at h
      exact ⟨rfl, h.1.symm, h.2.symm⟩
    | cons d done' =>
      simp only [List.nil_append, List.cons_append, List.cons.injEq] at h
      exact absurd hy' (hzs y' (by rw [h.2]; simp))
  | cons x xs ih =>
    cases done with
    | nil =>
      simp only [List.nil_append, List.cons_append, List.cons.injEq] at h
      exact absurd hy' (by rw [← h.1]; exact hxs x (by simp))
    | cons d done' =>
      simp only [List.cons_append, List.cons.injEq] at h
      obtain ⟨h1, h2, h3⟩ := ih (fun x hx => hxs x (List.mem_cons_of_mem _ hx)) h.2
      exact ⟨by rw [h.1, h1], h2, h3⟩

theorem composeCalls_no_run (sys : Sys ω ε) (cacheDir : String) (files : List FileInfo) :
    ∀ c ∈ composeCalls sys cacheDir files, ¬ (c.cmd?.isSome = true) := by
  intro c hc
  have h := cmd?_composeCalls sys cacheDir files
  rw [List.filterMap_eq_nil_iff] at h
  simp [h c hc]

theorem composeCalls_no_decode (sys : Sys ω ε) (cacheDir : String) (files : List FileInfo) :
    ∀ c ∈ composeCalls sys cacheDir files, ¬ (c.isDecode = true) := by
  intro c hc
  simp only [composeCalls, storeCalls, List.mem_cons, List.mem_append, List.mem_map] at hc
  rcases hc with rfl | ⟨⟨d, _, rfl⟩ | ⟨d, _, rfl⟩⟩ | ⟨d, _, rfl⟩ <;> simp [Call.isDecode]

/-- In a record of a `Build` pass that stopped at a failing `Run`, the calls before it
are the two `MkdirAll`, `Abs` and `List`, and the command is the one of the pass. -/
theorem buildCalls_split_run {sys : Sys ω ε} {launchDir cacheDir : String} {bp : Buildpack}
    {cmd cmd' : Cmd} {files : List FileInfo} {done rest : List Call}
    (h : buildCalls sys launchDir cacheDir bp cmd' files = done ++ Call.Run cmd :: rest) :
    done = [Call.MkdirAll (sys.Join [launchDir, bp.ID]) 0o777,
            Call.MkdirAll (sys.Join [cacheDir, bp.ID]) 0o777,
            Call.Abs (sys.Join [bp.Dir, "bin", "build"]), Call.List] ∧ cmd = cmd' := by
  have h' : [Call.MkdirAll (sys.Join [launchDir, bp.ID]) 0o777,
        Call.MkdirAll (sys.Join [cacheDir, bp.ID]) 0o777,
        Call.Abs (sys.Join [bp.Dir, "bin", "build"]), Call.List]
      ++ Call.Run cmd' :: (composeCalls sys (sys.Join [cacheDir, bp.ID]) files
        ++ [Call.DecodeFile (sys.Join [sys.Join [launchDir, bp.ID], "launch.toml"])])
      = done ++ Call.Run cmd :: rest := by
    rw [← h]
    simp [buildCalls]
  obtain ⟨h1, h2, _⟩ := split_unique (fun c => c.cmd?.isSome = true)
    (by simp [Call.cmd?])
    (by
      intro z hz
      rcases List.mem_append.mp hz with hz | hz
      · exact composeCalls_no_run sys _ files z hz
      · have : z = _ := List.mem_singleton.mp hz
        subst this
        simp [Call.cmd?])
    (by simp [Call.cmd?]) h'
  exact ⟨h1, by simpa using h2⟩

theorem developCalls_split_run {sys : Sys ω ε} {cacheDir : String} {bp : Buildpack}
    {cmd cmd' : Cmd} {files : List FileInfo} {done rest : List Call}
    (h : developCalls sys cacheDir bp cmd' files = done ++ Call.Run cmd :: rest) :
    done = [Call.MkdirAll (sys.Join [cacheDir, bp.ID]) 0o777, Call.List] ∧ cmd = cmd' := by
  have h' : [Call.MkdirAll (sys.Join [cacheDir, bp.ID]) 0o777, Call.List]
      ++ Call.Run cmd' :: (composeCalls sys (sys.Join [cacheDir, bp.ID]) files
        ++ [Call.DecodeFile (sys.Join [sys.Join [cacheDir, bp.ID], "develop.toml"])])
      = done ++ Call.Run cmd :: rest := by
    rw [← h]
    simp [developCalls]
  obtain ⟨h1, h2, _⟩ := split_unique (fun c => c.cmd?.isSome = true)
    (by simp [Call.cmd?])
    (by
      intro z hz
      rcases List.mem_append.mp hz with hz | hz
      · exact composeCalls_no_run sys _ files z hz
      · have : z = _ := List.mem_singleton.mp hz
        subst this
        simp [Call.cmd?])
    (by simp [Call.cmd?]) h'
  exact ⟨h1, by simpa using h2⟩

/-- In a record of a `Build` pass that stopped at a failing `DecodeFile`, every call of
the pass was made: the composition calls all come before the decoding. -/
theorem buildCalls_split_decode {sys : Sys ω ε} {launchDir cacheDir : String}
    {bp : Buildpack} {cmd : Cmd} {files : List FileInfo} {done rest : List Call}
    {f : String}
    (h : buildCalls sys launchDir cacheDir bp cmd files = done ++ Call.DecodeFile f :: rest) :
    done = [Call.MkdirAll (sys.Join [launchDir, bp.ID]) 0o777,
            Call.MkdirAll (sys.Join [cacheDir, bp.ID]) 0o777,
            Call.Abs (sys.Join [bp.Dir, "bin", "build"]), Call.List, Call.Run cmd]
          ++ composeCalls sys (sys.Join [cacheDir, bp.ID]) files
      ∧ f = sys.Join [sys.Join [launchDir, bp.ID], "launch.toml"] := by
  have h' : ([Call.MkdirAll (sys.Join [launchDir, bp.ID]) 0o777,
        Call.MkdirAll (sys.Join [cacheDir, bp.ID]) 0o777,
        Call.Abs (sys.Join [bp.Dir, "bin", "build"]), Call.List, Call.Run cmd]
          ++ composeCalls sys (sys.Join [cacheDir, bp.ID]) files)
      ++ Call.DecodeFile (sys.Join [sys.Join [launchDir, bp.ID], "launch.toml"]) :: []
      = done ++ Call.DecodeFile f :: rest := by
    rw [← h]
    simp [buildCalls]
  obtain ⟨h1, h2, _⟩ := split_unique (fun c => c.isDecode = true)
    (by
      intro z hz
      rcases List.mem_append.mp hz with hz | hz
      · simp only [List.mem_cons, List.mem_singleton, List.not_mem_nil, or_false] at hz
        rcases hz with rfl | rfl | rfl | rfl | rfl <;> simp [Call.isDecode]
      · exact composeCalls_no_decode sys _ files z hz)
    (by simp)
    (by simp [Call.isDecode]) h'
  exact ⟨h1, by simpa using h2⟩

theorem developCalls_split_decode {sys : Sys ω ε} {cacheDir : String}
    {bp : Buildpack} {cmd : Cmd} {files : List FileInfo} {done rest : List Call}
    {f : String}
    (h : developCalls sys cacheDir bp cmd files = done ++ Call.DecodeFile f :: rest) :
    done = [Call.MkdirAll (sys.Join [cacheDir, bp.ID]) 0o777, Call.List, Call.Run cmd]
          ++ composeCalls sys (sys.Join [cacheDir, bp.ID]) files
      ∧ f = sys.Join [sys.Join [cacheDir, bp.ID], "develop.toml"] := by
  have h' : ([Call.MkdirAll (sys.Join [cacheDir, bp.ID]) 0o777, Call.List, Call.Run cmd]
          ++ composeCalls sys (sys.Join [cacheDir, bp.ID]) files)
      ++ Call.DecodeFile (sys.Join [sys.Join [cacheDir, bp.ID], "develop.toml"]) :: []
      = done ++ Call.DecodeFile f :: rest := by
    rw [← h]
    simp [developCalls]
  obtain ⟨h1, h2, _⟩ := split_unique (fun c => c.isDecode = true)
    (by
      intro z hz
      rcases List.mem_append.mp hz with hz | hz
      · simp only [List.mem_cons, List.mem_singleton, List.not_mem_nil, or_false] at hz
        rcases hz with rfl | rfl | rfl <;> simp [Call.isDecode]
      · exact composeCalls_no_decode sys _ files z hz)
    (by simp)
    (by simp [Call.isDecode]) h'
  exact ⟨h1, by simpa using h2⟩

/-- In a loop record, an event that carries an error is the last event of the part of
the buildpack the loop stopped at. -/
theorem loopRecord_failed_event {IsBlock : Buildpack → List Event → Prop}
    {IsPart : Buildpack → Err → List Event → Prop}
    (hblock : ∀ bp block, IsBlock bp block → ∀ ev ∈ block, ev.err = none)
    (hpart : ∀ bp e part, IsPart bp e part → ∃ init last, part = init ++ [last]
      ∧ last.err = some e ∧ ∀ ev ∈ init, ev.err = none)
    {bps : List Buildpack} {r : Option Err} {evs : List Event}
    (h : LoopRecord IsBlock IsPart bps r evs)
    {ev : Event} {e : Err} (hmem : ev ∈ evs) (herr : ev.err = some e) :
    r = some e ∧ ∃ pre bp post blocks init, bps = pre ++ bp :: post
      ∧ List.Forall₂ IsBlock pre blocks ∧ IsPart bp e (init ++ [ev])
      ∧ (∀ x ∈ init, x.err = none) ∧ evs = blocks.flatten ++ (init ++ [ev]) := by
  cases r with
  | none =>
    obtain ⟨blocks, hb, rfl⟩ := h
    rw [forall₂_ok hblock hb ev hmem] at herr
    cases herr
  | some e' =>
    obtain ⟨pre, bp, post, blocks, part, hbps, hb, hp, rfl⟩ := h
    obtain ⟨init, last, rfl, hl, hi⟩ := hpart bp e' _ hp
    have hev : ev = last := by
      rcases List.mem_append.mp hmem with hm | hm
      · rw [forall₂_ok hblock hb ev hm] at herr
        cases herr
      · rcases List.mem_append.mp hm with hm | hm
        · rw [hi ev hm] at herr
          cases herr
        · simpa using hm
    subst hev
    rw [herr] at hl
    cases hl
    exact ⟨rfl, pre, bp, post, blocks, init, hbps, hb, hp, hi, rfl⟩

end splitting

section invocations
variable {ω ε : Type}

theorem last_eq_of_append_singleton {α : Type} {a b : List α} {x y : α}
    (h : a ++ [x] = b ++ [y]) : a = b ∧ x = y := by
  have := List.append_inj' h rfl
  exact ⟨this.1, by simpa using this.2⟩

/-- C5. Failure propagation: when the executable of some buildpack fails with `e` during
`Build` (respectively `Develop`), the call returns `e` and no metadata; the failing `Run`
is the last call of the run, made after the complete passes of the buildpacks before it
and the directory creation, path resolution and `List` of its own buildpack, so nothing
is composed or decoded for it or for a later buildpack; and the executables invoked are
exactly those of the buildpacks up to the failing one, in group order. -/
theorem run_failure_propagates (sys : Sys ω ε) (b : Builder)
    (appDir launchDir cacheDir : String) (s : State ω ε) :
    (∀ evs cmd e, (b.Build sys appDir launchDir cacheDir s).2.trace = s.trace ++ evs →
        (⟨Call.Run cmd, some e⟩ : Event) ∈ evs →
        (b.Build sys appDir launchDir cacheDir s).1 = (none, some e)
        ∧ ∃ pre bp post blocks, b.Buildpacks = pre ++ bp :: post
          ∧ List.Forall₂ (IsBuildBlock sys b appDir launchDir cacheDir) pre blocks
          ∧ IsBuildCmd sys b appDir launchDir cacheDir bp cmd
          ∧ evs = blocks.flatten ++
              [Event.ok (Call.MkdirAll (sys.Join [launchDir, bp.ID]) 0o777),
               Event.ok (Call.MkdirAll (sys.Join [cacheDir, bp.ID]) 0o777),
               Event.ok (Call.Abs (sys.Join [bp.Dir, "bin", "build"])),
               Event.ok Call.List,
               ⟨Call.Run cmd, some e⟩]
          ∧ List.Forall₂ (IsBuildCmd sys b appDir launchDir cacheDir) (pre ++ [bp])
              (runsOf evs))
    ∧ (∀ evs cmd e, (b.Develop sys appDir cacheDir s).2.trace = s.trace ++ evs →
        (⟨Call.Run cmd, some e⟩ : Event) ∈ evs →
        (b.Develop sys appDir cacheDir s).1 = (none, some e)
        ∧ ∃ pre bp post blocks, b.Buildpacks = pre ++ bp :: post
          ∧ List.Forall₂ (IsDevelopBlock sys b appDir cacheDir) pre blocks
          ∧ IsDevelopCmd sys b appDir cacheDir bp cmd
          ∧ evs = blocks.flatten ++
              [Event.ok (Call.MkdirAll (sys.Join [cacheDir, bp.ID]) 0o777),
               Event.ok Call.List,
               ⟨Call.Run cmd, some e⟩]
          ∧ List.Forall₂ (IsDevelopCmd sys b appDir cacheDir) (pre ++ [bp])
              (runsOf evs)) := by
  constructor
  · intro evs cmd e ht hmem
    obtain ⟨evs', ht', hr, hres⟩ := Build_record sys b appDir launchDir cacheDir s
    have : evs' = evs := List.append_cancel_left (ht'.symm.trans ht)
    subst this
    obtain ⟨hre, pre, bp, post, blocks, init, hbps, hb, hp, _, hevs⟩ :=
      loopRecord_failed_event (fun _ _ h => buildBlock_ok h) (fun _ _ _ h => buildPart_errors h) hr hmem rfl
    rw [hre] at hres
    obtain ⟨cmd', files, hrec, hc⟩ := hp
    obtain ⟨done, c, rest, hcalls, hpart⟩ := hrec
    obtain ⟨hinit, hlast⟩ := last_eq_of_append_singleton hpart
    have hcc : c = Call.Run cmd := by
      have := congrArg Event.call hlast
      exact this.symm
    subst hcc
    obtain ⟨hdone, hcmd⟩ := buildCalls_split_run hcalls
    subst hcmd
    have hcmdOk := hc (by simp)
    refine ⟨hres, pre, bp, post, blocks, hbps, hb, hcmdOk, ?_, ?_⟩
    · rw [hevs, hinit, hdone]
      rfl
    · rw [hevs, runsOf_append, hinit, hdone]
      refine List.rel_append (forall₂_runs (fun _ _ h => buildBlock_runs h) hb) ?_
      simp only [runsOf, Event.ok, Call.cmd?, List.map, List.filterMap, List.append]
      exact List.Forall₂.cons hcmdOk List.Forall₂.nil
  · intro evs cmd e ht hmem
    obtain ⟨evs', ht', hr, hres⟩ := Develop_record sys b appDir cacheDir s
    have : evs' = evs := List.append_cancel_left (ht'.symm.trans ht)
    subst this
    obtain ⟨hre, pre, bp, post, blocks, init, hbps, hb, hp, _, hevs⟩ :=
      loopRecord_failed_event (fun _ _ h => developBlock_ok h) (fun _ _ _ h => developPart_errors h) hr hmem rfl
    rw [hre] at hres
    obtain ⟨cmd', files, hcmdOk, hrec⟩ := hp
    obtain ⟨done, c, rest, hcalls, hpart⟩ := hrec
    obtain ⟨hinit, hlast⟩ := last_eq_of_append_singleton hpart
    have hcc : c = Call.Run cmd := by
      have := congrArg Event.call hlast
      exact this.symm
    subst hcc
    obtain ⟨hdone, hcmd⟩ := developCalls_split_run hcalls
    subst hcmd
    refine ⟨hres, pre, bp, post, blocks, hbps, hb, hcmdOk, ?_, ?_⟩
    · rw [hevs, hinit, hdone]
      rfl
    · rw [hevs, runsOf_append, hinit, hdone]
      refine List.rel_append (forall₂_runs (fun _ _ h => developBlock_runs h) hb) ?_
      simp only [runsOf, Event.ok, Call.cmd?, List.map, List.filterMap, List.append]
      exact List.Forall₂.cons hcmdOk List.Forall₂.nil

/-- Witness of C5 on the example in which the executables of `bp2` exit non-zero. -/
theorem run_failure_propagates_witness :
    (((⟨Call.Run ⟨"/work/buildpacks/bp2/bin/build", ["launch/bp2", "cache/bp2", "platform"],
        ["HOME=/home", "PATH=cache/bp1/jdk/bin", "SET=cache/bp1/jdk/env/set",
         "ADD=cache/bp1/jdk/env/add"], "app", 1, 2⟩, some "exit status 1"⟩ : Event)
        ∈ (demoBuilder.Build demoSys "app" "launch" "cache" (demoState demoFailing)).2.trace)
      ∧ (demoBuilder.Build demoSys "app" "launch" "cache" (demoState demoFailing)).1
        = (none, some "exit status 1"))
    ∧ (((⟨Call.Run ⟨"buildpacks/bp2/bin/develop", ["cache/bp2", "platform"],
        ["HOME=/home", "PATH=cache/bp1/jdk/bin", "SET=cache/bp1/jdk/env/set",
         "ADD=cache/bp1/jdk/env/add"], "app", 1, 2⟩, some "exit status 1"⟩ : Event)
        ∈ (demoBuilder.Develop demoSys "app" "cache" (demoState demoFailing)).2.trace)
      ∧ (demoBuilder.Develop demoSys "app" "cache" (demoState demoFailing)).1
        = (none, some "exit status 1")) :=
  ⟨⟨by decide,
    ((run_failure_propagates demoSys demoBuilder "app" "launch" "cache"
      (demoState demoFailing)).1
      (demoBuilder.Build demoSys "app" "launch" "cache" (demoState demoFailing)).2.trace
      ⟨"/work/buildpacks/bp2/bin/build", ["launch/bp2", "cache/bp2", "platform"],
        ["HOME=/home", "PATH=cache/bp1/jdk/bin", "SET=cache/bp1/jdk/env/set",
         "ADD=cache/bp1/jdk/env/add"], "app", 1, 2⟩
      "exit status 1" rfl (by decide)).1⟩,
   ⟨by decide,
    ((run_failure_propagates demoSys demoBuilder "app" "launch" "cache"
      (demoState demoFailing)).2
      (demoBuilder.Develop demoSys "app" "cache" (demoState demoFailing)).2.trace
      ⟨"buildpacks/bp2/bin/develop", ["cache/bp2", "platform"],
        ["HOME=/home", "PATH=cache/bp1/jdk/bin", "SET=cache/bp1/jdk/env/set",
         "ADD=cache/bp1/jdk/env/add"], "app", 1, 2⟩
      "exit status 1" rfl (by decide)).1⟩⟩

/-- C6. When every step succeeds, `Build` (respectively `Develop`) records one complete
block per buildpack, in group order: each block holds the single `Run` of its buildpack,
followed by that buildpack's composition and decoding, and the next block starts only
after it.  So exactly as many executables are invoked as there are buildpacks, the k-th
invocation being that of the k-th buildpack. -/
theorem runs_in_group_order (sys : Sys ω ε) (b : Builder)
    (appDir launchDir cacheDir : String) (s : State ω ε) :
    ((b.Build sys appDir launchDir cacheDir s).1.2 = none →
        ∃ evs blocks, (b.Build sys appDir launchDir cacheDir s).2.trace = s.trace ++ evs
          ∧ List.Forall₂ (IsBuildBlock sys b appDir launchDir cacheDir) b.Buildpacks blocks
          ∧ evs = blocks.flatten
          ∧ List.Forall₂ (IsBuildCmd sys b appDir launchDir cacheDir) b.Buildpacks
              (runsOf evs)
          ∧ (runsOf evs).length = b.Buildpacks.length)
    ∧ ((b.Develop sys appDir cacheDir s).1.2 = none →
        ∃ evs blocks, (b.Develop sys appDir cacheDir s).2.trace = s.trace ++ evs
          ∧ List.Forall₂ (IsDevelopBlock sys b appDir cacheDir) b.Buildpacks blocks
          ∧ evs = blocks.flatten
          ∧ List.Forall₂ (IsDevelopCmd sys b appDir cacheDir) b.Buildpacks (runsOf evs)
          ∧ (runsOf evs).length = b.Buildpacks.length) := by
  constructor
  · intro h
    obtain ⟨evs, ht, hr, _⟩ := Build_record sys b appDir launchDir cacheDir s
    rw [h] at hr
    obtain ⟨blocks, hb, he⟩ := hr
    have hruns : List.Forall₂ (IsBuildCmd sys b appDir launchDir cacheDir) b.Buildpacks
        (runsOf blocks.flatten) := forall₂_runs (fun _ _ h => buildBlock_runs h) hb
    rw [← he] at hruns
    exact ⟨evs, blocks, ht, hb, he, hruns, hruns.length_eq.symm⟩
  · intro h
    obtain ⟨evs, ht, hr, _⟩ := Develop_record sys b appDir cacheDir s
    rw [h] at hr
    obtain ⟨blocks, hb, he⟩ := hr
    have hruns : List.Forall₂ (IsDevelopCmd sys b appDir cacheDir) b.Buildpacks
        (runsOf blocks.flatten) := forall₂_runs (fun _ _ h => developBlock_runs h) hb
    rw [← he] at hruns
    exact ⟨evs, blocks, ht, hb, he, hruns, hruns.length_eq.symm⟩

/-- Witness of C6 on the example: two buildpacks, two invocations, in group order. -/
theorem runs_in_group_order_witness :
    ((demoBuilder.Build demoSys "app" "launch" "cache" (demoState demoOS)).1.2 = none
      ∧ (runsOf (demoBuilder.Build demoSys "app" "launch" "cache"
          (demoState demoOS)).2.trace).map Cmd.Name
        = ["/work/buildpacks/bp1/bin/build", "/work/buildpacks/bp2/bin/build"]
      ∧ ∃ evs blocks,
          (demoBuilder.Build demoSys "app" "launch" "cache" (demoState demoOS)).2.trace
            = (demoState demoOS).trace ++ evs
          ∧ List.Forall₂ (IsBuildBlock demoSys demoBuilder "app" "launch" "cache")
              demoBuilder.Buildpacks blocks
          ∧ evs = blocks.flatten
          ∧ List.Forall₂ (IsBuildCmd demoSys demoBuilder "app" "launch" "cache")
              demoBuilder.Buildpacks (runsOf evs)
          ∧ (runsOf evs).length = demoBuilder.Buildpacks.length)
    ∧ ((demoBuilder.Develop demoSys "app" "cache" (demoState demoOS)).1.2 = none
      ∧ (runsOf (demoBuilder.Develop demoSys "app" "cache"
          (demoState demoOS)).2.trace).map Cmd.Args
        = [["cache/bp1", "platform"], ["cache/bp2", "platform"]]
      ∧ ∃ evs blocks,
          (demoBuilder.Develop demoSys "app" "cache" (demoState demoOS)).2.trace
            = (demoState demoOS).trace ++ evs
          ∧ List.Forall₂ (IsDevelopBlock demoSys demoBuilder "app" "cache")
              demoBuilder.Buildpacks blocks
          ∧ evs = blocks.flatten
          ∧ List.Forall₂ (IsDevelopCmd demoSys demoBuilder "app" "cache")
              demoBuilder.Buildpacks (runsOf evs)
          ∧ (runsOf evs).length = demoBuilder.Buildpacks.length) :=
  ⟨⟨by decide, by decide,
    (runs_in_group_order demoSys demoBuilder "app" "launch" "cache" (demoState demoOS)).1
      (by decide)⟩,
   ⟨by decide, by decide,
    (runs_in_group_order demoSys demoBuilder "app" "launch" "cache" (demoState demoOS)).2
      (by decide)⟩⟩

end invocations

section ordering
variable {ω ε : Type}

/-- Counterexample to C4: in the example with no `launch.toml`, `Build` fails
on decoding the output of `bp1` only after the three composition calls for the cache
directory of `bp1`, and the store is not as it was: it holds their three entries. -/
theorem decode_failure_after_composition :
    (demoBuilder.Build demoSys "app" "launch" "cache" (demoState demoNoToml)).1
      = (none, some "open launch/bp1/launch.toml: no such file or directory")
    ∧ (demoBuilder.Build demoSys "app" "launch" "cache" (demoState demoNoToml)).2.trace
      = [Event.ok (Call.MkdirAll "launch/bp1" 0o777),
         Event.ok (Call.MkdirAll "cache/bp1" 0o777),
         Event.ok (Call.Abs "buildpacks/bp1/bin/build"),
         Event.ok Call.List,
         Event.ok (Call.Run ⟨"/work/buildpacks/bp1/bin/build",
           ["launch/bp1", "cache/bp1", "platform"], ["HOME=/home"], "app", 1, 2⟩),
         Event.ok (Call.ReadDir "cache/bp1"),
         Event.ok (Call.AppendDirs "cache/bp1/jdk"),
         Event.ok (Call.SetEnvDir "cache/bp1/jdk/env/set"),
         Event.ok (Call.AddEnvDir "cache/bp1/jdk/env/add"),
         ⟨Call.DecodeFile "launch/bp1/launch.toml",
           some "open launch/bp1/launch.toml: no such file or directory"⟩]
    ∧ (demoState demoNoToml).env = ["HOME=/home"]
    ∧ (demoBuilder.Build demoSys "app" "launch" "cache" (demoState demoNoToml)).2.env
      = ["HOME=/home", "PATH=cache/bp1/jdk/bin", "SET=cache/bp1/jdk/env/set",
         "ADD=cache/bp1/jdk/env/add"]
    ∧ (demoBuilder.Develop demoSys "app" "cache" (demoState demoNoToml)).1
      = (none, some "open cache/bp1/develop.toml: no such file or directory")
    ∧ (demoBuilder.Develop demoSys "app" "cache" (demoState demoNoToml)).2.env
      = ["HOME=/home", "PATH=cache/bp1/jdk/bin", "SET=cache/bp1/jdk/env/set",
         "ADD=cache/bp1/jdk/env/add"] := by
  decide


/-- C8 at the failing input `Dir = "buildpacks/bp1"` (relative), working directory
`/work`: `Build` runs the absolute `/work/buildpacks/bp1/bin/build`, while `Develop` runs
the relative `buildpacks/bp1/bin/develop`, whose absolute form is
`/work/buildpacks/bp1/bin/develop`, and never calls `filepath.Abs`. -/
theorem develop_path_not_absolute :
    (runsOf (demoBuilder.Build demoSys "app" "launch" "cache"
        (demoState demoOS)).2.trace).map Cmd.Name
      = ["/work/buildpacks/bp1/bin/build", "/work/buildpacks/bp2/bin/build"]
    ∧ (runsOf (demoBuilder.Develop demoSys "app" "cache"
        (demoState demoOS)).2.trace).map Cmd.Name
      = ["buildpacks/bp1/bin/develop", "buildpacks/bp2/bin/develop"]
    ∧ demoAbs "buildpacks/bp1/bin/develop" demoOS = "/work/buildpacks/bp1/bin/develop"
    ∧ (demoBuilder.Develop demoSys "app" "cache" (demoState demoOS)).2.trace.map Event.call
      = [Call.MkdirAll "cache/bp1" 0o777, Call.List,
         Call.Run ⟨"buildpacks/bp1/bin/develop", ["cache/bp1", "platform"],
           ["HOME=/home"], "app", 1, 2⟩,
         Call.ReadDir "cache/bp1", Call.AppendDirs "cache/bp1/jdk",
         Call.SetEnvDir "cache/bp1/jdk/env/set", Call.AddEnvDir "cache/bp1/jdk/env/add",
         Call.DecodeFile "cache/bp1/develop.toml",
         Call.MkdirAll "cache/bp2" 0o777, Call.List,
         Call.Run ⟨"buildpacks/bp2/bin/develop", ["cache/bp2", "platform"],
           ["HOME=/home", "PATH=cache/bp1/jdk/bin", "SET=cache/bp1/jdk/env/set",
            "ADD=cache/bp1/jdk/env/add"], "app", 1, 2⟩,
         Call.ReadDir "cache/bp2", Call.DecodeFile "cache/bp2/develop.toml"] := by
  decide

end ordering

section environment
variable {ω ε : Type}

theorem recorded_runs {cs : List Call} {r : Option Err} {evs : List Event}
    (h : Recorded cs r evs) :
    runsOf evs <+: cs.filterMap Call.cmd?
      ∧ (r = none → runsOf evs = cs.filterMap Call.cmd?) := by
  constructor
  · rw [runsOf_eq]
    exact (recorded_calls_initial h).filterMap _
  · intro hr
    subst hr
    have he : evs = cs.map Event.ok := h
    rw [he, runsOf_eq, map_call_map_ok]

theorem buildIter_runs (sys : Sys ω ε) (b : Builder) (appDir launchDir cacheDir : String)
    (bp : Buildpack) (pm : processMap) (s : State ω ε) :
    ∃ evs, (buildIter sys b appDir launchDir cacheDir bp pm s).2.2.trace = s.trace ++ evs
      ∧ runsOf evs <+: [buildCmd sys b appDir launchDir cacheDir bp s]
      ∧ ((buildIter sys b appDir launchDir cacheDir bp pm s).1 = none →
          runsOf evs = [buildCmd sys b appDir launchDir cacheDir bp s]) := by
  obtain ⟨files, evs, ht, hr, _⟩ := buildIter_recorded sys b appDir launchDir cacheDir bp pm s
  have := recorded_runs hr
  rw [cmd?_buildCalls] at this
  exact ⟨evs, ht, this.1, this.2⟩

theorem developIter_runs (sys : Sys ω ε) (b : Builder) (appDir cacheDir : String)
    (bp : Buildpack) (pm : processMap) (s : State ω ε) :
    ∃ evs, (developIter sys b appDir cacheDir bp pm s).2.2.trace = s.trace ++ evs
      ∧ runsOf evs <+: [developCmd sys b appDir cacheDir bp s]
      ∧ ((developIter sys b appDir cacheDir bp pm s).1 = none →
          runsOf evs = [developCmd sys b appDir cacheDir bp s]) := by
  obtain ⟨files, evs, ht, hr⟩ := developIter_recorded sys b appDir cacheDir bp pm s
  have := recorded_runs hr
  rw [cmd?_developCalls] at this
  exact ⟨evs, ht, this.1, this.2⟩

theorem Build_state (sys : Sys ω ε) (b : Builder) (appDir launchDir cacheDir : String)
    (s : State ω ε) :
    (b.Build sys appDir launchDir cacheDir s).2
      = (buildLoop sys b appDir launchDir cacheDir b.Buildpacks processMap.empty s).2.2 := by
  unfold Builder.Build
  rcases buildLoop sys b appDir launchDir cacheDir b.Buildpacks processMap.empty s
    with ⟨_ | e, pm, s'⟩ <;> rfl

theorem Develop_state (sys : Sys ω ε) (b : Builder) (appDir cacheDir : String)
    (s : State ω ε) :
    (b.Develop sys appDir cacheDir s).2
      = (developLoop sys b appDir cacheDir b.Buildpacks processMap.empty s).2.2 := by
  unfold Builder.Develop
  rcases developLoop sys b appDir cacheDir b.Buildpacks processMap.empty s
    with ⟨_ | e, pm, s'⟩ <;> rfl

/-- C7. Environment visibility: the environment of the k-th child process spawned by
`Build` (respectively `Develop`) is `env.List()` on the store as it is once the loop has
completely processed the first k buildpacks of the group (the directory creation and
path resolution in between act on the operating system only).  For k = 0 that is the
state handed in; for k = j + 1 the store is the one in which `setupEnv` for buildpack j
ended, before any composition for buildpack k. -/
theorem env_visibility (sys : Sys ω ε) (b : Builder) (appDir launchDir cacheDir : String)
    (s : State ω ε) :
    (∀ evs k cmd, (b.Build sys appDir launchDir cacheDir s).2.trace = s.trace ++ evs →
        (runsOf evs)[k]? = some cmd →
        ∃ bp pm sk, b.Buildpacks[k]? = some bp
          ∧ buildLoop sys b appDir launchDir cacheDir (b.Buildpacks.take k)
              processMap.empty s = (none, pm, sk)
          ∧ cmd.Env = (sys.List
              ((sys.MkdirAll (sys.Join [cacheDir, bp.ID]) 0o777
                  (sys.MkdirAll (sys.Join [launchDir, bp.ID]) 0o777 sk.os).2).2, sk.env)).1
          ∧ (k = 0 → sk = s)
          ∧ (∀ j, k = j + 1 → ∃ bpj s5 s6, b.Buildpacks[j]? = some bpj
              ∧ setupEnv sys (sys.Join [cacheDir, bpj.ID]) s5 = (none, s6)
              ∧ sk.env = s6.env))
    ∧ (∀ evs k cmd, (b.Develop sys appDir cacheDir s).2.trace = s.trace ++ evs →
        (runsOf evs)[k]? = some cmd →
        ∃ bp pm sk, b.Buildpacks[k]? = some bp
          ∧ developLoop sys b appDir cacheDir (b.Buildpacks.take k)
              processMap.empty s = (none, pm, sk)
          ∧ cmd.Env = (sys.List
              ((sys.MkdirAll (sys.Join [cacheDir, bp.ID]) 0o777 sk.os).2, sk.env)).1
          ∧ (k = 0 → sk = s)
          ∧ (∀ j, k = j + 1 → ∃ bpj s5 s6, b.Buildpacks[j]? = some bpj
              ∧ setupEnv sys (sys.Join [cacheDir, bpj.ID]) s5 = (none, s6)
              ∧ sk.env = s6.env)) := by
  constructor
  · intro evs k cmd ht hk
    rw [Build_state, buildLoop_eq_runLoop] at ht
    obtain ⟨bp, pm, sk, hbp, hl, hc⟩ := runLoop_run_index
      (buildIter sys b appDir launchDir cacheDir) (buildCmd sys b appDir launchDir cacheDir)
      (buildIter_runs sys b appDir launchDir cacheDir) b.Buildpacks processMap.empty s evs
      ht k cmd hk
    refine ⟨bp, pm, sk, hbp, by rw [buildLoop_eq_runLoop]; exact hl, by rw [hc]; rfl, ?_, ?_⟩
    · intro h0
      subst h0
      simp only [List.take_zero, runLoop, Prod.mk.injEq, true_and] at hl
      exact hl.2.symm
    · intro j hj
      subst hj
      have hlen : j < b.Buildpacks.length := by
        have := (List.getElem?_eq_some_iff.mp hbp).1
        omega
      have hbj : b.Buildpacks[j]? = some b.Buildpacks[j] := List.getElem?_eq_getElem hlen
      obtain ⟨pmj, sj, _, hi⟩ := runLoop_take_succ _ b.Buildpacks processMap.empty s j
        _ hbj pm sk hl
      obtain ⟨s5, s6, _, hs, _, _, henv, _⟩ := buildIter_success sys b appDir launchDir
        cacheDir _ pmj sj (by rw [hi])
      rw [hi] at henv
      exact ⟨_, s5, s6, hbj, hs, henv⟩
  · intro evs k cmd ht hk
    rw [Develop_state, developLoop_eq_runLoop] at ht
    obtain ⟨bp, pm, sk, hbp, hl, hc⟩ := runLoop_run_index
      (developIter sys b appDir cacheDir) (developCmd sys b appDir cacheDir)
      (developIter_runs sys b appDir cacheDir) b.Buildpacks processMap.empty s evs
      ht k cmd hk
    refine ⟨bp, pm, sk, hbp, by rw [developLoop_eq_runLoop]; exact hl, by rw [hc]; rfl, ?_, ?_⟩
    · intro h0
      subst h0
      simp only [List.take_zero, runLoop, Prod.mk.injEq, true_and] at hl
      exact hl.2.symm
    · intro j hj
      subst hj
      have hlen : j < b.Buildpacks.length := by
        have := (List.getElem?_eq_some_iff.mp hbp).1
        omega
      have hbj : b.Buildpacks[j]? = some b.Buildpacks[j] := List.getElem?_eq_getElem hlen
      obtain ⟨pmj, sj, _, hi⟩ := runLoop_take_succ _ b.Buildpacks processMap.empty s j
        _ hbj pm sk hl
      obtain ⟨s5, s6, _, hs, _, _, henv, _⟩ := developIter_success sys b appDir
        cacheDir _ pmj sj (by rw [hi])
      rw [hi] at henv
      exact ⟨_, s5, s6, hbj, hs, henv⟩

/-- Witness of C7 on the example: the second child of `Build`, and of `Develop`, sees the
three entries composed from the cache directory of `bp1`. -/
theorem env_visibility_witness :
    ((runsOf (demoBuilder.Build demoSys "app" "launch" "cache"
          (demoState demoOS)).2.trace)[1]?
        = some ⟨"/work/buildpacks/bp2/bin/build", ["launch/bp2", "cache/bp2", "platform"],
        ["HOME=/home", "PATH=cache/bp1/jdk/bin", "SET=cache/bp1/jdk/env/set",
         "ADD=cache/bp1/jdk/env/add"], "app", 1, 2⟩
      ∧ ∃ bp pm sk, demoBuilder.Buildpacks[1]? = some bp
          ∧ buildLoop demoSys demoBuilder "app" "launch" "cache"
              (demoBuilder.Buildpacks.take 1) processMap.empty (demoState demoOS)
            = (none, pm, sk)
          ∧ ["HOME=/home", "PATH=cache/bp1/jdk/bin", "SET=cache/bp1/jdk/env/set",
             "ADD=cache/bp1/jdk/env/add"] = (demoSys.List
              ((demoSys.MkdirAll (demoSys.Join ["cache", bp.ID]) 0o777
                  (demoSys.MkdirAll (demoSys.Join ["launch", bp.ID]) 0o777 sk.os).2).2,
                sk.env)).1
          ∧ (1 = 0 → sk = demoState demoOS)
          ∧ (∀ j, 1 = j + 1 → ∃ bpj s5 s6, demoBuilder.Buildpacks[j]? = some bpj
              ∧ setupEnv demoSys (demoSys.Join ["cache", bpj.ID]) s5 = (none, s6)
              ∧ sk.env = s6.env))
    ∧ ((runsOf (demoBuilder.Develop demoSys "app" "cache" (demoState demoOS)).2.trace)[1]?
        = some ⟨"buildpacks/bp2/bin/develop", ["cache/bp2", "platform"],
        ["HOME=/home", "PATH=cache/bp1/jdk/bin", "SET=cache/bp1/jdk/env/set",
         "ADD=cache/bp1/jdk/env/add"], "app", 1, 2⟩
      ∧ ∃ bp pm sk, demoBuilder.Buildpacks[1]? = some bp
          ∧ developLoop demoSys demoBuilder "app" "cache"
              (demoBuilder.Buildpacks.take 1) processMap.empty (demoState demoOS)
            = (none, pm, sk)
          ∧ ["HOME=/home", "PATH=cache/bp1/jdk/bin", "SET=cache/bp1/jdk/env/set",
             "ADD=cache/bp1/jdk/env/add"] = (demoSys.List
              ((demoSys.MkdirAll (demoSys.Join ["cache", bp.ID]) 0o777 sk.os).2, sk.env)).1
          ∧ (1 = 0 → sk = demoState demoOS)
          ∧ (∀ j, 1 = j + 1 → ∃ bpj s5 s6, demoBuilder.Buildpacks[j]? = some bpj
              ∧ setupEnv demoSys (demoSys.Join ["cache", bpj.ID]) s5 = (none, s6)
              ∧ sk.env = s6.env)) :=
  ⟨⟨by decide,
    (env_visibility demoSys demoBuilder "app" "launch" "cache" (demoState demoOS)).1
      (demoBuilder.Build demoSys "app" "launch" "cache" (demoState demoOS)).2.trace 1
      ⟨"/work/buildpacks/bp2/bin/build", ["launch/bp2", "cache/bp2", "platform"],
        ["HOME=/home", "PATH=cache/bp1/jdk/bin", "SET=cache/bp1/jdk/env/set",
         "ADD=cache/bp1/jdk/env/add"], "app", 1, 2⟩ rfl (by decide)⟩,
   ⟨by decide,
    (env_visibility demoSys demoBuilder "app" "launch" "cache" (demoState demoOS)).2
      (demoBuilder.Develop demoSys "app" "cache" (demoState demoOS)).2.trace 1
      ⟨"buildpacks/bp2/bin/develop", ["cache/bp2", "platform"],
        ["HOME=/home", "PATH=cache/bp1/jdk/bin", "SET=cache/bp1/jdk/env/set",
         "ADD=cache/bp1/jdk/env/add"], "app", 1, 2⟩ rfl (by decide)⟩⟩

end environment

/-! ## Passes with the listing the code reads -/

section passes
variable {ω ε : Type}

theorem buildIter_pass (sys : Sys ω ε) (b : Builder) (appDir launchDir cacheDir : String)
    (bp : Buildpack) (pm : processMap) (s : State ω ε) :
    ∃ evs, (buildIter sys b appDir launchDir cacheDir bp pm s).2.2.trace = s.trace ++ evs
      ∧ Recorded (buildCalls sys launchDir cacheDir bp
            (buildCmd sys b appDir launchDir cacheDir bp s)
            (listing sys (sys.Join [cacheDir, bp.ID])
              (buildRunState sys b appDir launchDir cacheDir bp s).os))
          (buildIter sys b appDir launchDir cacheDir bp pm s).1 evs
      ∧ (Event.ok (Call.ReadDir (sys.Join [cacheDir, bp.ID])) ∈ evs →
          sys.ReadDir (sys.Join [cacheDir, bp.ID])
              (buildRunState sys b appDir launchDir cacheDir bp s).os
            = .ok (listing sys (sys.Join [cacheDir, bp.ID])
                (buildRunState sys b appDir launchDir cacheDir bp s).os)) := by
  simp only [buildIter, osMkdirAll, filepathAbs, envList, cmdRun, tomlDecodeFile, buildCmd,
    buildCalls, buildRunState]
  rcases h1 : sys.MkdirAll (sys.Join [launchDir, bp.ID]) 511 s.os with ⟨_ | e1, os1⟩
  · dsimp only
    rcases h2 : sys.MkdirAll (sys.Join [cacheDir, bp.ID]) 511 os1 with ⟨_ | e2, os2⟩
    · dsimp only
      cases h3 : sys.Abs (sys.Join [bp.Dir, "bin", "build"]) os2 with
      | error e3 =>
        dsimp only
        simp only [List.append_assoc, List.singleton_append]
        refine ⟨_, rfl, ⟨[_, _], _, _, rfl, rfl⟩, ?_⟩
        simp [Event.ok, errOf]
      | ok buildPath =>
        dsimp only
        generalize hcmd : (⟨buildPath,
          [sys.Join [launchDir, bp.ID], sys.Join [cacheDir, bp.ID], b.PlatformDir],
          (sys.List (os2, s.env)).1, appDir, b.Out, b.Err⟩ : Cmd) = cmd
        rcases h5 : sys.Run cmd (sys.List (os2, s.env)).2.1 with ⟨_ | e5, os5⟩
        · dsimp only
          generalize hs5 : (⟨os5, (sys.List (os2, s.env)).2.2,
            s.trace ++ [⟨Call.MkdirAll (sys.Join [launchDir, bp.ID]) 511, none⟩]
              ++ [⟨Call.MkdirAll (sys.Join [cacheDir, bp.ID]) 511, none⟩]
              ++ [⟨Call.Abs (sys.Join [bp.Dir, "bin", "build"]), errOf (Except.ok buildPath)⟩]
              ++ [⟨Call.List, none⟩] ++ [⟨Call.Run cmd, none⟩]⟩ : State ω ε) = s5
          have ht5 : s5.trace = s.trace ++
              ([Call.MkdirAll (sys.Join [launchDir, bp.ID]) 511,
                Call.MkdirAll (sys.Join [cacheDir, bp.ID]) 511,
                Call.Abs (sys.Join [bp.Dir, "bin", "build"]), Call.List,
                Call.Run cmd].map Event.ok) := by
            rw [← hs5]
            simp [Event.ok, errOf]
          have hos5 : s5.os = os5 := by rw [← hs5]
          rw [← hos5]
          cases hrd : sys.ReadDir (sys.Join [cacheDir, bp.ID]) s5.os with
          | error e =>
            rw [setupEnv_readDir_error sys _ s5 e hrd]
            dsimp only
            refine ⟨_, ?_, recorded_append_err (recorded_append_ok (recorded_all_ok _)
              (⟨[], Call.ReadDir (sys.Join [cacheDir, bp.ID]), _, rfl, rfl⟩ :
                Recorded (composeCalls sys (sys.Join [cacheDir, bp.ID])
                  (listing sys (sys.Join [cacheDir, bp.ID]) s5.os)) (some e)
                  ([].map Event.ok ++ [⟨Call.ReadDir (sys.Join [cacheDir, bp.ID]), some e⟩])))
              _, ?_⟩
            · rw [ht5]
              simp
            · simp [Event.ok]
          | ok files =>
            have hl : Except.ok files
                = Except.ok (ε := Err) (listing sys (sys.Join [cacheDir, bp.ID]) s5.os) := by
              simp [listing, hrd]
            obtain ⟨evsC, htC, hrC⟩ := setupEnv_recorded sys (sys.Join [cacheDir, bp.ID]) s5
            rcases h6 : setupEnv sys (sys.Join [cacheDir, bp.ID]) s5 with ⟨_ | e6, s6⟩
            · rw [h6] at htC hrC
              dsimp only at htC hrC ⊢
              cases h7 : sys.DecodeFile (sys.Join [sys.Join [launchDir, bp.ID], "launch.toml"])
                  s6.os with
              | error e7 =>
                dsimp only
                refine ⟨_, ?_, recorded_append_ok (recorded_append_ok (recorded_all_ok _) hrC)
                  (recorded_single _ (some e7)), fun _ => hl⟩
                simp [htC, ht5, errOf]
              | ok processes =>
                dsimp only
                refine ⟨_, ?_, recorded_append_ok (recorded_append_ok (recorded_all_ok _) hrC)
                  (recorded_single _ none), fun _ => hl⟩
                simp [htC, ht5, errOf]
            · rw [h6] at htC hrC
              dsimp only at htC hrC ⊢
              refine ⟨_, ?_, recorded_append_err (recorded_append_ok (recorded_all_ok _) hrC) _,
                fun _ => hl⟩
              simp [htC, ht5]
        · dsimp only
          simp only [List.append_assoc, List.singleton_append]
          refine ⟨_, rfl, ⟨[_, _, _, _], _, _, rfl, rfl⟩, ?_⟩
          simp [Event.ok, errOf]
    · dsimp only
      simp only [List.append_assoc, List.singleton_append]
      refine ⟨_, rfl, ⟨[_], _, _, rfl, rfl⟩, ?_⟩
      simp [Event.ok]
  · dsimp only
    refine ⟨_, rfl, ⟨[], _, _, rfl, rfl⟩, ?_⟩
    simp [Event.ok]

theorem developIter_pass (sys : Sys ω ε) (b : Builder) (appDir cacheDir : String)
    (bp : Buildpack) (pm : processMap) (s : State ω ε) :
    ∃ evs, (developIter sys b appDir cacheDir bp pm s).2.2.trace = s.trace ++ evs
      ∧ Recorded (developCalls sys cacheDir bp (developCmd sys b appDir cacheDir bp s)
            (listing sys (sys.Join [cacheDir, bp.ID])
              (developRunState sys b appDir cacheDir bp s).os))
          (developIter sys b appDir cacheDir bp pm s).1 evs
      ∧ (Event.ok (Call.ReadDir (sys.Join [cacheDir, bp.ID])) ∈ evs →
          sys.ReadDir (sys.Join [cacheDir, bp.ID])
              (developRunState sys b appDir cacheDir bp s).os
            = .ok (listing sys (sys.Join [cacheDir, bp.ID])
                (developRunState sys b appDir cacheDir bp s).os)) := by
  simp only [developIter, osMkdirAll, envList, cmdRun, tomlDecodeFile, developCmd,
    developCalls, developRunState]
  rcases h1 : sys.MkdirAll (sys.Join [cacheDir, bp.ID]) 511 s.os with ⟨_ | e1, os1⟩
  · dsimp only
    generalize hcmd : (⟨sys.Join [bp.Dir, "bin", "develop"],
      [sys.Join [cacheDir, bp.ID], b.PlatformDir],
      (sys.List (os1, s.env)).1, appDir, b.Out, b.Err⟩ : Cmd) = cmd
    rcases h5 : sys.Run cmd (sys.List (os1, s.env)).2.1 with ⟨_ | e5, os5⟩
    · dsimp only
      generalize hs5 : (⟨os5, (sys.List (os1, s.env)).2.2,
        s.trace ++ [⟨Call.MkdirAll (sys.Join [cacheDir, bp.ID]) 511, none⟩]
          ++ [⟨Call.List, none⟩] ++ [⟨Call.Run cmd, none⟩]⟩ : State ω ε) = s5
      have ht5 : s5.trace = s.trace ++
          ([Call.MkdirAll (sys.Join [cacheDir, bp.ID]) 511, Call.List,
            Call.Run cmd].map Event.ok) := by
        rw [← hs5]
        simp [Event.ok]
      have hos5 : s5.os = os5 := by rw [← hs5]
      rw [← hos5]
      cases hrd : sys.ReadDir (sys.Join [cacheDir, bp.ID]) s5.os with
      | error e =>
        rw [setupEnv_readDir_error sys _ s5 e hrd]
        dsimp only
        refine ⟨_, ?_, recorded_append_err (recorded_append_ok (recorded_all_ok _)
          (⟨[], Call.ReadDir (sys.Join [cacheDir, bp.ID]), _, rfl, rfl⟩ :
            Recorded (composeCalls sys (sys.Join [cacheDir, bp.ID])
              (listing sys (sys.Join [cacheDir, bp.ID]) s5.os)) (some e)
              ([].map Event.ok ++ [⟨Call.ReadDir (sys.Join [cacheDir, bp.ID]), some e⟩])))
          _, ?_⟩
        · rw [ht5]
          simp
        · simp [Event.ok]
      | ok files =>
        have hl : Except.ok files
            = Except.ok (ε := Err) (listing sys (sys.Join [cacheDir, bp.ID]) s5.os) := by
          simp [listing, hrd]
        obtain ⟨evsC, htC, hrC⟩ := setupEnv_recorded sys (sys.Join [cacheDir, bp.ID]) s5
        rcases h6 : setupEnv sys (sys.Join [cacheDir, bp.ID]) s5 with ⟨_ | e6, s6⟩
        · rw [h6] at htC hrC
          dsimp only at htC hrC ⊢
          cases h7 : sys.DecodeFile (sys.Join [sys.Join [cacheDir, bp.ID], "develop.toml"])
              s6.os with
          | error e7 =>
            dsimp only
            refine ⟨_, ?_, recorded_append_ok (recorded_append_ok (recorded_all_ok _) hrC)
              (recorded_single _ (some e7)), fun _ => hl⟩
            simp [htC, ht5, errOf]
          | ok processes =>
            dsimp only
            refine ⟨_, ?_, recorded_append_ok (recorded_append_ok (recorded_all_ok _) hrC)
              (recorded_single _ none), fun _ => hl⟩
            simp [htC, ht5, errOf]
        · rw [h6] at htC hrC
          dsimp only at htC hrC ⊢
          refine ⟨_, ?_, recorded_append_err (recorded_append_ok (recorded_all_ok _) hrC) _,
            fun _ => hl⟩
          simp [htC, ht5]
    · dsimp only
      simp only [List.append_assoc, List.singleton_append]
      refine ⟨_, rfl, ⟨[_, _], _, _, rfl, rfl⟩, ?_⟩
      simp [Event.ok]
  · dsimp only
    refine ⟨_, rfl, ⟨[], _, _, rfl, rfl⟩, ?_⟩
    simp [Event.ok]

/-- A loop that ends with an error stopped in the pass of some buildpack, reached after
complete passes of the buildpacks before it; its final state is the state that pass
ended in. -/
theorem runLoop_failure_split
    (iter : Buildpack → processMap → State ω ε → Option Err × processMap × State ω ε)
    (bps : List Buildpack) (pm : processMap) (s : State ω ε) (e : Err)
    (h : (runLoop iter bps pm s).1 = some e) :
    ∃ pre bp post pmk sk, bps = pre ++ bp :: post
      ∧ runLoop iter pre pm s = (none, pmk, sk)
      ∧ (iter bp pmk sk).1 = some e
      ∧ (runLoop iter bps pm s).2.2 = (iter bp pmk sk).2.2 := by
  induction bps generalizing pm s with
  | nil => simp [runLoop] at h
  | cons bp rest ih =>
    simp only [runLoop] at h ⊢
    rcases hi : iter bp pm s with ⟨_ | e1, pm1, s1⟩
    · rw [hi] at h
      dsimp only at h ⊢
      obtain ⟨pre, bp', post, pmk, sk, hbps, hpre, hit, hst⟩ := ih pm1 s1 h
      refine ⟨bp :: pre, bp', post, pmk, sk, by rw [hbps]; rfl, ?_, hit, hst⟩
      simp only [runLoop, hi]
      exact hpre
    · rw [hi] at h
      dsimp only at h ⊢
      refine ⟨[], bp, rest, pm, s, rfl, rfl, ?_, ?_⟩
      · rw [hi]
        exact h
      · rw [hi]

/-- A pass the loop reaches: the loop's record continues the record of that pass, and a
failing pass ends the loop with its error and in its state. -/
theorem runLoop_reach
    (iter : Buildpack → processMap → State ω ε → Option Err × processMap × State ω ε)
    (hiter : ∀ bp pm s, ∃ evs, (iter bp pm s).2.2.trace = s.trace ++ evs)
    (pre : List Buildpack) (bp : Buildpack) (post : List Buildpack)
    (pm pmk : processMap) (s sk : State ω ε)
    (hpre : runLoop iter pre pm s = (none, pmk, sk)) :
    (∃ rest, (runLoop iter (pre ++ bp :: post) pm s).2.2.trace
        = (iter bp pmk sk).2.2.trace ++ rest)
      ∧ (∀ e, (iter bp pmk sk).1 = some e →
          (runLoop iter (pre ++ bp :: post) pm s).1 = some e
          ∧ (runLoop iter (pre ++ bp :: post) pm s).2.2 = (iter bp pmk sk).2.2) := by
  rw [runLoop_append, hpre]
  dsimp only
  simp only [runLoop]
  rcases hi : iter bp pmk sk with ⟨_ | e1, pm1, s1⟩
  · dsimp only
    refine ⟨runLoop_trace iter hiter post pm1 s1, ?_⟩
    intro e he
    cases he
  · dsimp only
    refine ⟨⟨[], by simp⟩, ?_⟩
    intro e he
    exact ⟨he, rfl⟩

/-- When the loop ends without error, every buildpack of the group was reached and its
pass ended without error. -/
theorem runLoop_success_split
    (iter : Buildpack → processMap → State ω ε → Option Err × processMap × State ω ε)
    (pre : List Buildpack) (bp : Buildpack) (post : List Buildpack)
    (pm : processMap) (s : State ω ε)
    (h : (runLoop iter (pre ++ bp :: post) pm s).1 = none) :
    ∃ pmk sk, runLoop iter pre pm s = (none, pmk, sk) ∧ (iter bp pmk sk).1 = none := by
  rw [runLoop_append] at h
  rcases hl : runLoop iter pre pm s with ⟨_ | e, pmk, sk⟩
  · rw [hl] at h
    dsimp only at h
    refine ⟨pmk, sk, rfl, ?_⟩
    simp only [runLoop] at h
    rcases hi : iter bp pmk sk with ⟨_ | e1, pm1, s1⟩
    · rfl
    · rw [hi] at h
      cases h
  · rw [hl] at h
    cases h

end passes

/-! ## Passes within a whole run -/

section reach
variable {ω ε : Type}

theorem Build_of_loop_error (sys : Sys ω ε) (b : Builder) (appDir launchDir cacheDir : String)
    (s : State ω ε) (e : Err)
    (h : (buildLoop sys b appDir launchDir cacheDir b.Buildpacks processMap.empty s).1
      = some e) :
    (b.Build sys appDir launchDir cacheDir s).1 = (none, some e) := by
  unfold Builder.Build
  rcases hl : buildLoop sys b appDir launchDir cacheDir b.Buildpacks processMap.empty s
    with ⟨_ | e', pm, s'⟩
  · rw [hl] at h
    cases h
  · rw [hl] at h
    cases h
    rfl

theorem Develop_of_loop_error (sys : Sys ω ε) (b : Builder) (appDir cacheDir : String)
    (s : State ω ε) (e : Err)
    (h : (developLoop sys b appDir cacheDir b.Buildpacks processMap.empty s).1 = some e) :
    (b.Develop sys appDir cacheDir s).1 = (none, some e) := by
  unfold Builder.Develop
  rcases hl : developLoop sys b appDir cacheDir b.Buildpacks processMap.empty s
    with ⟨_ | e', pm, s'⟩
  · rw [hl] at h
    cases h
  · rw [hl] at h
    cases h
    rfl

theorem Build_error_eq (sys : Sys ω ε) (b : Builder) (appDir launchDir cacheDir : String)
    (s : State ω ε) :
    (b.Build sys appDir launchDir cacheDir s).1.2
      = (buildLoop sys b appDir launchDir cacheDir b.Buildpacks processMap.empty s).1 := by
  unfold Builder.Build
  rcases buildLoop sys b appDir launchDir cacheDir b.Buildpacks processMap.empty s
    with ⟨_ | e', pm, s'⟩ <;> rfl

theorem Develop_error_eq (sys : Sys ω ε) (b : Builder) (appDir cacheDir : String)
    (s : State ω ε) :
    (b.Develop sys appDir cacheDir s).1.2
      = (developLoop sys b appDir cacheDir b.Buildpacks processMap.empty s).1 := by
  unfold Builder.Develop
  rcases developLoop sys b appDir cacheDir b.Buildpacks processMap.empty s
    with ⟨_ | e', pm, s'⟩ <;> rfl

/-- A pass of `Build` the loop reaches: the record of `Build` continues the record of
the pass; a failing pass ends `Build` with its error, no metadata, in its state. -/
theorem Build_reach (sys : Sys ω ε) (b : Builder) (appDir launchDir cacheDir : String)
    (s : State ω ε) (pre : List Buildpack) (bp : Buildpack) (post : List Buildpack)
    (pm : processMap) (sk : State ω ε) (hbps : b.Buildpacks = pre ++ bp :: post)
    (hpre : buildLoop sys b appDir launchDir cacheDir pre processMap.empty s = (none, pm, sk)) :
    (∃ rest, (b.Build sys appDir launchDir cacheDir s).2.trace
        = (buildIter sys b appDir launchDir cacheDir bp pm sk).2.2.trace ++ rest)
      ∧ (∀ e, (buildIter sys b appDir launchDir cacheDir bp pm sk).1 = some e →
          (b.Build sys appDir launchDir cacheDir s).1 = (none, some e)
          ∧ (b.Build sys appDir launchDir cacheDir s).2
            = (buildIter sys b appDir launchDir cacheDir bp pm sk).2.2) := by
  rw [buildLoop_eq_runLoop] at hpre
  have h := runLoop_reach (buildIter sys b appDir launchDir cacheDir)
    (fun bp pm s => (buildIter_pass sys b appDir launchDir cacheDir bp pm s).imp
      fun _ h => h.1) pre bp post processMap.empty pm s sk hpre
  rw [← hbps, ← buildLoop_eq_runLoop, ← Build_state] at h
  refine ⟨h.1, fun e he => ⟨?_, (h.2 e he).2⟩⟩
  apply Build_of_loop_error
  rw [buildLoop_eq_runLoop, hbps]
  exact (runLoop_reach (buildIter sys b appDir launchDir cacheDir)
    (fun bp pm s => (buildIter_pass sys b appDir launchDir cacheDir bp pm s).imp
      fun _ h => h.1) pre bp post processMap.empty pm s sk hpre).2 e he |>.1

theorem Develop_reach (sys : Sys ω ε) (b : Builder) (appDir cacheDir : String)
    (s : State ω ε) (pre : List Buildpack) (bp : Buildpack) (post : List Buildpack)
    (pm : processMap) (sk : State ω ε) (hbps : b.Buildpacks = pre ++ bp :: post)
    (hpre : developLoop sys b appDir cacheDir pre processMap.empty s = (none, pm, sk)) :
    (∃ rest, (b.Develop sys appDir cacheDir s).2.trace
        = (developIter sys b appDir cacheDir bp pm sk).2.2.trace ++ rest)
      ∧ (∀ e, (developIter sys b appDir cacheDir bp pm sk).1 = some e →
          (b.Develop sys appDir cacheDir s).1 = (none, some e)
          ∧ (b.Develop sys appDir cacheDir s).2
            = (developIter sys b appDir cacheDir bp pm sk).2.2) := by
  rw [developLoop_eq_runLoop] at hpre
  have h := runLoop_reach (developIter sys b appDir cacheDir)
    (fun bp pm s => (developIter_pass sys b appDir cacheDir bp pm s).imp
      fun _ h => h.1) pre bp post processMap.empty pm s sk hpre
  rw [← hbps, ← developLoop_eq_runLoop, ← Develop_state] at h
  refine ⟨h.1, fun e he => ⟨?_, (h.2 e he).2⟩⟩
  apply Develop_of_loop_error
  rw [developLoop_eq_runLoop, hbps]
  exact (runLoop_reach (developIter sys b appDir cacheDir)
    (fun bp pm s => (developIter_pass sys b appDir cacheDir bp pm s).imp
      fun _ h => h.1) pre bp post processMap.empty pm s sk hpre).2 e he |>.1

/-- A failing decoding in `Build`: it is the last call, made after the complete passes of
the buildpacks before it and, in its own pass, after every composition call for the
directories that `ReadDir` listed in the cache directory. -/
theorem Build_decode_failure (sys : Sys ω ε) (b : Builder)
    (appDir launchDir cacheDir : String) (s : State ω ε) (evs : List Event) (f : String)
    (e : Err) (ht : (b.Build sys appDir launchDir cacheDir s).2.trace = s.trace ++ evs)
    (hmem : (⟨Call.DecodeFile f, some e⟩ : Event) ∈ evs) :
    (b.Build sys appDir launchDir cacheDir s).1 = (none, some e)
    ∧ ∃ pre bp post pm sk evsPre files, b.Buildpacks = pre ++ bp :: post
      ∧ buildLoop sys b appDir launchDir cacheDir pre processMap.empty s = (none, pm, sk)
      ∧ sk.trace = s.trace ++ evsPre
      ∧ sys.ReadDir (sys.Join [cacheDir, bp.ID])
          (buildRunState sys b appDir launchDir cacheDir bp sk).os = .ok files
      ∧ f = sys.Join [sys.Join [launchDir, bp.ID], "launch.toml"]
      ∧ evs = evsPre ++
          (([Call.MkdirAll (sys.Join [launchDir, bp.ID]) 0o777,
             Call.MkdirAll (sys.Join [cacheDir, bp.ID]) 0o777,
             Call.Abs (sys.Join [bp.Dir, "bin", "build"]), Call.List,
             Call.Run (buildCmd sys b appDir launchDir cacheDir bp sk)]
            ++ composeCalls sys (sys.Join [cacheDir, bp.ID]) files).map Event.ok
          ++ [⟨Call.DecodeFile f, some e⟩]) := by
  obtain ⟨evs', ht', ho⟩ := Build_outcome sys b appDir launchDir cacheDir s
  have : evs' = evs := List.append_cancel_left (ht'.symm.trans ht)
  subst this
  obtain ⟨hres, init, hinit, _⟩ := failed_event_last ho hmem rfl
  refine ⟨hres, ?_⟩
  have herr : (buildLoop sys b appDir launchDir cacheDir b.Buildpacks processMap.empty s).1
      = some e := by
    rw [← Build_error_eq, hres]
  rw [buildLoop_eq_runLoop] at herr
  obtain ⟨pre, bp, post, pm, sk, hbps, hpre, hit, hst⟩ :=
    runLoop_failure_split _ _ _ _ e herr
  obtain ⟨evsPre, htPre⟩ := runLoop_trace (buildIter sys b appDir launchDir cacheDir)
    (fun bp pm s => (buildIter_pass sys b appDir launchDir cacheDir bp pm s).imp
      fun _ h => h.1) pre processMap.empty s
  rw [hpre] at htPre
  dsimp only at htPre
  obtain ⟨evsI, htI, hrec, hrd⟩ := buildIter_pass sys b appDir launchDir cacheDir bp pm sk
  rw [hit] at hrec
  have hevs : evs' = evsPre ++ evsI := by
    have h1 : (b.Build sys appDir launchDir cacheDir s).2.trace
        = s.trace ++ (evsPre ++ evsI) := by
      rw [Build_state, buildLoop_eq_runLoop, hst, htI, htPre, List.append_assoc]
    exact List.append_cancel_left (ht.symm.trans h1)
  obtain ⟨done, c, rest, hcalls, hpart⟩ := hrec
  have hlast : (evsPre ++ done.map Event.ok) ++ [⟨c, some e⟩]
      = init ++ [⟨Call.DecodeFile f, some e⟩] := by
    rw [← hinit, hevs, hpart, List.append_assoc]
  obtain ⟨_, hc⟩ := last_eq_of_append_singleton hlast
  have hcc : c = Call.DecodeFile f := congrArg Event.call hc
  subst hcc
  obtain ⟨hdone, hf⟩ := buildCalls_split_decode hcalls
  have hread := hrd (by
    rw [hpart, hdone]
    simp [composeCalls, Event.ok])
  refine ⟨pre, bp, post, pm, sk, evsPre, _, hbps, by rw [buildLoop_eq_runLoop]; exact hpre,
    htPre, hread, hf, ?_⟩
  rw [hevs, hpart, hdone]

theorem Develop_decode_failure (sys : Sys ω ε) (b : Builder)
    (appDir cacheDir : String) (s : State ω ε) (evs : List Event) (f : String)
    (e : Err) (ht : (b.Develop sys appDir cacheDir s).2.trace = s.trace ++ evs)
    (hmem : (⟨Call.DecodeFile f, some e⟩ : Event) ∈ evs) :
    (b.Develop sys appDir cacheDir s).1 = (none, some e)
    ∧ ∃ pre bp post pm sk evsPre files, b.Buildpacks = pre ++ bp :: post
      ∧ developLoop sys b appDir cacheDir pre processMap.empty s = (none, pm, sk)
      ∧ sk.trace = s.trace ++ evsPre
      ∧ sys.ReadDir (sys.Join [cacheDir, bp.ID])
          (developRunState sys b appDir cacheDir bp sk).os = .ok files
      ∧ f = sys.Join [sys.Join [cacheDir, bp.ID], "develop.toml"]
      ∧ evs = evsPre ++
          (([Call.MkdirAll (sys.Join [cacheDir, bp.ID]) 0o777, Call.List,
             Call.Run (developCmd sys b appDir cacheDir bp sk)]
            ++ composeCalls sys (sys.Join [cacheDir, bp.ID]) files).map Event.ok
          ++ [⟨Call.DecodeFile f, some e⟩]) := by
  obtain ⟨evs', ht', ho⟩ := Develop_outcome sys b appDir cacheDir s
  have : evs' = evs := List.append_cancel_left (ht'.symm.trans ht)
  subst this
  obtain ⟨hres, init, hinit, _⟩ := failed_event_last ho hmem rfl
  refine ⟨hres, ?_⟩
  have herr : (developLoop sys b appDir cacheDir b.Buildpacks processMap.empty s).1
      = some e := by
    rw [← Develop_error_eq, hres]
  rw [developLoop_eq_runLoop] at herr
  obtain ⟨pre, bp, post, pm, sk, hbps, hpre, hit, hst⟩ :=
    runLoop_failure_split _ _ _ _ e herr
  obtain ⟨evsPre, htPre⟩ := runLoop_trace (developIter sys b appDir cacheDir)
    (fun bp pm s => (developIter_pass sys b appDir cacheDir bp pm s).imp
      fun _ h => h.1) pre processMap.empty s
  rw [hpre] at htPre
  dsimp only at htPre
  obtain ⟨evsI, htI, hrec, hrd⟩ := developIter_pass sys b appDir cacheDir bp pm sk
  rw [hit] at hrec
  have hevs : evs' = evsPre ++ evsI := by
    have h1 : (b.Develop sys appDir cacheDir s).2.trace
        = s.trace ++ (evsPre ++ evsI) := by
      rw [Develop_state, developLoop_eq_runLoop, hst, htI, htPre, List.append_assoc]
    exact List.append_cancel_left (ht.symm.trans h1)
  obtain ⟨done, c, rest, hcalls, hpart⟩ := hrec
  have hlast : (evsPre ++ done.map Event.ok) ++ [⟨c, some e⟩]
      = init ++ [⟨Call.DecodeFile f, some e⟩] := by
    rw [← hinit, hevs, hpart, List.append_assoc]
  obtain ⟨_, hc⟩ := last_eq_of_append_singleton hlast
  have hcc : c = Call.DecodeFile f := congrArg Event.call hc
  subst hcc
  obtain ⟨hdone, hf⟩ := developCalls_split_decode hcalls
  have hread := hrd (by
    rw [hpart, hdone]
    simp [composeCalls, Event.ok])
  refine ⟨pre, bp, post, pm, sk, evsPre, _, hbps, by rw [developLoop_eq_runLoop]; exact hpre,
    htPre, hread, hf, ?_⟩
  rw [hevs, hpart, hdone]

end reach

/-! ## What is returned -/

section results
variable {ω ε : Type}

theorem Build_success (sys : Sys ω ε) (b : Builder) (appDir launchDir cacheDir : String)
    (s : State ω ε) (md : BuildMetadata)
    (h : (b.Build sys appDir launchDir cacheDir s).1.1 = some md) :
    (b.Build sys appDir launchDir cacheDir s).1.2 = none
    ∧ (∃ evs blocks, (b.Build sys appDir launchDir cacheDir s).2.trace = s.trace ++ evs
        ∧ List.Forall₂ (IsBuildBlock sys b appDir launchDir cacheDir) b.Buildpacks blocks
        ∧ evs = blocks.flatten ∧ ∀ ev ∈ evs, ev.err = none)
    ∧ (∀ pre bp post, b.Buildpacks = pre ++ bp :: post →
        ∃ pm sk, buildLoop sys b appDir launchDir cacheDir pre processMap.empty s
            = (none, pm, sk)
          ∧ (buildIter sys b appDir launchDir cacheDir bp pm sk).1 = none) := by
  obtain ⟨evs, ht, hr, hres⟩ := Build_record sys b appDir launchDir cacheDir s
  rcases herr : (b.Build sys appDir launchDir cacheDir s).1.2 with _ | e
  · rw [herr] at hr
    obtain ⟨blocks, hb, he⟩ := hr
    refine ⟨rfl, ⟨evs, blocks, ht, hb, he, ?_⟩, ?_⟩
    · rw [he]
      exact forall₂_ok (fun _ _ h => buildBlock_ok h) hb
    · intro pre bp post hbps
      rw [Build_error_eq, buildLoop_eq_runLoop, hbps] at herr
      obtain ⟨pm, sk, hpre, hit⟩ := runLoop_success_split _ pre bp post _ _ herr
      exact ⟨pm, sk, by rw [buildLoop_eq_runLoop]; exact hpre, hit⟩
  · rw [herr] at hres
    rw [hres] at h
    cases h

theorem Develop_success (sys : Sys ω ε) (b : Builder) (appDir cacheDir : String)
    (s : State ω ε) (md : DevelopMetadata)
    (h : (b.Develop sys appDir cacheDir s).1.1 = some md) :
    (b.Develop sys appDir cacheDir s).1.2 = none
    ∧ (∃ evs blocks, (b.Develop sys appDir cacheDir s).2.trace = s.trace ++ evs
        ∧ List.Forall₂ (IsDevelopBlock sys b appDir cacheDir) b.Buildpacks blocks
        ∧ evs = blocks.flatten ∧ ∀ ev ∈ evs, ev.err = none)
    ∧ (∀ pre bp post, b.Buildpacks = pre ++ bp :: post →
        ∃ pm sk, developLoop sys b appDir cacheDir pre processMap.empty s = (none, pm, sk)
          ∧ (developIter sys b appDir cacheDir bp pm sk).1 = none) := by
  obtain ⟨evs, ht, hr, hres⟩ := Develop_record sys b appDir cacheDir s
  rcases herr : (b.Develop sys appDir cacheDir s).1.2 with _ | e
  · rw [herr] at hr
    obtain ⟨blocks, hb, he⟩ := hr
    refine ⟨rfl, ⟨evs, blocks, ht, hb, he, ?_⟩, ?_⟩
    · rw [he]
      exact forall₂_ok (fun _ _ h => developBlock_ok h) hb
    · intro pre bp post hbps
      rw [Develop_error_eq, developLoop_eq_runLoop, hbps] at herr
      obtain ⟨pm, sk, hpre, hit⟩ := runLoop_success_split _ pre bp post _ _ herr
      exact ⟨pm, sk, by rw [developLoop_eq_runLoop]; exact hpre, hit⟩
  · rw [herr] at hres
    rw [hres] at h
    cases h

theorem Build_nil_metadata (sys : Sys ω ε) (b : Builder) (appDir launchDir cacheDir : String)
    (s : State ω ε) (h : (b.Build sys appDir launchDir cacheDir s).1.1 = none) :
    ∃ e, (b.Build sys appDir launchDir cacheDir s).1.2 = some e := by
  obtain ⟨_, _, _, hres⟩ := Build_record sys b appDir launchDir cacheDir s
  rcases herr : (b.Build sys appDir launchDir cacheDir s).1.2 with _ | e
  · rw [herr] at hres
    obtain ⟨md, hmd⟩ := hres
    rw [hmd] at h
    cases h
  · exact ⟨e, rfl⟩

theorem Develop_nil_metadata (sys : Sys ω ε) (b : Builder) (appDir cacheDir : String)
    (s : State ω ε) (h : (b.Develop sys appDir cacheDir s).1.1 = none) :
    ∃ e, (b.Develop sys appDir cacheDir s).1.2 = some e := by
  obtain ⟨_, _, _, hres⟩ := Develop_record sys b appDir cacheDir s
  rcases herr : (b.Develop sys appDir cacheDir s).1.2 with _ | e
  · rw [herr] at hres
    obtain ⟨md, hmd⟩ := hres
    rw [hmd] at h
    cases h
  · exact ⟨e, rfl⟩

/-- C10. No partial result, for `Build` and for `Develop`.  The call returns either
metadata with a nil error, every recorded call having succeeded, or no metadata with the
error of the last call made.  Whenever the pass of a buildpack the loop reaches fails
(directory creation, child process, composition or decoding), the call returns no
metadata and exactly that error, and ends in the state that pass ended in.  Metadata is
returned only with a nil error and only when the record is one complete block per
buildpack of the group, every call successful, and the pass of every buildpack ended
without error.  When no metadata is returned, an error is. -/
theorem no_partial_result (sys : Sys ω ε) (b : Builder) (appDir launchDir cacheDir : String)
    (s : State ω ε) :
    ((∃ evs, (b.Build sys appDir launchDir cacheDir s).2.trace = s.trace ++ evs
        ∧ ((∃ md, (b.Build sys appDir launchDir cacheDir s).1 = (some md, none)
              ∧ ∀ ev ∈ evs, ev.err = none)
          ∨ (∃ e init last, (b.Build sys appDir launchDir cacheDir s).1 = (none, some e)
              ∧ evs = init ++ [last] ∧ last.err = some e ∧ ∀ ev ∈ init, ev.err = none)))
      ∧ (∀ pre bp post pm sk e, b.Buildpacks = pre ++ bp :: post →
          buildLoop sys b appDir launchDir cacheDir pre processMap.empty s = (none, pm, sk) →
          (buildIter sys b appDir launchDir cacheDir bp pm sk).1 = some e →
          (b.Build sys appDir launchDir cacheDir s).1 = (none, some e)
          ∧ (b.Build sys appDir launchDir cacheDir s).2
            = (buildIter sys b appDir launchDir cacheDir bp pm sk).2.2)
      ∧ (∀ md, (b.Build sys appDir launchDir cacheDir s).1.1 = some md →
          (b.Build sys appDir launchDir cacheDir s).1.2 = none
          ∧ (∃ evs blocks, (b.Build sys appDir launchDir cacheDir s).2.trace = s.trace ++ evs
              ∧ List.Forall₂ (IsBuildBlock sys b appDir launchDir cacheDir) b.Buildpacks
                  blocks
              ∧ evs = blocks.flatten ∧ ∀ ev ∈ evs, ev.err = none)
          ∧ (∀ pre bp post, b.Buildpacks = pre ++ bp :: post →
              ∃ pm sk, buildLoop sys b appDir launchDir cacheDir pre processMap.empty s
                  = (none, pm, sk)
                ∧ (buildIter sys b appDir launchDir cacheDir bp pm sk).1 = none))
      ∧ ((b.Build sys appDir launchDir cacheDir s).1.1 = none →
          ∃ e, (b.Build sys appDir launchDir cacheDir s).1.2 = some e))
    ∧ ((∃ evs, (b.Develop sys appDir cacheDir s).2.trace = s.trace ++ evs
        ∧ ((∃ md, (b.Develop sys appDir cacheDir s).1 = (some md, none)
              ∧ ∀ ev ∈ evs, ev.err = none)
          ∨ (∃ e init last, (b.Develop sys appDir cacheDir s).1 = (none, some e)
              ∧ evs = init ++ [last] ∧ last.err = some e ∧ ∀ ev ∈ init, ev.err = none)))
      ∧ (∀ pre bp post pm sk e, b.Buildpacks = pre ++ bp :: post →
          developLoop sys b appDir cacheDir pre processMap.empty s = (none, pm, sk) →
          (developIter sys b appDir cacheDir bp pm sk).1 = some e →
          (b.Develop sys appDir cacheDir s).1 = (none, some e)
          ∧ (b.Develop sys appDir cacheDir s).2
            = (developIter sys b appDir cacheDir bp pm sk).2.2)
      ∧ (∀ md, (b.Develop sys appDir cacheDir s).1.1 = some md →
          (b.Develop sys appDir cacheDir s).1.2 = none
          ∧ (∃ evs blocks, (b.Develop sys appDir cacheDir s).2.trace = s.trace ++ evs
              ∧ List.Forall₂ (IsDevelopBlock sys b appDir cacheDir) b.Buildpacks blocks
              ∧ evs = blocks.flatten ∧ ∀ ev ∈ evs, ev.err = none)
          ∧ (∀ pre bp post, b.Buildpacks = pre ++ bp :: post →
              ∃ pm sk, developLoop sys b appDir cacheDir pre processMap.empty s
                  = (none, pm, sk)
                ∧ (developIter sys b appDir cacheDir bp pm sk).1 = none))
      ∧ ((b.Develop sys appDir cacheDir s).1.1 = none →
          ∃ e, (b.Develop sys appDir cacheDir s).1.2 = some e)) :=
  ⟨⟨Build_outcome sys b appDir launchDir cacheDir s,
    fun pre bp post pm sk e hbps hpre he =>
      (Build_reach sys b appDir launchDir cacheDir s pre bp post pm sk hbps hpre).2 e he,
    Build_success sys b appDir launchDir cacheDir s,
    Build_nil_metadata sys b appDir launchDir cacheDir s⟩,
   ⟨Develop_outcome sys b appDir cacheDir s,
    fun pre bp post pm sk e hbps hpre he =>
      (Develop_reach sys b appDir cacheDir s pre bp post pm sk hbps hpre).2 e he,
    Develop_success sys b appDir cacheDir s,
    Develop_nil_metadata sys b appDir cacheDir s⟩⟩

/-- Witness of C10 on the example, for `Build` and then for `Develop`: a failing
directory creation, a failing child process, a failing decoding and a failing
composition each give the error of the failing call and no metadata; the run in which
everything succeeds gives metadata and no error; a run without metadata gives an error. -/
theorem no_partial_result_witness :
    ((buildIter demoSys demoBuilder "app" "launch" "cache" ⟨"bp2", "buildpacks/bp2"⟩
            (buildLoop demoSys demoBuilder "app" "launch" "cache" [⟨"bp1", "buildpacks/bp1"⟩]
            processMap.empty (demoState demoReadonly)).2.1 (buildLoop demoSys demoBuilder "app" "launch" "cache" [⟨"bp1", "buildpacks/bp1"⟩]
            processMap.empty (demoState demoReadonly)).2.2).1
          = some "mkdir cache/bp2: permission denied"
        ∧ (demoBuilder.Build demoSys "app" "launch" "cache" (demoState demoReadonly)).1
          = (none, some "mkdir cache/bp2: permission denied"))
    ∧ ((buildIter demoSys demoBuilder "app" "launch" "cache" ⟨"bp2", "buildpacks/bp2"⟩
            (buildLoop demoSys demoBuilder "app" "launch" "cache" [⟨"bp1", "buildpacks/bp1"⟩]
            processMap.empty (demoState demoFailing)).2.1 (buildLoop demoSys demoBuilder "app" "launch" "cache" [⟨"bp1", "buildpacks/bp1"⟩]
            processMap.empty (demoState demoFailing)).2.2).1
          = some "exit status 1"
        ∧ (demoBuilder.Build demoSys "app" "launch" "cache" (demoState demoFailing)).1
          = (none, some "exit status 1"))
    ∧ ((buildIter demoSys demoBuilder "app" "launch" "cache" ⟨"bp1", "buildpacks/bp1"⟩
            processMap.empty (demoState demoNoToml)).1
          = some "open launch/bp1/launch.toml: no such file or directory"
        ∧ (demoBuilder.Build demoSys "app" "launch" "cache" (demoState demoNoToml)).1
          = (none, some "open launch/bp1/launch.toml: no such file or directory"))
    ∧ ((buildIter (demoSysRefusing ["cache/bp1/jdk/env/set"]) demoBuilder "app" "launch" "cache" ⟨"bp1", "buildpacks/bp1"⟩
            processMap.empty (demoState demoOS)).1
          = some "cannot set cache/bp1/jdk/env/set"
        ∧ (demoBuilder.Build (demoSysRefusing ["cache/bp1/jdk/env/set"]) "app" "launch" "cache" (demoState demoOS)).1
          = (none, some "cannot set cache/bp1/jdk/env/set"))
    ∧ ((demoBuilder.Build demoSys "app" "launch" "cache" (demoState demoOS)).1.1
          = some ⟨[⟨"web", "b"⟩, ⟨"worker", "c"⟩]⟩
        ∧ (demoBuilder.Build demoSys "app" "launch" "cache" (demoState demoOS)).1.2 = none)
    ∧ ((demoBuilder.Build demoSys "app" "launch" "cache" (demoState demoNoToml)).1.1 = none
        ∧ ∃ e, (demoBuilder.Build demoSys "app" "launch" "cache" (demoState demoNoToml)).1.2 = some e)
    ∧ ((developIter demoSys demoBuilder "app" "cache" ⟨"bp2", "buildpacks/bp2"⟩
            (developLoop demoSys demoBuilder "app" "cache" [⟨"bp1", "buildpacks/bp1"⟩]
            processMap.empty (demoState demoReadonly)).2.1 (developLoop demoSys demoBuilder "app" "cache" [⟨"bp1", "buildpacks/bp1"⟩]
            processMap.empty (demoState demoReadonly)).2.2).1
          = some "mkdir cache/bp2: permission denied"
        ∧ (demoBuilder.Develop demoSys "app" "cache" (demoState demoReadonly)).1
          = (none, some "mkdir cache/bp2: permission denied"))
    ∧ ((developIter demoSys demoBuilder "app" "cache" ⟨"bp2", "buildpacks/bp2"⟩
            (developLoop demoSys demoBuilder "app" "cache" [⟨"bp1", "buildpacks/bp1"⟩]
            processMap.empty (demoState demoFailing)).2.1 (developLoop demoSys demoBuilder "app" "cache" [⟨"bp1", "buildpacks/bp1"⟩]
            processMap.empty (demoState demoFailing)).2.2).1
          = some "exit status 1"
        ∧ (demoBuilder.Develop demoSys "app" "cache" (demoState demoFailing)).1
          = (none, some "exit status 1"))
    ∧ ((developIter demoSys demoBuilder "app" "cache" ⟨"bp1", "buildpacks/bp1"⟩
            processMap.empty (demoState demoNoToml)).1
          = some "open cache/bp1/develop.toml: no such file or directory"
        ∧ (demoBuilder.Develop demoSys "app" "cache" (demoState demoNoToml)).1
          = (none, some "open cache/bp1/develop.toml: no such file or directory"))
    ∧ ((developIter (demoSysRefusing ["cache/bp1/jdk/env/set"]) demoBuilder "app" "cache" ⟨"bp1", "buildpacks/bp1"⟩
            processMap.empty (demoState demoOS)).1
          = some "cannot set cache/bp1/jdk/env/set"
        ∧ (demoBuilder.Develop (demoSysRefusing ["cache/bp1/jdk/env/set"]) "app" "cache" (demoState demoOS)).1
          = (none, some "cannot set cache/bp1/jdk/env/set"))
    ∧ ((demoBuilder.Develop demoSys "app" "cache" (demoState demoOS)).1.1
          = some ⟨[⟨"web", "b"⟩, ⟨"worker", "c"⟩]⟩
        ∧ (demoBuilder.Develop demoSys "app" "cache" (demoState demoOS)).1.2 = none)
    ∧ ((demoBuilder.Develop demoSys "app" "cache" (demoState demoNoToml)).1.1 = none
        ∧ ∃ e, (demoBuilder.Develop demoSys "app" "cache" (demoState demoNoToml)).1.2 = some e) :=
  ⟨⟨by decide,
      ((no_partial_result demoSys demoBuilder "app" "launch" "cache" (demoState demoReadonly)).1.2.1
        [⟨"bp1", "buildpacks/bp1"⟩] ⟨"bp2", "buildpacks/bp2"⟩ []
        (buildLoop demoSys demoBuilder "app" "launch" "cache" [⟨"bp1", "buildpacks/bp1"⟩]
            processMap.empty (demoState demoReadonly)).2.1
        (buildLoop demoSys demoBuilder "app" "launch" "cache" [⟨"bp1", "buildpacks/bp1"⟩]
            processMap.empty (demoState demoReadonly)).2.2
        "mkdir cache/bp2: permission denied" rfl rfl (by decide)).1⟩,
   ⟨by decide,
      ((no_partial_result demoSys demoBuilder "app" "launch" "cache" (demoState demoFailing)).1.2.1
        [⟨"bp1", "buildpacks/bp1"⟩] ⟨"bp2", "buildpacks/bp2"⟩ []
        (buildLoop demoSys demoBuilder "app" "launch" "cache" [⟨"bp1", "buildpacks/bp1"⟩]
            processMap.empty (demoState demoFailing)).2.1
        (buildLoop demoSys demoBuilder "app" "launch" "cache" [⟨"bp1", "buildpacks/bp1"⟩]
            processMap.empty (demoState demoFailing)).2.2
        "exit status 1" rfl rfl (by decide)).1⟩,
   ⟨by decide,
      ((no_partial_result demoSys demoBuilder "app" "launch" "cache" (demoState demoNoToml)).1.2.1
        [] ⟨"bp1", "buildpacks/bp1"⟩ [⟨"bp2", "buildpacks/bp2"⟩]
        processMap.empty
        (demoState demoNoToml)
        "open launch/bp1/launch.toml: no such file or directory" rfl rfl (by decide)).1⟩,
   ⟨by decide,
      ((no_partial_result (demoSysRefusing ["cache/bp1/jdk/env/set"]) demoBuilder "app" "launch" "cache" (demoState demoOS)).1.2.1
        [] ⟨"bp1", "buildpacks/bp1"⟩ [⟨"bp2", "buildpacks/bp2"⟩]
        processMap.empty
        (demoState demoOS)
        "cannot set cache/bp1/jdk/env/set" rfl rfl (by decide)).1⟩,
   ⟨by decide,
      ((no_partial_result demoSys demoBuilder "app" "launch" "cache" (demoState demoOS)).1.2.2.1
        ⟨[⟨"web", "b"⟩, ⟨"worker", "c"⟩]⟩ (by decide)).1⟩,
   ⟨by decide,
      (no_partial_result demoSys demoBuilder "app" "launch" "cache" (demoState demoNoToml)).1.2.2.2 (by decide)⟩,
   ⟨by decide,
      ((no_partial_result demoSys demoBuilder "app" "launch" "cache" (demoState demoReadonly)).2.2.1
        [⟨"bp1", "buildpacks/bp1"⟩] ⟨"bp2", "buildpacks/bp2"⟩ []
        (developLoop demoSys demoBuilder "app" "cache" [⟨"bp1", "buildpacks/bp1"⟩]
            processMap.empty (demoState demoReadonly)).2.1
        (developLoop demoSys demoBuilder "app" "cache" [⟨"bp1", "buildpacks/bp1"⟩]
            processMap.empty (demoState demoReadonly)).2.2
        "mkdir cache/bp2: permission denied" rfl rfl (by decide)).1⟩,
   ⟨by decide,
      ((no_partial_result demoSys demoBuilder "app" "launch" "cache" (demoState demoFailing)).2.2.1
        [⟨"bp1", "buildpacks/bp1"⟩] ⟨"bp2", "buildpacks/bp2"⟩ []
        (developLoop demoSys demoBuilder "app" "cache" [⟨"bp1", "buildpacks/bp1"⟩]
            processMap.empty (demoState demoFailing)).2.1
        (developLoop demoSys demoBuilder "app" "cache" [⟨"bp1", "buildpacks/bp1"⟩]
            processMap.empty (demoState demoFailing)).2.2
        "exit status 1" rfl rfl (by decide)).1⟩,
   ⟨by decide,
      ((no_partial_result demoSys demoBuilder "app" "launch" "cache" (demoState demoNoToml)).2.2.1
        [] ⟨"bp1", "buildpacks/bp1"⟩ [⟨"bp2", "buildpacks/bp2"⟩]
        processMap.empty
        (demoState demoNoToml)
        "open cache/bp1/develop.toml: no such file or directory" rfl rfl (by decide)).1⟩,
   ⟨by decide,
      ((no_partial_result (demoSysRefusing ["cache/bp1/jdk/env/set"]) demoBuilder "app" "launch" "cache" (demoState demoOS)).2.2.1
        [] ⟨"bp1", "buildpacks/bp1"⟩ [⟨"bp2", "buildpacks/bp2"⟩]
        processMap.empty
        (demoState demoOS)
        "cannot set cache/bp1/jdk/env/set" rfl rfl (by decide)).1⟩,
   ⟨by decide,
      ((no_partial_result demoSys demoBuilder "app" "launch" "cache" (demoState demoOS)).2.2.2.1
        ⟨[⟨"web", "b"⟩, ⟨"worker", "c"⟩]⟩ (by decide)).1⟩,
   ⟨by decide,
      (no_partial_result demoSys demoBuilder "app" "launch" "cache" (demoState demoNoToml)).2.2.2.2 (by decide)⟩⟩

end results

/-! ## The order of the steps -/

section steps
variable {ω ε : Type}

/-- C4. In `Build` and `Develop` every pass of the loop body makes its calls in the
order: create directories, (resolve the path,) `List`, run the executable, list the cache
directory and make the three phases of composition calls for the directories it lists,
decode the output file; it stops at the first failing call, and the decoded processes
are registered after the decoding.  `Build` and `Develop` make these passes in group
order and end at a failing pass.  In particular a failing decoding of a buildpack's
output file comes after every composition call for the directories listed in that
buildpack's cache directory, all of which succeeded; it is the last call of the run, and
its error is returned. -/
theorem step_order (sys : Sys ω ε) (b : Builder) (appDir launchDir cacheDir : String)
    (s : State ω ε) :
    (∀ bp pm s', ∃ evs,
        (buildIter sys b appDir launchDir cacheDir bp pm s').2.2.trace = s'.trace ++ evs
        ∧ Recorded (buildCalls sys launchDir cacheDir bp
              (buildCmd sys b appDir launchDir cacheDir bp s')
              (listing sys (sys.Join [cacheDir, bp.ID])
                (buildRunState sys b appDir launchDir cacheDir bp s').os))
            (buildIter sys b appDir launchDir cacheDir bp pm s').1 evs
        ∧ (Event.ok (Call.ReadDir (sys.Join [cacheDir, bp.ID])) ∈ evs →
            sys.ReadDir (sys.Join [cacheDir, bp.ID])
                (buildRunState sys b appDir launchDir cacheDir bp s').os
              = .ok (listing sys (sys.Join [cacheDir, bp.ID])
                  (buildRunState sys b appDir launchDir cacheDir bp s').os)))
    ∧ (∀ bp pm s', ∃ evs,
        (developIter sys b appDir cacheDir bp pm s').2.2.trace = s'.trace ++ evs
        ∧ Recorded (developCalls sys cacheDir bp (developCmd sys b appDir cacheDir bp s')
              (listing sys (sys.Join [cacheDir, bp.ID])
                (developRunState sys b appDir cacheDir bp s').os))
            (developIter sys b appDir cacheDir bp pm s').1 evs
        ∧ (Event.ok (Call.ReadDir (sys.Join [cacheDir, bp.ID])) ∈ evs →
            sys.ReadDir (sys.Join [cacheDir, bp.ID])
                (developRunState sys b appDir cacheDir bp s').os
              = .ok (listing sys (sys.Join [cacheDir, bp.ID])
                  (developRunState sys b appDir cacheDir bp s').os)))
    ∧ (∀ pre bp post pm sk, b.Buildpacks = pre ++ bp :: post →
        buildLoop sys b appDir launchDir cacheDir pre processMap.empty s = (none, pm, sk) →
        (∃ rest, (b.Build sys appDir launchDir cacheDir s).2.trace
            = (buildIter sys b appDir launchDir cacheDir bp pm sk).2.2.trace ++ rest)
        ∧ (∀ e, (buildIter sys b appDir launchDir cacheDir bp pm sk).1 = some e →
            (b.Build sys appDir launchDir cacheDir s).1 = (none, some e)
            ∧ (b.Build sys appDir launchDir cacheDir s).2
              = (buildIter sys b appDir launchDir cacheDir bp pm sk).2.2))
    ∧ (∀ pre bp post pm sk, b.Buildpacks = pre ++ bp :: post →
        developLoop sys b appDir cacheDir pre processMap.empty s = (none, pm, sk) →
        (∃ rest, (b.Develop sys appDir cacheDir s).2.trace
            = (developIter sys b appDir cacheDir bp pm sk).2.2.trace ++ rest)
        ∧ (∀ e, (developIter sys b appDir cacheDir bp pm sk).1 = some e →
            (b.Develop sys appDir cacheDir s).1 = (none, some e)
            ∧ (b.Develop sys appDir cacheDir s).2
              = (developIter sys b appDir cacheDir bp pm sk).2.2))
    ∧ (∀ evs f e, (b.Build sys appDir launchDir cacheDir s).2.trace = s.trace ++ evs →
        (⟨Call.DecodeFile f, some e⟩ : Event) ∈ evs →
        (b.Build sys appDir launchDir cacheDir s).1 = (none, some e)
        ∧ ∃ pre bp post pm sk evsPre files, b.Buildpacks = pre ++ bp :: post
          ∧ buildLoop sys b appDir launchDir cacheDir pre processMap.empty s = (none, pm, sk)
          ∧ sk.trace = s.trace ++ evsPre
          ∧ sys.ReadDir (sys.Join [cacheDir, bp.ID])
              (buildRunState sys b appDir launchDir cacheDir bp sk).os = .ok files
          ∧ f = sys.Join [sys.Join [launchDir, bp.ID], "launch.toml"]
          ∧ evs = evsPre ++
              (([Call.MkdirAll (sys.Join [launchDir, bp.ID]) 0o777,
                 Call.MkdirAll (sys.Join [cacheDir, bp.ID]) 0o777,
                 Call.Abs (sys.Join [bp.Dir, "bin", "build"]), Call.List,
                 Call.Run (buildCmd sys b appDir launchDir cacheDir bp sk)]
                ++ composeCalls sys (sys.Join [cacheDir, bp.ID]) files).map Event.ok
              ++ [⟨Call.DecodeFile f, some e⟩]))
    ∧ (∀ evs f e, (b.Develop sys appDir cacheDir s).2.trace = s.trace ++ evs →
        (⟨Call.DecodeFile f, some e⟩ : Event) ∈ evs →
        (b.Develop sys appDir cacheDir s).1 = (none, some e)
        ∧ ∃ pre bp post pm sk evsPre files, b.Buildpacks = pre ++ bp :: post
          ∧ developLoop sys b appDir cacheDir pre processMap.empty s = (none, pm, sk)
          ∧ sk.trace = s.trace ++ evsPre
          ∧ sys.ReadDir (sys.Join [cacheDir, bp.ID])
              (developRunState sys b appDir cacheDir bp sk).os = .ok files
          ∧ f = sys.Join [sys.Join [cacheDir, bp.ID], "develop.toml"]
          ∧ evs = evsPre ++
              (([Call.MkdirAll (sys.Join [cacheDir, bp.ID]) 0o777, Call.List,
                 Call.Run (developCmd sys b appDir cacheDir bp sk)]
                ++ composeCalls sys (sys.Join [cacheDir, bp.ID]) files).map Event.ok
              ++ [⟨Call.DecodeFile f, some e⟩]))
    ∧ (∀ bp pm s', (buildIter sys b appDir launchDir cacheDir bp pm s').1 = none →
        ∃ procs, sys.DecodeFile (sys.Join [sys.Join [launchDir, bp.ID], "launch.toml"])
            (buildIter sys b appDir launchDir cacheDir bp pm s').2.2.os = .ok procs
          ∧ (buildIter sys b appDir launchDir cacheDir bp pm s').2.1 = pm.add procs)
    ∧ (∀ bp pm s', (developIter sys b appDir cacheDir bp pm s').1 = none →
        ∃ procs, sys.DecodeFile (sys.Join [sys.Join [cacheDir, bp.ID], "develop.toml"])
            (developIter sys b appDir cacheDir bp pm s').2.2.os = .ok procs
          ∧ (developIter sys b appDir cacheDir bp pm s').2.1 = pm.add procs) := by
  refine ⟨buildIter_pass sys b appDir launchDir cacheDir,
    developIter_pass sys b appDir cacheDir,
    Build_reach sys b appDir launchDir cacheDir s,
    Develop_reach sys b appDir cacheDir s,
    Build_decode_failure sys b appDir launchDir cacheDir s,
    Develop_decode_failure sys b appDir cacheDir s, ?_, ?_⟩
  · intro bp pm s' h
    obtain ⟨_, s6, procs, _, hd, hp, _, hos⟩ :=
      buildIter_success sys b appDir launchDir cacheDir bp pm s' h
    exact ⟨procs, by rw [hos]; exact hd, hp⟩
  · intro bp pm s' h
    obtain ⟨_, s6, procs, _, hd, hp, _, hos⟩ :=
      developIter_success sys b appDir cacheDir bp pm s' h
    exact ⟨procs, by rw [hos]; exact hd, hp⟩

/-- Witness of C4 on the example.  A pass of `bp1` with everything in place records its
calls in the order stated, the composition calls being those for the directory `jdk`
that `ReadDir` lists.  With the executables of `bp2` failing, `Build` and `Develop` end at
the pass of `bp2`, reached after the pass of `bp1`.  With no output file, the decoding
for `bp1` fails after the three composition calls and its error is returned.  With the
output files, the pass for `bp1` registers what it decoded. -/
theorem step_order_witness :
    ((buildIter demoSys demoBuilder "app" "launch" "cache" ⟨"bp1", "buildpacks/bp1"⟩
          processMap.empty (demoState demoOS)).2.2.trace
        = [Event.ok (Call.MkdirAll "launch/bp1" 0o777),
           Event.ok (Call.MkdirAll "cache/bp1" 0o777),
           Event.ok (Call.Abs "buildpacks/bp1/bin/build"),
           Event.ok Call.List,
           Event.ok (Call.Run ⟨"/work/buildpacks/bp1/bin/build",
             ["launch/bp1", "cache/bp1", "platform"], ["HOME=/home"], "app", 1, 2⟩),
           Event.ok (Call.ReadDir "cache/bp1"),
           Event.ok (Call.AppendDirs "cache/bp1/jdk"),
           Event.ok (Call.SetEnvDir "cache/bp1/jdk/env/set"),
           Event.ok (Call.AddEnvDir "cache/bp1/jdk/env/add"),
           Event.ok (Call.DecodeFile "launch/bp1/launch.toml")]
      ∧ listing demoSys "cache/bp1"
          (buildRunState demoSys demoBuilder "app" "launch" "cache"
            ⟨"bp1", "buildpacks/bp1"⟩ (demoState demoOS)).os
        = [⟨"jdk", true⟩, ⟨"notes.txt", false⟩]
      ∧ ∃ evs,
          (buildIter demoSys demoBuilder "app" "launch" "cache" ⟨"bp1", "buildpacks/bp1"⟩
            processMap.empty (demoState demoOS)).2.2.trace = (demoState demoOS).trace ++ evs
          ∧ Recorded (buildCalls demoSys "launch" "cache" ⟨"bp1", "buildpacks/bp1"⟩
                (buildCmd demoSys demoBuilder "app" "launch" "cache"
                  ⟨"bp1", "buildpacks/bp1"⟩ (demoState demoOS))
                (listing demoSys (demoSys.Join ["cache", "bp1"])
                  (buildRunState demoSys demoBuilder "app" "launch" "cache"
                    ⟨"bp1", "buildpacks/bp1"⟩ (demoState demoOS)).os))
              (buildIter demoSys demoBuilder "app" "launch" "cache"
                ⟨"bp1", "buildpacks/bp1"⟩ processMap.empty (demoState demoOS)).1 evs
          ∧ (Event.ok (Call.ReadDir (demoSys.Join ["cache", "bp1"])) ∈ evs →
              demoSys.ReadDir (demoSys.Join ["cache", "bp1"])
                  (buildRunState demoSys demoBuilder "app" "launch" "cache"
                    ⟨"bp1", "buildpacks/bp1"⟩ (demoState demoOS)).os
                = .ok (listing demoSys (demoSys.Join ["cache", "bp1"])
                    (buildRunState demoSys demoBuilder "app" "launch" "cache"
                      ⟨"bp1", "buildpacks/bp1"⟩ (demoState demoOS)).os)))
    ∧ ((developIter demoSys demoBuilder "app" "cache" ⟨"bp1", "buildpacks/bp1"⟩
          processMap.empty (demoState demoOS)).2.2.trace
        = [Event.ok (Call.MkdirAll "cache/bp1" 0o777),
           Event.ok Call.List,
           Event.ok (Call.Run ⟨"buildpacks/bp1/bin/develop", ["cache/bp1", "platform"],
             ["HOME=/home"], "app", 1, 2⟩),
           Event.ok (Call.ReadDir "cache/bp1"),
           Event.ok (Call.AppendDirs "cache/bp1/jdk"),
           Event.ok (Call.SetEnvDir "cache/bp1/jdk/env/set"),
           Event.ok (Call.AddEnvDir "cache/bp1/jdk/env/add"),
           Event.ok (Call.DecodeFile "cache/bp1/develop.toml")]
      ∧ ∃ evs,
          (developIter demoSys demoBuilder "app" "cache" ⟨"bp1", "buildpacks/bp1"⟩
            processMap.empty (demoState demoOS)).2.2.trace = (demoState demoOS).trace ++ evs
          ∧ Recorded (developCalls demoSys "cache" ⟨"bp1", "buildpacks/bp1"⟩
                (developCmd demoSys demoBuilder "app" "cache"
                  ⟨"bp1", "buildpacks/bp1"⟩ (demoState demoOS))
                (listing demoSys (demoSys.Join ["cache", "bp1"])
                  (developRunState demoSys demoBuilder "app" "cache"
                    ⟨"bp1", "buildpacks/bp1"⟩ (demoState demoOS)).os))
              (developIter demoSys demoBuilder "app" "cache"
                ⟨"bp1", "buildpacks/bp1"⟩ processMap.empty (demoState demoOS)).1 evs
          ∧ (Event.ok (Call.ReadDir (demoSys.Join ["cache", "bp1"])) ∈ evs →
              demoSys.ReadDir (demoSys.Join ["cache", "bp1"])
                  (developRunState demoSys demoBuilder "app" "cache"
                    ⟨"bp1", "buildpacks/bp1"⟩ (demoState demoOS)).os
                = .ok (listing demoSys (demoSys.Join ["cache", "bp1"])
                    (developRunState demoSys demoBuilder "app" "cache"
                      ⟨"bp1", "buildpacks/bp1"⟩ (demoState demoOS)).os)))
    ∧ ((buildIter demoSys demoBuilder "app" "launch" "cache" ⟨"bp2", "buildpacks/bp2"⟩
          (buildLoop demoSys demoBuilder "app" "launch" "cache" [⟨"bp1", "buildpacks/bp1"⟩]
            processMap.empty (demoState demoFailing)).2.1
          (buildLoop demoSys demoBuilder "app" "launch" "cache" [⟨"bp1", "buildpacks/bp1"⟩]
            processMap.empty (demoState demoFailing)).2.2).1 = some "exit status 1"
      ∧ (demoBuilder.Build demoSys "app" "launch" "cache" (demoState demoFailing)).1
        = (none, some "exit status 1"))
    ∧ ((developIter demoSys demoBuilder "app" "cache" ⟨"bp2", "buildpacks/bp2"⟩
          (developLoop demoSys demoBuilder "app" "cache" [⟨"bp1", "buildpacks/bp1"⟩]
            processMap.empty (demoState demoFailing)).2.1
          (developLoop demoSys demoBuilder "app" "cache" [⟨"bp1", "buildpacks/bp1"⟩]
            processMap.empty (demoState demoFailing)).2.2).1 = some "exit status 1"
      ∧ (demoBuilder.Develop demoSys "app" "cache" (demoState demoFailing)).1
        = (none, some "exit status 1"))
    ∧ (((⟨Call.DecodeFile "launch/bp1/launch.toml",
          some "open launch/bp1/launch.toml: no such file or directory"⟩ : Event)
        ∈ (demoBuilder.Build demoSys "app" "launch" "cache" (demoState demoNoToml)).2.trace)
      ∧ (demoBuilder.Build demoSys "app" "launch" "cache" (demoState demoNoToml)).2.trace
        = [Event.ok (Call.MkdirAll "launch/bp1" 0o777),
           Event.ok (Call.MkdirAll "cache/bp1" 0o777),
           Event.ok (Call.Abs "buildpacks/bp1/bin/build"),
           Event.ok Call.List,
           Event.ok (Call.Run ⟨"/work/buildpacks/bp1/bin/build",
             ["launch/bp1", "cache/bp1", "platform"], ["HOME=/home"], "app", 1, 2⟩),
           Event.ok (Call.ReadDir "cache/bp1"),
           Event.ok (Call.AppendDirs "cache/bp1/jdk"),
           Event.ok (Call.SetEnvDir "cache/bp1/jdk/env/set"),
           Event.ok (Call.AddEnvDir "cache/bp1/jdk/env/add"),
           ⟨Call.DecodeFile "launch/bp1/launch.toml",
             some "open launch/bp1/launch.toml: no such file or directory"⟩]
      ∧ (demoBuilder.Build demoSys "app" "launch" "cache" (demoState demoNoToml)).1
        = (none, some "open launch/bp1/launch.toml: no such file or directory"))
    ∧ (((⟨Call.DecodeFile "cache/bp1/develop.toml",
          some "open cache/bp1/develop.toml: no such file or directory"⟩ : Event)
        ∈ (demoBuilder.Develop demoSys "app" "cache" (demoState demoNoToml)).2.trace)
      ∧ (demoBuilder.Develop demoSys "app" "cache" (demoState demoNoToml)).2.trace
        = [Event.ok (Call.MkdirAll "cache/bp1" 0o777),
           Event.ok Call.List,
           Event.ok (Call.Run ⟨"buildpacks/bp1/bin/develop", ["cache/bp1", "platform"],
             ["HOME=/home"], "app", 1, 2⟩),
           Event.ok (Call.ReadDir "cache/bp1"),
           Event.ok (Call.AppendDirs "cache/bp1/jdk"),
           Event.ok (Call.SetEnvDir "cache/bp1/jdk/env/set"),
           Event.ok (Call.AddEnvDir "cache/bp1/jdk/env/add"),
           ⟨Call.DecodeFile "cache/bp1/develop.toml",
             some "open cache/bp1/develop.toml: no such file or directory"⟩]
      ∧ (demoBuilder.Develop demoSys "app" "cache" (demoState demoNoToml)).1
        = (none, some "open cache/bp1/develop.toml: no such file or directory"))
    ∧ ((buildIter demoSys demoBuilder "app" "launch" "cache" ⟨"bp1", "buildpacks/bp1"⟩
          processMap.empty (demoState demoOS)).1 = none
      ∧ ∃ procs,
          demoSys.DecodeFile (demoSys.Join [demoSys.Join ["launch", "bp1"], "launch.toml"])
              (buildIter demoSys demoBuilder "app" "launch" "cache" ⟨"bp1", "buildpacks/bp1"⟩
                processMap.empty (demoState demoOS)).2.2.os = .ok procs
          ∧ (buildIter demoSys demoBuilder "app" "launch" "cache" ⟨"bp1", "buildpacks/bp1"⟩
              processMap.empty (demoState demoOS)).2.1 = processMap.add processMap.empty procs)
    ∧ ((developIter demoSys demoBuilder "app" "cache" ⟨"bp1", "buildpacks/bp1"⟩
          processMap.empty (demoState demoOS)).1 = none
      ∧ ∃ procs,
          demoSys.DecodeFile (demoSys.Join [demoSys.Join ["cache", "bp1"], "develop.toml"])
              (developIter demoSys demoBuilder "app" "cache" ⟨"bp1", "buildpacks/bp1"⟩
                processMap.empty (demoState demoOS)).2.2.os = .ok procs
          ∧ (developIter demoSys demoBuilder "app" "cache" ⟨"bp1", "buildpacks/bp1"⟩
              processMap.empty (demoState demoOS)).2.1 = processMap.add processMap.empty procs) :=
  ⟨⟨by decide, by decide,
    (step_order demoSys demoBuilder "app" "launch" "cache" (demoState demoOS)).1
      ⟨"bp1", "buildpacks/bp1"⟩ processMap.empty (demoState demoOS)⟩,
   ⟨by decide,
    (step_order demoSys demoBuilder "app" "launch" "cache" (demoState demoOS)).2.1
      ⟨"bp1", "buildpacks/bp1"⟩ processMap.empty (demoState demoOS)⟩,
   ⟨by decide,
    (((step_order demoSys demoBuilder "app" "launch" "cache"
        (demoState demoFailing)).2.2.1
      [⟨"bp1", "buildpacks/bp1"⟩] ⟨"bp2", "buildpacks/bp2"⟩ []
      (buildLoop demoSys demoBuilder "app" "launch" "cache" [⟨"bp1", "buildpacks/bp1"⟩]
        processMap.empty (demoState demoFailing)).2.1
      (buildLoop demoSys demoBuilder "app" "launch" "cache" [⟨"bp1", "buildpacks/bp1"⟩]
        processMap.empty (demoState demoFailing)).2.2 rfl rfl).2
      "exit status 1" (by decide)).1⟩,
   ⟨by decide,
    (((step_order demoSys demoBuilder "app" "launch" "cache"
        (demoState demoFailing)).2.2.2.1
      [⟨"bp1", "buildpacks/bp1"⟩] ⟨"bp2", "buildpacks/bp2"⟩ []
      (developLoop demoSys demoBuilder "app" "cache" [⟨"bp1", "buildpacks/bp1"⟩]
        processMap.empty (demoState demoFailing)).2.1
      (developLoop demoSys demoBuilder "app" "cache" [⟨"bp1", "buildpacks/bp1"⟩]
        processMap.empty (demoState demoFailing)).2.2 rfl rfl).2
      "exit status 1" (by decide)).1⟩,
   ⟨by decide, by decide,
    ((step_order demoSys demoBuilder "app" "launch" "cache"
        (demoState demoNoToml)).2.2.2.2.1
      (demoBuilder.Build demoSys "app" "launch" "cache" (demoState demoNoToml)).2.trace
      "launch/bp1/launch.toml" "open launch/bp1/launch.toml: no such file or directory"
      rfl (by decide)).1⟩,
   ⟨by decide, by decide,
    ((step_order demoSys demoBuilder "app" "launch" "cache"
        (demoState demoNoToml)).2.2.2.2.2.1
      (demoBuilder.Develop demoSys "app" "cache" (demoState demoNoToml)).2.trace
      "cache/bp1/develop.toml" "open cache/bp1/develop.toml: no such file or directory"
      rfl (by decide)).1⟩,
   ⟨by decide,
    (step_order demoSys demoBuilder "app" "launch" "cache"
        (demoState demoOS)).2.2.2.2.2.2.1
      ⟨"bp1", "buildpacks/bp1"⟩ processMap.empty (demoState demoOS) (by decide)⟩,
   ⟨by decide,
    (step_order demoSys demoBuilder "app" "launch" "cache"
        (demoState demoOS)).2.2.2.2.2.2.2
      ⟨"bp1", "buildpacks/bp1"⟩ processMap.empty (demoState demoOS) (by decide)⟩⟩

end steps

end lifecycle
